import Mathlib

/-!
# Code generator of the VSL compiler (`src/generator.c`)

A shallow embedding of the x86-64 code generator.  The generator writes assembly text to
standard output through the macros of `emit.h`; here every emitted line is a value of `Instr`
and a generator function returns the list of lines it wrote together with either its return
value or the error it stopped with (`exit(EXIT_FAILURE)`, a failed `assert`, or an access that
is undefined in C).  The C globals `if_counter`, `while_counter`, `loop_end_labels` and
`loop_depth` are the fields of `gen_state`, passed explicitly; the global `current_function`
is read-only while a function body is generated and is passed as the argument `cf`.
-/

namespace Generator

/-! ## Data model (declared in `vslc.h`) -/

/-- Node kinds the generator inspects; `LIST` stands for the list nodes it only walks. -/
inductive node_type_t
  | LIST
  | NUMBER_LITERAL
  | IDENTIFIER
  | ARRAY_INDEXING
  | OPERATOR
  | FUNCTION_CALL
  | BLOCK
  | ASSIGNMENT_STATEMENT
  | PRINT_STATEMENT
  | RETURN_STATEMENT
  | IF_STATEMENT
  | WHILE_STATEMENT
  | BREAK_STATEMENT
  | STRING_LIST_REFERENCE
  deriving DecidableEq, Repr

/-- Symbol kinds. -/
inductive symtype_t
  | SYMBOL_GLOBAL_VAR
  | SYMBOL_GLOBAL_ARRAY
  | SYMBOL_FUNCTION
  | SYMBOL_LOCAL_VAR
  | SYMBOL_PARAMETER
  deriving DecidableEq, Repr

/-- A symbol as the generator reads it through a node's `symbol` pointer.
`param_count` is `FUNC_PARAM_COUNT(symbol)`, that is `symbol->node->children[1]->n_children`
(read for function symbols only); `length_type` and `length_literal` are the type and the
`number_literal` of `symbol->node->children[1]` (read for global arrays only). -/
structure symbol_t where
  name : String
  type : symtype_t
  sequence_number : Nat := 0
  param_count : Nat := 0
  length_type : node_type_t := node_type_t.NUMBER_LITERAL
  length_literal : Int := 0
  deriving DecidableEq, Repr

/-- An AST node: its type tag, its children (`n_children` is the length of the list), the
three readings of its `data` union, and its symbol pointer (`none` is `NULL`). -/
inductive node_t where
  | mk (type : node_type_t) (children : List node_t) (number_literal : Int)
      (operator : String) (string_list_index : Nat) (symbol : Option symbol_t)
  deriving Repr

namespace node_t

/-- Field `type`. -/
def type : node_t → node_type_t
  | mk t _ _ _ _ _ => t

/-- Field `children`. -/
def children : node_t → List node_t
  | mk _ c _ _ _ _ => c

/-- Field `data.number_literal`. -/
def number_literal : node_t → Int
  | mk _ _ n _ _ _ => n

/-- Field `data.operator`. -/
def operator : node_t → String
  | mk _ _ _ o _ _ => o

/-- Field `data.string_list_index`. -/
def string_list_index : node_t → Nat
  | mk _ _ _ _ i _ => i

/-- Field `symbol`. -/
def symbol : node_t → Option symbol_t
  | mk _ _ _ _ _ s => s

/-- Number literal node. -/
def number (n : Int) : node_t := mk node_type_t.NUMBER_LITERAL [] n "" 0 none

/-- Identifier node bound to `sym`. -/
def identifier (sym : symbol_t) : node_t := mk node_type_t.IDENTIFIER [] 0 "" 0 (some sym)

/-- Operator node with one operand. -/
def unary (op : String) (a : node_t) : node_t := mk node_type_t.OPERATOR [a] 0 op 0 none

/-- Operator node with two operands. -/
def binary (op : String) (a b : node_t) : node_t := mk node_type_t.OPERATOR [a, b] 0 op 0 none

/-- List node. -/
def list (items : List node_t) : node_t := mk node_type_t.LIST items 0 "" 0 none

/-- Call node: child 0 is the callee identifier, child 1 the argument list. -/
def call (sym : symbol_t) (args : List node_t) : node_t :=
  mk node_type_t.FUNCTION_CALL [identifier sym, list args] 0 "" 0 none

/-- Array indexing node: child 0 is the array identifier, child 1 the index expression. -/
def index (sym : symbol_t) (idx : node_t) : node_t :=
  mk node_type_t.ARRAY_INDEXING [identifier sym, idx] 0 "" 0 none

/-- Block node whose last child is the statement list. -/
def block (stmts : List node_t) : node_t := mk node_type_t.BLOCK [list stmts] 0 "" 0 none

/-- Return node. -/
def ret (e : node_t) : node_t := mk node_type_t.RETURN_STATEMENT [e] 0 "" 0 none

/-- If node without else branch. -/
def ifThen (c t : node_t) : node_t := mk node_type_t.IF_STATEMENT [c, t] 0 "" 0 none

/-- If node with else branch. -/
def ifThenElse (c t e : node_t) : node_t := mk node_type_t.IF_STATEMENT [c, t, e] 0 "" 0 none

/-- While node. -/
def while_ (c body : node_t) : node_t := mk node_type_t.WHILE_STATEMENT [c, body] 0 "" 0 none

/-- Break node. -/
def break_ : node_t := mk node_type_t.BREAK_STATEMENT [] 0 "" 0 none

end node_t

/-! ## Emitted assembly (the macros of `emit.h`) -/

/-- Register names. -/
inductive Reg
  | RAX | RCX | RDX | RDI | RSI | R8 | R9 | RBP | RSP | RIP | AL
  deriving DecidableEq, Repr

/-- Operands as they are printed in AT&T syntax. -/
inductive Operand
  /-- A register, `%rax`. -/
  | reg (r : Reg)
  /-- An immediate, `$n`. -/
  | imm (n : Int)
  /-- The character immediate `$'\n'`. -/
  | newline
  /-- A frame slot, `offset(%rbp)`. -/
  | frame (offset : Int)
  /-- A global variable or array, `.name(%rip)`. -/
  | global (name : String)
  /-- A runtime string, `name(%rip)` (`intout`, `strout`, `errout`). -/
  | runtime (name : String)
  /-- A string table entry, `stringN(%rip)`. -/
  | string_entry (index : Nat)
  /-- Memory at a register, `(%rcx)`. -/
  | mem (r : Reg)
  /-- Scaled index, `(%base, %index, scale)`. -/
  | indexed (base index : Reg) (scale : Nat)
  deriving DecidableEq, Repr

/-- Labels. -/
inductive Label
  /-- Function entry `.name`. -/
  | function (name : String)
  /-- Function exit `.name.epilogue`. -/
  | epilogue (name : String)
  | ELSE (n : Nat)
  | ENDIF (n : Nat)
  | WHILE (n : Nat)
  | ENDWHILE (n : Nat)
  /-- A fixed name: `main`, `ABORT`, `PARSE_ARGV`, `safe_printf`, `printf`, ... -/
  | named (name : String)
  deriving DecidableEq, Repr

/-- Assembler directives. -/
inductive Directive
  | section_ (name : String)
  | asciz (name : String) (text : String)
  | string_entry (index : Nat) (text : String)
  | align (n : Nat)
  | zero (name : String) (bytes : Int)
  | text
  | declare_symbols
  deriving DecidableEq, Repr

/-- One emitted line.  Two-operand instructions list the source first (AT&T order). -/
inductive Instr
  | directive (d : Directive)
  | label (l : Label)
  | movq (src dst : Operand)
  | pushq (src : Operand)
  | popq (dst : Operand)
  | addq (src dst : Operand)
  | subq (src dst : Operand)
  | imulq (src dst : Operand)
  | andq (src dst : Operand)
  | negq (dst : Operand)
  | cqo
  | idivq (src : Operand)
  | cmpq (src dst : Operand)
  | sete (dst : Operand)
  | setne (dst : Operand)
  | setl (dst : Operand)
  | setle (dst : Operand)
  | setg (dst : Operand)
  | setge (dst : Operand)
  | movzbq (src dst : Operand)
  | leaq (src dst : Operand)
  | call (target : Label)
  | jmp (target : Label)
  | je (target : Label)
  | jne (target : Label)
  | loop (target : Label)
  | ret
  deriving DecidableEq, Repr

/-- Reasons for which generation stops. -/
inductive gen_error
  /-- Message `error: 'name' is not a function`. -/
  | not_a_function (name : String)
  /-- Message `error: function 'name' expects 'n' arguments, but 'm' were given`. -/
  | wrong_argument_count (name : String) (expected given : Nat)
  /-- Message `error: symbol 'name' is a function, not a variable`. -/
  | function_not_variable (name : String)
  /-- Message `error: symbol 'name' is an array, not a variable`. -/
  | array_not_variable (name : String)
  /-- Message `error: symbol 'name' is not an array`. -/
  | not_an_array (name : String)
  /-- Message `generate_while_statement: too many nested loops`. -/
  | too_many_nested_loops
  /-- Message `error: break statement not within a loop`. -/
  | break_outside_loop
  /-- Message `error: length of array 'name' is not compile time known`. -/
  | array_length_unknown (name : String)
  /-- Message `error: program contained no functions`. -/
  | no_functions
  /-- A failed `assert`. -/
  | assertion_failed
  /-- A read of a child beyond `n_children` or through a `NULL` symbol (undefined in C). -/
  | invalid_access
  deriving DecidableEq, Repr

deriving instance DecidableEq for Except

/-- What a generator function did: the lines it wrote, in order, and how it ended. -/
structure emitted (α : Type) where
  out : List Instr
  res : Except gen_error α

namespace emitted

/-- Write lines and return. -/
def emit (lines : List Instr) : emitted Unit := ⟨lines, Except.ok ()⟩

/-- Return a value without writing. -/
def pure {α : Type} (a : α) : emitted α := ⟨[], Except.ok a⟩

/-- Stop with an error without writing. -/
def fail {α : Type} (e : gen_error) : emitted α := ⟨[], Except.error e⟩

/-- Lift a function that writes nothing. -/
def lift {α : Type} (r : Except gen_error α) : emitted α := ⟨[], r⟩

/-- Sequential composition: `f` runs only if `x` returned. -/
def bind {α β : Type} (x : emitted α) (f : α → emitted β) : emitted β :=
  match x.res with
  | Except.ok a => ⟨x.out ++ (f a).out, (f a).res⟩
  | Except.error e => ⟨x.out, Except.error e⟩

/-- Run the steps in order, stopping at the first that fails. -/
def seq : List (emitted Unit) → emitted Unit
  | [] => ⟨[], Except.ok ()⟩
  | x :: rest =>
    match x.res with
    | Except.ok _ => ⟨x.out ++ (seq rest).out, (seq rest).res⟩
    | Except.error e => ⟨x.out, Except.error e⟩

end emitted

open emitted Instr Operand Reg

/-! ## Calling convention constants -/

/-- Constant `NUM_REGISTER_PARAMS`. -/
def NUM_REGISTER_PARAMS : Nat := 6

/-- Table `REGISTER_PARAMS`. -/
def REGISTER_PARAMS : List Reg := [RDI, RSI, RDX, RCX, R8, R9]

/-- Macro `FUNC_PARAM_COUNT(func)`. -/
def FUNC_PARAM_COUNT (func : symbol_t) : Nat := func.param_count

/-! ## Variable access -/

/-- The value of an integer as a C `int`: its signed 32-bit value, by two's-complement
wrap-around.  This is the conversion of a `size_t` to `int` on x86-64 (reduction modulo
`2^32`), and what the 32-bit machine arithmetic leaves where `int` arithmetic overflows. -/
def wrap32 (x : Int) : Int :=
  (x + 2147483648) % 4294967296 - 2147483648

/-- Function `generate_variable_access`: the operand for the quadword the identifier refers
to.  The offset is the variable `int call_frame_offset`, printed with `%d`: every value
stored in it is reduced to a signed 32-bit integer (`wrap32`).  The operands of the `size_t`
arithmetic (sequence numbers and parameter counts) are naturals; that arithmetic is modulo
`2^64`, which the reduction modulo `2^32` of the stored result absorbs. -/
def generate_variable_access (cf : symbol_t) (node : node_t) : Except gen_error Operand :=
  if node.type ≠ node_type_t.IDENTIFIER then Except.error gen_error.assertion_failed
  else
    match node.symbol with
    | none => Except.error gen_error.invalid_access
    | some symbol =>
      match symbol.type with
      | symtype_t.SYMBOL_GLOBAL_VAR => Except.ok (global symbol.name)
      | symtype_t.SYMBOL_LOCAL_VAR =>
        let call_frame_offset : Int := wrap32 symbol.sequence_number
        let call_frame_offset : Int :=
          if FUNC_PARAM_COUNT cf > NUM_REGISTER_PARAMS then
            wrap32 (call_frame_offset -
              ((FUNC_PARAM_COUNT cf : Int) - (NUM_REGISTER_PARAMS : Int)))
          else call_frame_offset
        let call_frame_offset : Int := wrap32 ((-call_frame_offset - 1) * 8)
        Except.ok (frame call_frame_offset)
      | symtype_t.SYMBOL_PARAMETER =>
        if symbol.sequence_number < NUM_REGISTER_PARAMS then
          Except.ok (frame (wrap32 (-((symbol.sequence_number : Int) + 1) * 8)))
        else
          Except.ok (frame (wrap32
            (16 + ((symbol.sequence_number : Int) - (NUM_REGISTER_PARAMS : Int)) * 8)))
      | symtype_t.SYMBOL_FUNCTION => Except.error (gen_error.function_not_variable symbol.name)
      | symtype_t.SYMBOL_GLOBAL_ARRAY => Except.error (gen_error.array_not_variable symbol.name)

/-! ## Expressions and calls -/

/-- The `OPERATOR` case of `generate_expression`: `op` is `expression->data.operator`,
`n_children` is `expression->n_children` and `child k` stands for the call
`generate_expression(expression->children[k])`. -/
def generate_operator (op : String) (n_children : Nat) (child : Nat → emitted Unit) :
    emitted Unit :=
  if op = "+" then
    seq [child 0, emit [pushq (reg RAX)], child 1,
      emit [popq (reg RCX), addq (reg RCX) (reg RAX)]]
  else if op = "-" then
    if n_children = 1 then seq [child 0, emit [negq (reg RAX)]]
    else
      seq [child 1, emit [pushq (reg RAX)], child 0,
        emit [popq (reg RCX), subq (reg RCX) (reg RAX)]]
  else if op = "*" then
    seq [child 0, emit [pushq (reg RAX)], child 1,
      emit [popq (reg RCX), imulq (reg RCX) (reg RAX)]]
  else if op = "/" then
    seq [child 1, emit [pushq (reg RAX)], child 0,
      emit [cqo, popq (reg RCX), idivq (reg RCX)]]
  else if op = "==" then
    seq [child 0, emit [pushq (reg RAX)], child 1,
      emit [popq (reg RCX), cmpq (reg RAX) (reg RCX), sete (reg AL),
        movzbq (reg AL) (reg RAX)]]
  else if op = "!=" then
    seq [child 0, emit [pushq (reg RAX)], child 1,
      emit [popq (reg RCX), cmpq (reg RAX) (reg RCX), setne (reg AL),
        movzbq (reg AL) (reg RAX)]]
  else if op = "<" then
    seq [child 0, emit [pushq (reg RAX)], child 1,
      emit [popq (reg RCX), cmpq (reg RAX) (reg RCX), setl (reg AL),
        movzbq (reg AL) (reg RAX)]]
  else if op = "<=" then
    seq [child 0, emit [pushq (reg RAX)], child 1,
      emit [popq (reg RCX), cmpq (reg RAX) (reg RCX), setle (reg AL),
        movzbq (reg AL) (reg RAX)]]
  else if op = ">" then
    seq [child 0, emit [pushq (reg RAX)], child 1,
      emit [popq (reg RCX), cmpq (reg RAX) (reg RCX), setg (reg AL),
        movzbq (reg AL) (reg RAX)]]
  else if op = ">=" then
    seq [child 0, emit [pushq (reg RAX)], child 1,
      emit [popq (reg RCX), cmpq (reg RAX) (reg RCX), setge (reg AL),
        movzbq (reg AL) (reg RAX)]]
  else if op = "!" then
    seq [child 0,
      emit [cmpq (imm 0) (reg RAX), sete (reg AL), movzbq (reg AL) (reg RAX)]]
  else fail gen_error.assertion_failed

mutual

/-- Function `generate_expression`: code that leaves the value of the expression in `%rax`. -/
def generate_expression (cf : symbol_t) : node_t → emitted Unit
  | node_t.mk node_type_t.NUMBER_LITERAL _ n _ _ _ => emit [movq (imm n) (reg RAX)]
  | node_t.mk node_type_t.IDENTIFIER ch n op i sym =>
    (lift (generate_variable_access cf (node_t.mk node_type_t.IDENTIFIER ch n op i sym))).bind
      fun access => emit [movq access (reg RAX)]
  | node_t.mk node_type_t.ARRAY_INDEXING ch _ _ _ _ =>
    (generate_array_access_children cf ch).bind fun access => emit [movq access (reg RAX)]
  | node_t.mk node_type_t.OPERATOR ch _ op _ _ =>
    generate_operator op ch.length (generate_child cf ch)
  | node_t.mk node_type_t.FUNCTION_CALL ch _ _ _ _ => generate_function_call_children cf ch
  | _ => fail gen_error.assertion_failed

/-- The call `generate_expression(node->children[k])` for the children `ch` of `node`;
reading a child beyond `n_children` is an invalid access. -/
def generate_child (cf : symbol_t) : List node_t → Nat → emitted Unit
  | [], _ => fail gen_error.invalid_access
  | c :: _, 0 => generate_expression cf c
  | _ :: rest, k + 1 => generate_child cf rest k

/-- Body of `generate_function_call`, on `call->children`. -/
def generate_function_call_children (cf : symbol_t) : List node_t → emitted Unit
  | [] => fail gen_error.invalid_access
  | c0 :: rest =>
    match c0.symbol with
    | none => fail gen_error.invalid_access
    | some symbol =>
      if symbol.type ≠ symtype_t.SYMBOL_FUNCTION then
        fail (gen_error.not_a_function symbol.name)
      else
        match rest with
        | [] => fail gen_error.invalid_access
        | node_t.mk _ args _ _ _ _ :: _ =>
          let parameter_count := FUNC_PARAM_COUNT symbol
          if parameter_count ≠ args.length then
            fail (gen_error.wrong_argument_count symbol.name parameter_count args.length)
          else
            seq [generate_arguments cf args,
              emit ((REGISTER_PARAMS.take parameter_count).map fun r => popq (reg r)),
              emit [call (Label.function symbol.name)],
              emit (if parameter_count > NUM_REGISTER_PARAMS then
                [addq (imm (((parameter_count - NUM_REGISTER_PARAMS) * 8 : Nat) : Int))
                  (reg RSP)]
                else [])]

/-- The loop `for (int i = parameter_count - 1; i >= 0; i--)` of `generate_function_call`
over `argument_list->children`: the arguments after the first are handled before it. -/
def generate_arguments (cf : symbol_t) : List node_t → emitted Unit
  | [] => emit []
  | a :: rest =>
    seq [generate_arguments cf rest, generate_expression cf a, emit [pushq (reg RAX)]]

/-- Body of `generate_array_access`, on `node->children`: code that leaves the address of the
element in `%rcx`; the result is the operand `(%rcx)`.  The index expression
`node->children[1]` is child 0 of the children after the first. -/
def generate_array_access_children (cf : symbol_t) : List node_t → emitted Operand
  | [] => fail gen_error.invalid_access
  | c0 :: rest =>
    match c0.symbol with
    | none => fail gen_error.invalid_access
    | some symbol =>
      if symbol.type ≠ symtype_t.SYMBOL_GLOBAL_ARRAY then
        fail (gen_error.not_an_array symbol.name)
      else
        (seq [generate_child cf rest 0,
          emit [leaq (global symbol.name) (reg RCX),
            leaq (indexed RCX RAX 8) (reg RCX)]]).bind fun _ => pure (mem RCX)

end

/-- Function `generate_array_access`. -/
def generate_array_access (cf : symbol_t) (node : node_t) : emitted Operand :=
  if node.type ≠ node_type_t.ARRAY_INDEXING then fail gen_error.assertion_failed
  else generate_array_access_children cf node.children

/-! ## Statements -/

/-- Constant `MAX_LOOP_NESTING`. -/
def MAX_LOOP_NESTING : Nat := 100

/-- The mutable globals of the statement generators: the static counters of
`generate_if_statement` and `generate_while_statement`, the array `loop_end_labels` (cell `i`
is `loop_end_labels i`; only cells below `MAX_LOOP_NESTING` are ever accessed) and
`loop_depth`. -/
structure gen_state where
  if_counter : Nat
  while_counter : Nat
  loop_end_labels : Nat → Nat
  loop_depth : Nat

/-- State at program start: counters and depth are zero, the array is zero-initialised. -/
def gen_state.initial : gen_state := ⟨0, 0, fun _ => 0, 0⟩

/-- Function `generate_assignment_statement`, on `statement->children`. -/
def generate_assignment_statement_children (cf : symbol_t) : List node_t → emitted Unit
  | dest :: expression :: _ =>
    (generate_expression cf expression).bind fun _ =>
      if dest.type = node_type_t.IDENTIFIER then
        (lift (generate_variable_access cf dest)).bind fun access =>
          emit [movq (reg RAX) access]
      else if dest.type ≠ node_type_t.ARRAY_INDEXING then fail gen_error.assertion_failed
      else
        (emit [pushq (reg RAX)]).bind fun _ =>
          (generate_array_access cf dest).bind fun dest_mem =>
            emit [popq (reg RAX), movq (reg RAX) dest_mem]
  | _ => fail gen_error.invalid_access

/-- Function `generate_assignment_statement`. -/
def generate_assignment_statement (cf : symbol_t) (statement : node_t) : emitted Unit :=
  generate_assignment_statement_children cf statement.children

/-- The loop of `generate_print_statement` over `print_items->children`. -/
def generate_print_items (cf : symbol_t) : List node_t → emitted Unit
  | [] => emit []
  | item :: rest =>
    seq [if item.type = node_type_t.STRING_LIST_REFERENCE then
        emit [leaq (runtime "strout") (reg RDI),
          leaq (string_entry item.string_list_index) (reg RSI)]
      else
        seq [generate_expression cf item,
          emit [movq (reg RAX) (reg RSI), leaq (runtime "intout") (reg RDI)]],
      emit [call (Label.named "safe_printf")],
      generate_print_items cf rest]

/-- Function `generate_print_statement`. -/
def generate_print_statement (cf : symbol_t) (statement : node_t) : emitted Unit :=
  match statement.children with
  | print_items :: _ =>
    seq [generate_print_items cf print_items.children,
      emit [movq newline (reg RDI), call (Label.named "safe_putchar")]]
  | _ => fail gen_error.invalid_access

/-- Function `generate_return_statement`. -/
def generate_return_statement (cf : symbol_t) (statement : node_t) : emitted Unit :=
  match statement.children with
  | e :: _ => seq [generate_expression cf e, emit [jmp (Label.epilogue cf.name)]]
  | _ => fail gen_error.invalid_access

/-- Function `generate_break_statement`. -/
def generate_break_statement (s : gen_state) : emitted gen_state :=
  if s.loop_depth ≤ 0 then fail gen_error.break_outside_loop
  else
    let current_while := s.loop_end_labels (s.loop_depth - 1)
    (emit [jmp (Label.ENDWHILE current_while)]).bind fun _ => pure s

mutual

/-- Function `generate_statement` (node pointers of the model are never `NULL`). -/
def generate_statement (cf : symbol_t) : node_t → gen_state → emitted gen_state
  | node_t.mk node_type_t.BLOCK ch _ _ _ _, s => generate_block_children cf ch s
  | node_t.mk node_type_t.ASSIGNMENT_STATEMENT ch _ _ _ _, s =>
    (generate_assignment_statement_children cf ch).bind fun _ => pure s
  | node_t.mk node_type_t.PRINT_STATEMENT ch n op i sym, s =>
    (generate_print_statement cf (node_t.mk node_type_t.PRINT_STATEMENT ch n op i sym)).bind
      fun _ => pure s
  | node_t.mk node_type_t.RETURN_STATEMENT ch n op i sym, s =>
    (generate_return_statement cf (node_t.mk node_type_t.RETURN_STATEMENT ch n op i sym)).bind
      fun _ => pure s
  | node_t.mk node_type_t.FUNCTION_CALL ch _ _ _ _, s =>
    (generate_function_call_children cf ch).bind fun _ => pure s
  | node_t.mk node_type_t.IF_STATEMENT ch _ _ _ _, s => generate_if_statement_children cf ch s
  | node_t.mk node_type_t.WHILE_STATEMENT ch _ _ _ _, s =>
    generate_while_statement_children cf ch s
  | node_t.mk node_type_t.BREAK_STATEMENT _ _ _ _ _, s => generate_break_statement s
  | _, _ => fail gen_error.assertion_failed

/-- The `BLOCK` case of `generate_statement`, on `node->children`: the statements of the
last child, `node->children[node->n_children - 1]`, are generated one by one. -/
def generate_block_children (cf : symbol_t) : List node_t → gen_state → emitted gen_state
  | [], _ => fail gen_error.invalid_access
  | [node_t.mk _ statements _ _ _ _], s => generate_statement_list cf statements s
  | _ :: c :: rest, s => generate_block_children cf (c :: rest) s

/-- The loop of the `BLOCK` case over `statement_list->children`. -/
def generate_statement_list (cf : symbol_t) : List node_t → gen_state → emitted gen_state
  | [], s => pure s
  | st :: rest, s => (generate_statement cf st s).bind fun s1 => generate_statement_list cf rest s1

/-- Body of `generate_if_statement`, on `statement->children`. -/
def generate_if_statement_children (cf : symbol_t) :
    List node_t → gen_state → emitted gen_state
  | [c0, c1, c2], s =>
    let current_if := s.if_counter
    (seq [generate_expression cf c0, emit [cmpq (imm 0) (reg RAX)],
        emit [je (Label.ELSE current_if)]]).bind fun _ =>
      (generate_statement cf c1 { s with if_counter := s.if_counter + 1 }).bind fun s1 =>
        (emit [jmp (Label.ENDIF current_if), label (Label.ELSE current_if)]).bind fun _ =>
          (generate_statement cf c2 s1).bind fun s2 =>
            (emit [label (Label.ENDIF current_if)]).bind fun _ => pure s2
  | c0 :: c1 :: _, s =>
    let current_if := s.if_counter
    (seq [generate_expression cf c0, emit [cmpq (imm 0) (reg RAX)],
        emit [je (Label.ENDIF current_if)]]).bind fun _ =>
      (generate_statement cf c1 { s with if_counter := s.if_counter + 1 }).bind fun s1 =>
        (emit [label (Label.ENDIF current_if)]).bind fun _ => pure s1
  | _, _ => fail gen_error.invalid_access

/-- Body of `generate_while_statement`, on `statement->children`. -/
def generate_while_statement_children (cf : symbol_t) :
    List node_t → gen_state → emitted gen_state
  | ch, s =>
    let current_while := s.while_counter
    if s.loop_depth ≥ MAX_LOOP_NESTING then fail gen_error.too_many_nested_loops
    else
      match ch with
      | c0 :: c1 :: _ =>
        (seq [emit [label (Label.WHILE current_while)], generate_expression cf c0,
            emit [cmpq (imm 0) (reg RAX), je (Label.ENDWHILE current_while)]]).bind fun _ =>
          (generate_statement cf c1
              { s with
                while_counter := s.while_counter + 1
                loop_end_labels := Function.update s.loop_end_labels s.loop_depth current_while
                loop_depth := s.loop_depth + 1 }).bind fun s1 =>
            (emit [jmp (Label.WHILE current_while),
                label (Label.ENDWHILE current_while)]).bind fun _ =>
              pure { s1 with loop_depth := s1.loop_depth - 1 }
      | _ => fail gen_error.invalid_access

end

/-- Function `generate_if_statement`. -/
def generate_if_statement (cf : symbol_t) (statement : node_t) (s : gen_state) :
    emitted gen_state :=
  generate_if_statement_children cf statement.children s

/-- Function `generate_while_statement`. -/
def generate_while_statement (cf : symbol_t) (statement : node_t) (s : gen_state) :
    emitted gen_state :=
  generate_while_statement_children cf statement.children s

/-! ## Functions -/

/-- A function symbol with what `generate_function` reads through it: the symbol itself, the
symbols of `function->function_symtable` in table order, and the body
`function->node->children[2]`. -/
structure function_t where
  symbol : symbol_t
  function_symtable : List symbol_t
  body : node_t

/-- The lines `generate_function` writes before the body: the entry label, the frame setup,
one push per register parameter and one push of zero per local variable. -/
def function_prologue (func : function_t) : List Instr :=
  [label (Label.function func.symbol.name), pushq (reg RBP), movq (reg RSP) (reg RBP)] ++
    (REGISTER_PARAMS.take (FUNC_PARAM_COUNT func.symbol)).map (fun r => pushq (reg r)) ++
    (func.function_symtable.filter
      (fun sym => sym.type = symtype_t.SYMBOL_LOCAL_VAR)).map (fun _ => pushq (imm 0))

/-- Function `generate_function`; `current_function = function` is the argument `cf` of the body. -/
def generate_function (func : function_t) (s : gen_state) : emitted gen_state :=
  (emit (function_prologue func)).bind fun _ =>
    (generate_statement func.symbol func.body s).bind fun s1 =>
      (emit [label (Label.epilogue func.symbol.name), movq (reg RBP) (reg RSP),
        popq (reg RBP), ret]).bind fun _ => pure s1

/-! ## Frame layout -/

/-- Frame offsets, relative to `%rbp`, of the words that the pushes of `code` store when the
stack pointer is at offset `sp` from `%rbp` on entry: a push moves the stack pointer down by
8 and stores there; other lines leave it in place. -/
def pushed_slots : List Instr → Int → List Int
  | [], _ => []
  | pushq _ :: rest, sp => (sp - 8) :: pushed_slots rest (sp - 8)
  | _ :: rest, sp => pushed_slots rest sp

/-- The operands `generate_variable_access` computes for identifiers bound to the given
symbols while `cf` is the current function. -/
def variable_accesses (cf : symbol_t) (symbols : List symbol_t) :
    List (Except gen_error Operand) :=
  symbols.map fun sym => generate_variable_access cf (node_t.identifier sym)

/-! ## A machine for the straight-line code of arithmetic expressions

Registers `%rax`, `%rcx`, `%rdx`, the status flags and a stack of 64-bit words.  A word is the
signed integer it denotes in two's complement. -/

/-- The signed 64-bit value of an integer, by two's-complement wrap-around. -/
def wrap64 (x : Int) : Int :=
  (x + 9223372036854775808) % 18446744073709551616 - 9223372036854775808

/-- The zero, sign and overflow flags. -/
structure flags_t where
  zf : Bool
  sf : Bool
  of : Bool
  deriving DecidableEq, Repr

/-- Flags of an arithmetic result: `exact` is the result in unbounded integers. -/
def result_flags (exact : Int) : flags_t :=
  ⟨decide (wrap64 exact = 0), decide (wrap64 exact < 0), decide (wrap64 exact ≠ exact)⟩

/-- Machine state; `flags = none` after an instruction that leaves flags undefined. -/
structure machine where
  rax : Int
  rcx : Int
  rdx : Int
  stack : List Int
  flags : Option flags_t
  deriving DecidableEq, Repr

namespace machine

/-- Value of a source operand. -/
def get (m : machine) : Operand → Option Int
  | reg RAX => some m.rax
  | reg RCX => some m.rcx
  | reg RDX => some m.rdx
  | imm n => some (wrap64 n)
  | _ => none

/-- Write to a destination operand. -/
def set (m : machine) : Operand → Int → Option machine
  | reg RAX, v => some { m with rax := v }
  | reg RCX, v => some { m with rcx := v }
  | reg RDX, v => some { m with rdx := v }
  | _, _ => none

/-- Write the byte register `%al`: the low byte of `%rax` becomes `b`. -/
def set_al (m : machine) (b : Bool) : machine :=
  { m with rax := wrap64 (m.rax - m.rax % 256 + (if b then 1 else 0)) }

/-- The instruction `setcc %al` for a condition on the flags. -/
def setcc (m : machine) (dst : Operand) (cond : flags_t → Bool) : Option machine :=
  match dst, m.flags with
  | reg AL, some f => some (m.set_al (cond f))
  | _, _ => none

/-- One instruction; `none` when the instruction faults or is outside the model. -/
def step (m : machine) : Instr → Option machine
  | movq src dst => (m.get src).bind fun v => m.set dst v
  | pushq src => (m.get src).map fun v => { m with stack := v :: m.stack }
  | popq dst =>
    match m.stack with
    | v :: rest => ({ m with stack := rest } : machine).set dst v
    | [] => none
  | addq src dst =>
    (m.get src).bind fun a => (m.get dst).bind fun b =>
      ({ m with flags := some (result_flags (b + a)) } : machine).set dst (wrap64 (b + a))
  | subq src dst =>
    (m.get src).bind fun a => (m.get dst).bind fun b =>
      ({ m with flags := some (result_flags (b - a)) } : machine).set dst (wrap64 (b - a))
  | imulq src dst =>
    (m.get src).bind fun a => (m.get dst).bind fun b =>
      ({ m with flags := none } : machine).set dst (wrap64 (b * a))
  | negq dst =>
    (m.get dst).bind fun b =>
      ({ m with flags := some (result_flags (-b)) } : machine).set dst (wrap64 (-b))
  | cqo => some { m with rdx := if m.rax < 0 then -1 else 0 }
  | idivq src =>
    (m.get src).bind fun d =>
      let dividend := m.rdx * 18446744073709551616 + m.rax % 18446744073709551616
      if d = 0 then none
      else if wrap64 (dividend.tdiv d) ≠ dividend.tdiv d then none
      else some { m with rax := dividend.tdiv d, rdx := dividend.tmod d, flags := none }
  | cmpq src dst =>
    (m.get src).bind fun a => (m.get dst).map fun b =>
      { m with flags := some (result_flags (b - a)) }
  | sete dst => m.setcc dst fun f => f.zf
  | setne dst => m.setcc dst fun f => !f.zf
  | setl dst => m.setcc dst fun f => f.sf != f.of
  | setle dst => m.setcc dst fun f => f.zf || (f.sf != f.of)
  | setg dst => m.setcc dst fun f => !f.zf && (f.sf == f.of)
  | setge dst => m.setcc dst fun f => f.sf == f.of
  | movzbq (reg AL) dst => m.set dst (m.rax % 256)
  | _ => none

/-- Run straight-line code. -/
def run : List Instr → machine → Option machine
  | [], m => some m
  | i :: rest, m => (m.step i).bind fun m1 => run rest m1

end machine

/-- Truth values as the numbers 1 and 0. -/
def bool_value (b : Bool) : Int := if b then 1 else 0

/-- The value of an expression built from number literals and the arithmetic, relational and
logical operators: `expression_value e v` holds when `e` is such an expression, every
divisor in it is non-zero, no quotient overflows, and `v` is its signed 64-bit value.
Division truncates toward zero. -/
inductive expression_value : node_t → Int → Prop
  | number (ch n op i sym) (h : wrap64 n = n) :
    expression_value (node_t.mk node_type_t.NUMBER_LITERAL ch n op i sym) n
  | add (a b x y n i sym) (ha : expression_value a x) (hb : expression_value b y) :
    expression_value (node_t.mk node_type_t.OPERATOR [a, b] n "+" i sym) (wrap64 (x + y))
  | sub (a b x y n i sym) (ha : expression_value a x) (hb : expression_value b y) :
    expression_value (node_t.mk node_type_t.OPERATOR [a, b] n "-" i sym) (wrap64 (x - y))
  | neg (a x n i sym) (ha : expression_value a x) :
    expression_value (node_t.mk node_type_t.OPERATOR [a] n "-" i sym) (wrap64 (-x))
  | mul (a b x y n i sym) (ha : expression_value a x) (hb : expression_value b y) :
    expression_value (node_t.mk node_type_t.OPERATOR [a, b] n "*" i sym) (wrap64 (x * y))
  | div (a b x y n i sym) (ha : expression_value a x) (hb : expression_value b y)
      (hy : y ≠ 0) (hq : wrap64 (x.tdiv y) = x.tdiv y) :
    expression_value (node_t.mk node_type_t.OPERATOR [a, b] n "/" i sym) (x.tdiv y)
  | eq (a b x y n i sym) (ha : expression_value a x) (hb : expression_value b y) :
    expression_value (node_t.mk node_type_t.OPERATOR [a, b] n "==" i sym)
      (bool_value (decide (x = y)))
  | ne (a b x y n i sym) (ha : expression_value a x) (hb : expression_value b y) :
    expression_value (node_t.mk node_type_t.OPERATOR [a, b] n "!=" i sym)
      (bool_value (decide (x ≠ y)))
  | lt (a b x y n i sym) (ha : expression_value a x) (hb : expression_value b y) :
    expression_value (node_t.mk node_type_t.OPERATOR [a, b] n "<" i sym)
      (bool_value (decide (x < y)))
  | le (a b x y n i sym) (ha : expression_value a x) (hb : expression_value b y) :
    expression_value (node_t.mk node_type_t.OPERATOR [a, b] n "<=" i sym)
      (bool_value (decide (x ≤ y)))
  | gt (a b x y n i sym) (ha : expression_value a x) (hb : expression_value b y) :
    expression_value (node_t.mk node_type_t.OPERATOR [a, b] n ">" i sym)
      (bool_value (decide (x > y)))
  | ge (a b x y n i sym) (ha : expression_value a x) (hb : expression_value b y) :
    expression_value (node_t.mk node_type_t.OPERATOR [a, b] n ">=" i sym)
      (bool_value (decide (x ≥ y)))
  | not (a x n i sym) (ha : expression_value a x) :
    expression_value (node_t.mk node_type_t.OPERATOR [a] n "!" i sym)
      (bool_value (decide (x = 0)))

/-- The code leaves `v` in `%rax` and the stack as it found it, from every machine state. -/
def computes (code : List Instr) (v : Int) : Prop :=
  ∀ m : machine, ∃ m1 : machine, machine.run code m = some m1 ∧ m1.rax = v ∧ m1.stack = m.stack

/-! ## Sample inputs -/

/-- A function symbol `f` without parameters. -/
def sample_function : symbol_t := ⟨"f", symtype_t.SYMBOL_FUNCTION, 0, 0, node_type_t.LIST, 0⟩

/-- The expression `(3 - 10) / 2 < -1`. -/
def sample_expression : node_t :=
  node_t.binary "<"
    (node_t.binary "/" (node_t.binary "-" (node_t.number 3) (node_t.number 10))
      (node_t.number 2))
    (node_t.unary "-" (node_t.number 1))

/-- A function `g` with seven parameters and two locals, numbered after the parameters. -/
def sample_frame_function : function_t :=
  { symbol := ⟨"g", symtype_t.SYMBOL_FUNCTION, 0, 7, node_type_t.LIST, 0⟩
    function_symtable :=
      [⟨"a", symtype_t.SYMBOL_PARAMETER, 0, 0, node_type_t.LIST, 0⟩,
        ⟨"b", symtype_t.SYMBOL_PARAMETER, 1, 0, node_type_t.LIST, 0⟩,
        ⟨"c", symtype_t.SYMBOL_PARAMETER, 2, 0, node_type_t.LIST, 0⟩,
        ⟨"d", symtype_t.SYMBOL_PARAMETER, 3, 0, node_type_t.LIST, 0⟩,
        ⟨"e", symtype_t.SYMBOL_PARAMETER, 4, 0, node_type_t.LIST, 0⟩,
        ⟨"f", symtype_t.SYMBOL_PARAMETER, 5, 0, node_type_t.LIST, 0⟩,
        ⟨"h", symtype_t.SYMBOL_PARAMETER, 6, 0, node_type_t.LIST, 0⟩,
        ⟨"x", symtype_t.SYMBOL_LOCAL_VAR, 7, 0, node_type_t.LIST, 0⟩,
        ⟨"y", symtype_t.SYMBOL_LOCAL_VAR, 8, 0, node_type_t.LIST, 0⟩]
    body := node_t.block [] }

/-! ## Stack discipline of straight-line code -/

/-- The lines `generate_function_call` writes after the argument code for a callee `name`
with `N` parameters: the register pops, the call, and the release of the stack arguments. -/
def call_tail (name : String) (N : Nat) : List Instr :=
  (REGISTER_PARAMS.take N).map (fun r => popq (reg r)) ++ [call (Label.function name)] ++
    (if N > NUM_REGISTER_PARAMS then
      [addq (imm (((N - NUM_REGISTER_PARAMS) * 8 : Nat) : Int)) (reg RSP)] else [])

/-- A function symbol `h` with eight parameters. -/
def sample_callee : symbol_t := ⟨"h", symtype_t.SYMBOL_FUNCTION, 0, 8, node_type_t.LIST, 0⟩

/-- A global variable `v`. -/
def sample_global : symbol_t := ⟨"v", symtype_t.SYMBOL_GLOBAL_VAR, 0, 0, node_type_t.LIST, 0⟩

/-- The loop a line leaves: `jmp ENDWHILEk`, the line a `break` writes, leaves loop `k`. -/
def loop_exit_target : Instr → Option Nat
  | jmp (Label.ENDWHILE k) => some k
  | _ => none

/-- The ids of the loops left by the `jmp ENDWHILEk` lines of `code`, in order. -/
def loop_exits (code : List Instr) : List Nat := code.filterMap loop_exit_target

/-- The id on top of the loop-nesting stack, `loop_end_labels[loop_depth - 1]`, if any. -/
def gen_state.innermost_loop (s : gen_state) : Option Nat :=
  if s.loop_depth = 0 then none else some (s.loop_end_labels (s.loop_depth - 1))

mutual

/-- Reference semantics of `break` by lexical scope.  For a statement, the ids of the while
statements that its break statements leave, in program order, where each break leaves the
innermost while statement that textually encloses it (`enclosing` for a break outside the
while statements of this statement) and while statements are numbered in program order from
`next`; the second component is the first id not used. -/
def break_targets : node_t → Option Nat → Nat → List Nat × Nat
  | node_t.mk node_type_t.BLOCK ch _ _ _ _, enclosing, next =>
    break_targets_block ch enclosing next
  | node_t.mk node_type_t.IF_STATEMENT ch _ _ _ _, enclosing, next =>
    break_targets_if ch enclosing next
  | node_t.mk node_type_t.WHILE_STATEMENT ch _ _ _ _, _, next => break_targets_while ch next
  | node_t.mk node_type_t.BREAK_STATEMENT _ _ _ _ _, enclosing, next =>
    (enclosing.toList, next)
  | _, _, next => ([], next)

/-- Break targets of a block, whose last child is its statement list. -/
def break_targets_block : List node_t → Option Nat → Nat → List Nat × Nat
  | [], _, next => ([], next)
  | [node_t.mk _ statements _ _ _ _], enclosing, next =>
    break_targets_list statements enclosing next
  | _ :: c :: rest, enclosing, next => break_targets_block (c :: rest) enclosing next

/-- Break targets of a sequence of statements. -/
def break_targets_list : List node_t → Option Nat → Nat → List Nat × Nat
  | [], _, next => ([], next)
  | st :: rest, enclosing, next =>
    ((break_targets st enclosing next).1 ++
        (break_targets_list rest enclosing (break_targets st enclosing next).2).1,
      (break_targets_list rest enclosing (break_targets st enclosing next).2).2)

/-- Break targets of an if statement: those of its branches, the condition has none. -/
def break_targets_if : List node_t → Option Nat → Nat → List Nat × Nat
  | [_, c1, c2], enclosing, next =>
    ((break_targets c1 enclosing next).1 ++
        (break_targets c2 enclosing (break_targets c1 enclosing next).2).1,
      (break_targets c2 enclosing (break_targets c1 enclosing next).2).2)
  | _ :: c1 :: _, enclosing, next => break_targets c1 enclosing next
  | _, _, next => ([], next)

/-- Break targets of a while statement, which takes the id `next` and encloses its body. -/
def break_targets_while : List node_t → Nat → List Nat × Nat
  | _ :: c1 :: _, next => break_targets c1 (some next) (next + 1)
  | _, next => ([], next + 1)

end

/-- Lines that expression code consists of; its calls are calls of functions, `call .name`. -/
def is_expression_instr : Instr → Bool
  | movq _ _ | pushq _ | popq _ | addq _ _ | subq _ _ | imulq _ _ | negq _ | cqo | idivq _
  | cmpq _ _ | sete _ | setne _ | setl _ | setle _ | setg _ | setge _ | movzbq _ _ | leaq _ _
  | call (Label.function _) => true
  | _ => false

/-- Every line written satisfies `p`, whether or not the generator returns. -/
def emits_only {α : Type} (p : Instr → Prop) (x : emitted α) : Prop := ∀ i ∈ x.out, p i

/-- The loop-nesting stack of `s1` is that of `s`: same depth, same entries below it. -/
def same_loops (s s1 : gen_state) : Prop :=
  s1.loop_depth = s.loop_depth ∧ ∀ j < s.loop_depth, s1.loop_end_labels j = s.loop_end_labels j

/-- A statement refines the reference semantics of `break`: when its generation returns, the
loop-nesting stack is as before, the `jmp ENDWHILEk` lines written leave the loops that
`break_targets` computes from the innermost active loop and the while counter, and the
while counter ends at the first id `break_targets` leaves unused. -/
def refines_break_targets (cf : symbol_t) (st : node_t) : Prop :=
  ∀ s s1 : gen_state, (generate_statement cf st s).res = Except.ok s1 →
    same_loops s s1 ∧
    loop_exits (generate_statement cf st s).out =
      (break_targets st s.innermost_loop s.while_counter).1 ∧
    s1.while_counter = (break_targets st s.innermost_loop s.while_counter).2

mutual

/-- The number of break statements of a statement that are not inside a while statement of
it (for a while statement itself: none, all its breaks are inside it). -/
def direct_breaks : node_t → Nat
  | node_t.mk node_type_t.BLOCK ch _ _ _ _ => direct_breaks_block ch
  | node_t.mk node_type_t.IF_STATEMENT ch _ _ _ _ => direct_breaks_if ch
  | node_t.mk node_type_t.BREAK_STATEMENT _ _ _ _ _ => 1
  | _ => 0

/-- Direct breaks of a block, whose last child is its statement list. -/
def direct_breaks_block : List node_t → Nat
  | [] => 0
  | [node_t.mk _ statements _ _ _ _] => direct_breaks_list statements
  | _ :: c :: rest => direct_breaks_block (c :: rest)

/-- Direct breaks of a sequence of statements. -/
def direct_breaks_list : List node_t → Nat
  | [] => 0
  | st :: rest => direct_breaks st + direct_breaks_list rest

/-- Direct breaks of an if statement: those of its branches. -/
def direct_breaks_if : List node_t → Nat
  | [_, c1, c2] => direct_breaks c1 + direct_breaks c2
  | _ :: c1 :: _ => direct_breaks c1
  | _ => 0

end

/-- The statement `while (1) { while (2) { break } break }`, with blocks as bodies. -/
def sample_nested_while : node_t :=
  node_t.while_ (node_t.number 1)
    (node_t.block
      [node_t.while_ (node_t.number 2) (node_t.block [node_t.break_]), node_t.break_])

/-! ## Static data and the program -/

/-- Modelled from the spec: the macro `ASM_STRING_SECTION` of `emit.h`, which is not among the
sources; it names the read-only section that holds the strings. -/
def ASM_STRING_SECTION : String := ".rodata"

/-- Modelled from the spec: the macro `ASM_BSS_SECTION` of `emit.h`, which is not among the
sources; it names the zero-initialized section that holds the globals. -/
def ASM_BSS_SECTION : String := ".bss"

/-- Function `generate_stringtable`, for the strings of `string_list` in order. -/
def generate_stringtable (string_list : List String) : List Instr :=
  [directive (Directive.section_ ASM_STRING_SECTION),
    directive (Directive.asciz "intout" "%ld"),
    directive (Directive.asciz "strout" "%s"),
    directive (Directive.asciz "errout" "Wrong number of arguments")] ++
    string_list.enum.map fun e => directive (Directive.string_entry e.1 e.2)

/-- The body of the loop of `generate_global_variables` for one symbol of the global table:
`.name: .zero 8` for a global variable, `.name: .zero length*8` for a global array whose
length node is a number literal, nothing for other symbols.  The product `length * 8` is
`int64_t` arithmetic printed with `%ld`: its signed 64-bit value (`wrap64`). -/
def generate_global_symbol (symbol : symbol_t) : emitted Unit :=
  if symbol.type = symtype_t.SYMBOL_GLOBAL_VAR then
    emit [directive (Directive.zero symbol.name 8)]
  else if symbol.type = symtype_t.SYMBOL_GLOBAL_ARRAY then
    if symbol.length_type ≠ node_type_t.NUMBER_LITERAL then
      fail (gen_error.array_length_unknown symbol.name)
    else emit [directive (Directive.zero symbol.name (wrap64 (symbol.length_literal * 8)))]
  else emit []

/-- The loop of `generate_global_variables` over the global symbol table. -/
def generate_global_storage : List function_t → emitted Unit
  | [] => emit []
  | g :: rest => seq [generate_global_symbol g.symbol, generate_global_storage rest]

/-- Function `generate_global_variables`; `global_symbols` is the global symbol table in table
order (of an entry that is not a function only the field `symbol` is read). -/
def generate_global_variables (global_symbols : List function_t) : emitted Unit :=
  seq [emit [directive (Directive.section_ ASM_BSS_SECTION), directive (Directive.align 8)],
    generate_global_storage global_symbols]

/-- Function `generate_safe_printf`. -/
def generate_safe_printf : List Instr :=
  [label (Label.named "safe_printf"), pushq (reg RBP), movq (reg RSP) (reg RBP),
    andq (imm (-16)) (reg RSP), call (Label.named "printf"), movq (reg RBP) (reg RSP),
    popq (reg RBP), ret]

/-- Function `generate_safe_putchar`. -/
def generate_safe_putchar : List Instr :=
  [label (Label.named "safe_putchar"), pushq (reg RBP), movq (reg RSP) (reg RBP),
    andq (imm (-16)) (reg RSP), call (Label.named "putchar"), movq (reg RBP) (reg RSP),
    popq (reg RBP), ret]

/-- Function `generate_main`, for the function symbol `first`. -/
def generate_main (first : symbol_t) : List Instr :=
  [label (Label.named "main"), pushq (reg RBP), movq (reg RSP) (reg RBP),
    subq (imm 1) (reg RDI), cmpq (imm (FUNC_PARAM_COUNT first : Nat)) (reg RDI),
    jne (Label.named "ABORT")] ++
  (if FUNC_PARAM_COUNT first = 0 then []
    else
      [addq (imm ((FUNC_PARAM_COUNT first * 8 : Nat) : Int)) (reg RSI),
        movq (reg RDI) (reg RCX), label (Label.named "PARSE_ARGV"), pushq (reg RSI),
        pushq (reg RCX), movq (mem RSI) (reg RDI), movq (imm 0) (reg RSI),
        movq (imm 10) (reg RDX), call (Label.named "strtol"), popq (reg RCX), popq (reg RSI),
        pushq (reg RAX), subq (imm 8) (reg RSI), loop (Label.named "PARSE_ARGV")] ++
      (REGISTER_PARAMS.take (FUNC_PARAM_COUNT first)).map fun r => popq (reg r)) ++
  [call (Label.function first.name), movq (reg RAX) (reg RDI), call (Label.named "exit"),
    label (Label.named "ABORT"), leaq (runtime "errout") (reg RDI), call (Label.named "puts"),
    movq (imm 1) (reg RDI), call (Label.named "exit")] ++
  generate_safe_printf ++ generate_safe_putchar ++ [directive Directive.declare_symbols]

/-- The loop of `generate_program` over the global symbol table: the symbols that are not
functions are skipped, every function is generated. -/
def generate_functions : List function_t → gen_state → emitted gen_state
  | [], s => emitted.pure s
  | f :: rest, s =>
    if f.symbol.type ≠ symtype_t.SYMBOL_FUNCTION then generate_functions rest s
    else (generate_function f s).bind fun s1 => generate_functions rest s1

/-- The symbol `first_function` of `generate_program` after its loop: the first function of
the global symbol table, `none` for `NULL`. -/
def first_function (global_symbols : List function_t) : Option function_t :=
  global_symbols.find? fun f => f.symbol.type = symtype_t.SYMBOL_FUNCTION

/-- Function `generate_program`, for the string list, the global symbol table and the values
`s` of the generator's static variables when it is called. -/
def generate_program (string_list : List String) (global_symbols : List function_t)
    (s : gen_state) : emitted gen_state :=
  (emit (generate_stringtable string_list)).bind fun _ =>
    (generate_global_variables global_symbols).bind fun _ =>
      (emit [directive Directive.text]).bind fun _ =>
        (generate_functions global_symbols s).bind fun s1 =>
          match first_function global_symbols with
          | none => fail gen_error.no_functions
          | some first => (emit (generate_main first.symbol)).bind fun _ => emitted.pure s1

/-! ## Successful generation of statements, as a derivation -/

/-- The statement list of a block with children `ch`: the children of the last child. -/
def block_statements : List node_t → Option (List node_t)
  | [] => none
  | [c] => some c.children
  | _ :: c :: rest => block_statements (c :: rest)

/-- The state in which the body of a while statement is generated: the statement took the id
`s.while_counter` and pushed it on the loop-nesting stack. -/
def gen_state.enter_loop (s : gen_state) : gen_state :=
  { s with
    while_counter := s.while_counter + 1
    loop_end_labels := Function.update s.loop_end_labels s.loop_depth s.while_counter
    loop_depth := s.loop_depth + 1 }

/-- The runs of `generate_statement` that return, by the construct generated:
`generated cf l s out s1` when generating the statements `l` one after the other from the
state `s` writes `out` and returns in the state `s1`.  Every successful run of
`generate_statement` and of the loop of `BLOCK` is such a derivation
(`generate_statement_generated`, `generate_statement_list_generated`). -/
inductive generated (cf : symbol_t) : List node_t → gen_state → List Instr → gen_state → Prop
  | nil (s : gen_state) : generated cf [] s [] s
  | cons (st st2 : node_t) (rest : List node_t) (s s1 s2 : gen_state) (o1 o2 : List Instr)
      (h1 : generated cf [st] s o1 s1) (h2 : generated cf (st2 :: rest) s1 o2 s2) :
      generated cf (st :: st2 :: rest) s (o1 ++ o2) s2
  | block (ch statements : List node_t) (n : Int) (op : String) (i : Nat)
      (sym : Option symbol_t) (s s1 : gen_state) (out : List Instr)
      (hb : block_statements ch = some statements) (h : generated cf statements s out s1) :
      generated cf [node_t.mk node_type_t.BLOCK ch n op i sym] s out s1
  | assignment (ch : List node_t) (n : Int) (op : String) (i : Nat) (sym : Option symbol_t)
      (s : gen_state)
      (h : (generate_assignment_statement_children cf ch).res = Except.ok ()) :
      generated cf [node_t.mk node_type_t.ASSIGNMENT_STATEMENT ch n op i sym] s
        (generate_assignment_statement_children cf ch).out s
  | print (ch : List node_t) (n : Int) (op : String) (i : Nat) (sym : Option symbol_t)
      (s : gen_state)
      (h : (generate_print_statement cf
        (node_t.mk node_type_t.PRINT_STATEMENT ch n op i sym)).res = Except.ok ()) :
      generated cf [node_t.mk node_type_t.PRINT_STATEMENT ch n op i sym] s
        (generate_print_statement cf
          (node_t.mk node_type_t.PRINT_STATEMENT ch n op i sym)).out s
  | return_ (ch : List node_t) (n : Int) (op : String) (i : Nat) (sym : Option symbol_t)
      (s : gen_state)
      (h : (generate_return_statement cf
        (node_t.mk node_type_t.RETURN_STATEMENT ch n op i sym)).res = Except.ok ()) :
      generated cf [node_t.mk node_type_t.RETURN_STATEMENT ch n op i sym] s
        (generate_return_statement cf
          (node_t.mk node_type_t.RETURN_STATEMENT ch n op i sym)).out s
  | call (ch : List node_t) (n : Int) (op : String) (i : Nat) (sym : Option symbol_t)
      (s : gen_state) (h : (generate_function_call_children cf ch).res = Except.ok ()) :
      generated cf [node_t.mk node_type_t.FUNCTION_CALL ch n op i sym] s
        (generate_function_call_children cf ch).out s
  | if_then (c0 c1 : node_t) (rest : List node_t) (n : Int) (op : String) (i : Nat)
      (sym : Option symbol_t) (s s1 : gen_state) (body : List Instr)
      (hn : rest.length ≠ 1) (hc : (generate_expression cf c0).res = Except.ok ())
      (h : generated cf [c1] { s with if_counter := s.if_counter + 1 } body s1) :
      generated cf [node_t.mk node_type_t.IF_STATEMENT (c0 :: c1 :: rest) n op i sym] s
        ((generate_expression cf c0).out ++
          [cmpq (imm 0) (reg RAX), je (Label.ENDIF s.if_counter)] ++ body ++
          [label (Label.ENDIF s.if_counter)]) s1
  | if_then_else (c0 c1 c2 : node_t) (n : Int) (op : String) (i : Nat)
      (sym : Option symbol_t) (s s1 s2 : gen_state) (body1 body2 : List Instr)
      (hc : (generate_expression cf c0).res = Except.ok ())
      (h1 : generated cf [c1] { s with if_counter := s.if_counter + 1 } body1 s1)
      (h2 : generated cf [c2] s1 body2 s2) :
      generated cf [node_t.mk node_type_t.IF_STATEMENT [c0, c1, c2] n op i sym] s
        ((generate_expression cf c0).out ++
          [cmpq (imm 0) (reg RAX), je (Label.ELSE s.if_counter)] ++ body1 ++
          [jmp (Label.ENDIF s.if_counter), label (Label.ELSE s.if_counter)] ++ body2 ++
          [label (Label.ENDIF s.if_counter)]) s2
  | while_ (c0 c1 : node_t) (rest : List node_t) (n : Int) (op : String) (i : Nat)
      (sym : Option symbol_t) (s s1 : gen_state) (body : List Instr)
      (hd : s.loop_depth < MAX_LOOP_NESTING)
      (hc : (generate_expression cf c0).res = Except.ok ())
      (h : generated cf [c1] s.enter_loop body s1) :
      generated cf [node_t.mk node_type_t.WHILE_STATEMENT (c0 :: c1 :: rest) n op i sym] s
        ([label (Label.WHILE s.while_counter)] ++ (generate_expression cf c0).out ++
          [cmpq (imm 0) (reg RAX), je (Label.ENDWHILE s.while_counter)] ++ body ++
          [jmp (Label.WHILE s.while_counter), label (Label.ENDWHILE s.while_counter)])
        { s1 with loop_depth := s1.loop_depth - 1 }
  | break_ (ch : List node_t) (n : Int) (op : String) (i : Nat) (sym : Option symbol_t)
      (s : gen_state) (hd : 0 < s.loop_depth) :
      generated cf [node_t.mk node_type_t.BREAK_STATEMENT ch n op i sym] s
        [jmp (Label.ENDWHILE (s.loop_end_labels (s.loop_depth - 1)))] s

/-- A global array `a` of ten elements. -/
def sample_array : symbol_t := ⟨"a", symtype_t.SYMBOL_GLOBAL_ARRAY, 0, 0, node_type_t.NUMBER_LITERAL, 10⟩

/-- The offsets, from the aligned start of the section written by `generate_global_variables`,
at which the assembler places the blocks of the `.zero` directives of `code`, in order, when
the location counter is at `start` before the first line: each `.name: .zero n` is placed at the
location counter and advances it by `n`; the other lines of the section allocate nothing. -/
def zero_offsets : List Instr → Int → List Int
  | [], _ => []
  | directive (Directive.zero _ bytes) :: rest, start => start :: zero_offsets rest (start + bytes)
  | _ :: rest, start => zero_offsets rest start

/-- A global symbol table: the variable `v`, the array `a`, the function `f` and the
variable `w`. -/
def sample_globals : List function_t :=
  [⟨sample_global, [], node_t.block []⟩, ⟨sample_array, [], node_t.block []⟩,
    ⟨sample_function, [], node_t.block [node_t.ret (node_t.number 0)]⟩,
    ⟨⟨"w", symtype_t.SYMBOL_GLOBAL_VAR, 0, 0, node_type_t.LIST, 0⟩, [], node_t.block []⟩]

/-- The outputs of the calls of `generate_function` that the loop of `generate_program` makes
for the functions `fs`, in order, from the state `s`: each call starts in the state that the
call before it returned, and a call that fails is the last one. -/
def function_outputs : List function_t → gen_state → List (List Instr)
  | [], _ => []
  | f :: rest, s =>
    (generate_function f s).out ::
      match (generate_function f s).res with
      | Except.ok s1 => function_outputs rest s1
      | Except.error _ => []

/-- The symbols of the table that are functions, in table order. -/
def function_symbols (global_symbols : List function_t) : List function_t :=
  global_symbols.filter fun g => g.symbol.type = symtype_t.SYMBOL_FUNCTION

/-- A function `g` with two parameters that returns 0. -/
def sample_second_function : function_t :=
  ⟨⟨"g", symtype_t.SYMBOL_FUNCTION, 0, 2, node_type_t.LIST, 0⟩, [],
    node_t.block [node_t.ret (node_t.number 0)]⟩

/-- A global symbol table: the variable `v`, the function `g` with two parameters, the
array `a`, the function `f` without parameters and the variable `w`. -/
def sample_program : List function_t :=
  [⟨sample_global, [], node_t.block []⟩, sample_second_function,
    ⟨sample_array, [], node_t.block []⟩,
    ⟨sample_function, [], node_t.block [node_t.ret (node_t.number 0)]⟩,
    ⟨⟨"w", symtype_t.SYMBOL_GLOBAL_VAR, 0, 0, node_type_t.LIST, 0⟩, [], node_t.block []⟩]

/-- A symbol table of `L` local variables `x` with the sequence numbers `N`, ..., `N+L-1`. -/
def numbered_locals (N L : Nat) : List symbol_t :=
  (List.range' N L).map fun k =>
    ⟨"x", symtype_t.SYMBOL_LOCAL_VAR, k, 0, node_type_t.LIST, 0⟩

/-- A function `f` without parameters and with `2^28 + 1` local variables, numbered from 0. -/
def sample_wide_frame_function : function_t :=
  ⟨sample_function, numbered_locals 0 268435457, node_t.block []⟩

/-- The print statement `print "s3", 1 + 2, "s0"`, whose items are the string with table
index 3, a sum and the string with table index 0. -/
def sample_print : node_t :=
  node_t.mk node_type_t.PRINT_STATEMENT
    [node_t.list
      [node_t.mk node_type_t.STRING_LIST_REFERENCE [] 0 "" 3 none,
        node_t.binary "+" (node_t.number 1) (node_t.number 2),
        node_t.mk node_type_t.STRING_LIST_REFERENCE [] 0 "" 0 none]] 0 "" 0 none

/-! ## The statements of a statement, labels and ids -/

mutual

/-- The statements that `generate_statement` generates for a statement, itself first, in the
order of generation, each with the number of loops that are active when its generation
starts: `d` for the statement itself, one more inside the body of a while statement. -/
def visited : node_t → Nat → List (node_t × Nat)
  | node_t.mk node_type_t.BLOCK ch n op i sym, d =>
    (node_t.mk node_type_t.BLOCK ch n op i sym, d) :: visited_block ch d
  | node_t.mk node_type_t.IF_STATEMENT ch n op i sym, d =>
    (node_t.mk node_type_t.IF_STATEMENT ch n op i sym, d) :: visited_if ch d
  | node_t.mk node_type_t.WHILE_STATEMENT ch n op i sym, d =>
    (node_t.mk node_type_t.WHILE_STATEMENT ch n op i sym, d) :: visited_while ch d
  | st, d => [(st, d)]

/-- The statements generated for a block, whose last child is its statement list. -/
def visited_block : List node_t → Nat → List (node_t × Nat)
  | [], _ => []
  | [node_t.mk _ statements _ _ _ _], d => visited_list statements d
  | _ :: c :: rest, d => visited_block (c :: rest) d

/-- The statements generated for a sequence of statements. -/
def visited_list : List node_t → Nat → List (node_t × Nat)
  | [], _ => []
  | st :: rest, d => visited st d ++ visited_list rest d

/-- The statements generated for the branches of an if statement. -/
def visited_if : List node_t → Nat → List (node_t × Nat)
  | [_, c1, c2], d => visited c1 d ++ visited c2 d
  | _ :: c1 :: _, d => visited c1 d
  | _, _ => []

/-- The statements generated for the body of a while statement, where one more loop is
active. -/
def visited_while : List node_t → Nat → List (node_t × Nat)
  | _ :: c1 :: _, d => visited c1 (d + 1)
  | _, _ => []

end

/-- The number of statements of type `t` among visited statements. -/
def count_type (t : node_type_t) (v : List (node_t × Nat)) : Nat :=
  v.countP fun p => p.1.type = t

/-- The labels that the lines of `code` define, in order. -/
def label_definitions (code : List Instr) : List Label :=
  code.filterMap fun i =>
    match i with
    | label l => some l
    | _ => none

/-- The labels of if and while statements: `ELSEn`, `ENDIFn`, `WHILEn`, `ENDWHILEn`. -/
def is_control_label : Label → Bool
  | Label.ELSE _ | Label.ENDIF _ | Label.WHILE _ | Label.ENDWHILE _ => true
  | _ => false

/-- The definitions of labels of if and while statements in `code`, in order. -/
def control_label_definitions (code : List Instr) : List Label :=
  (label_definitions code).filter is_control_label

/-- A label of an if statement whose id was taken from the if counter between the states `s`
and `s1`, or of a while statement whose id was taken from the while counter between them. -/
def label_in_range (s s1 : gen_state) : Label → Prop
  | Label.ELSE k | Label.ENDIF k => s.if_counter ≤ k ∧ k < s1.if_counter
  | Label.WHILE k | Label.ENDWHILE k => s.while_counter ≤ k ∧ k < s1.while_counter
  | _ => False

/-- The ids of the if statements generated in `code`: every if statement defines the label
`ENDIFn` of its id once. -/
def if_ids (code : List Instr) : List Nat :=
  code.filterMap fun i =>
    match i with
    | label (Label.ENDIF k) => some k
    | _ => none

/-- The ids of the while statements generated in `code`: every while statement defines the
label `ENDWHILEn` of its id once. -/
def while_ids (code : List Instr) : List Nat :=
  code.filterMap fun i =>
    match i with
    | label (Label.ENDWHILE k) => some k
    | _ => none

/-- The statements generated for a program, function by function in table order, when every
function is generated with no loop active. -/
def program_statements (global_symbols : List function_t) : List (node_t × Nat) :=
  ((function_symbols global_symbols).map fun f => visited f.body 0).flatten

/-- The states of the generator on entry to and on return from the calls of
`generate_function` that the loop of `generate_program` makes for the functions `fs`, in
order, from the state `s`; a call that fails has no state on return and is the last one. -/
def function_states : List function_t → gen_state → List (gen_state × Option gen_state)
  | [], _ => []
  | f :: rest, s =>
    match (generate_function f s).res with
    | Except.ok s1 => (s, some s1) :: function_states rest s1
    | Except.error _ => [(s, none)]

/-- A chain of `n` while statements, each the body of the one before it, around an empty
block. -/
def while_chain : Nat → node_t
  | 0 => node_t.block []
  | n + 1 => node_t.while_ (node_t.number 1) (while_chain n)

/-- A function `f` with an if-else statement around a while statement, followed by a while
statement around an if statement. -/
def sample_control_function : function_t :=
  ⟨sample_function, [],
    node_t.block
      [node_t.ifThenElse (node_t.number 1)
          (node_t.block [node_t.while_ (node_t.number 1) (node_t.block [node_t.break_])])
          (node_t.block []),
        node_t.while_ (node_t.number 0)
          (node_t.block [node_t.ifThen (node_t.number 1) (node_t.ret (node_t.number 1))]),
        node_t.ret (node_t.number 0)]⟩

/-- A function `g` with an if statement and a while statement, one after the other. -/
def sample_sequential_function : function_t :=
  ⟨⟨"g", symtype_t.SYMBOL_FUNCTION, 0, 0, node_type_t.LIST, 0⟩, [],
    node_t.block
      [node_t.ifThen (node_t.number 1) (node_t.block []),
        node_t.while_ (node_t.number 0) (node_t.block []),
        node_t.ret (node_t.number 0)]⟩

/-- The table `f, v, g`: the functions `f` and `g` with a global variable between them. -/
def sample_control_program : List function_t :=
  [sample_control_function, ⟨sample_global, [], node_t.block []⟩, sample_sequential_function]

/-- Every jump of `code` to an epilogue is a jump to the epilogue of `name`. -/
def jumps_to_epilogue_of (name : String) (code : List Instr) : Prop :=
  ∀ x, jmp (Label.epilogue x) ∈ code → x = name

/-! ## Stack balance of statement code -/

theorem wrap64_bounds (x : Int) :
    -9223372036854775808 ≤ wrap64 x ∧ wrap64 x < 9223372036854775808 := by
  unfold wrap64; omega

theorem wrap64_eq_self_iff (x : Int) :
    wrap64 x = x ↔ -9223372036854775808 ≤ x ∧ x < 9223372036854775808 := by
  unfold wrap64; omega

theorem wrap64_wrap64 (x : Int) : wrap64 (wrap64 x) = wrap64 x := by
  unfold wrap64; omega

theorem wrap64_bool_value (b : Bool) : wrap64 (bool_value b) = bool_value b := by
  cases b <;> decide

theorem low_byte_set (x : Int) (b : Bool) :
    wrap64 (x - x % 256 + (if b then 1 else 0)) % 256 = bool_value b := by
  cases b <;> simp [bool_value, wrap64] <;> omega

theorem flags_zf (x y : Int) (hx : wrap64 x = x) (hy : wrap64 y = y) :
    (result_flags (x - y)).zf = decide (x = y) := by
  rw [wrap64_eq_self_iff] at hx hy
  have h : wrap64 (x - y) = 0 ↔ x = y := by unfold wrap64; omega
  simp [result_flags, h]

theorem flags_lt (x y : Int) (hx : wrap64 x = x) (hy : wrap64 y = y) :
    ((result_flags (x - y)).sf != (result_flags (x - y)).of) = decide (x < y) := by
  rw [wrap64_eq_self_iff] at hx hy
  have h : (wrap64 (x - y) < 0 ↔ ¬ wrap64 (x - y) ≠ x - y) ↔ x < y := by
    unfold wrap64; omega
  by_cases h1 : wrap64 (x - y) < 0 <;> by_cases h2 : wrap64 (x - y) ≠ x - y <;>
    by_cases h3 : x < y <;> simp [result_flags, h1, h2, h3] <;> simp [h1, h2, h3] at h

theorem run_append (a b : List Instr) (m : machine) :
    machine.run (a ++ b) m = (machine.run a m).bind fun m1 => machine.run b m1 := by
  induction a generalizing m with
  | nil => rfl
  | cons i rest ih =>
    simp only [List.cons_append, machine.run]
    cases machine.step m i with
    | none => rfl
    | some m1 => simpa using ih m1

theorem computes_binary (ca cb tail : List Instr) (x y r : Int)
    (hx : computes ca x) (hy : computes cb y)
    (ht : ∀ (m : machine) (st : List Int), m.rax = y → m.stack = x :: st →
      ∃ m1 : machine, machine.run tail m = some m1 ∧ m1.rax = r ∧ m1.stack = st) :
    computes (ca ++ pushq (reg RAX) :: (cb ++ tail)) r := by
  intro m
  obtain ⟨m1, h1, r1, s1⟩ := hx m
  obtain ⟨m2, h2, r2, s2⟩ := hy { m1 with stack := m1.rax :: m1.stack }
  obtain ⟨m3, h3, r3, s3⟩ := ht m2 m.stack r2 (by simp [s2, r1, s1])
  refine ⟨m3, ?_, r3, s3⟩
  rw [run_append, h1]
  simp [machine.run, machine.step, machine.get, run_append, h2, h3]

theorem computes_unary (ca tail : List Instr) (x r : Int) (hx : computes ca x)
    (ht : ∀ m : machine, m.rax = x →
      ∃ m1 : machine, machine.run tail m = some m1 ∧ m1.rax = r ∧ m1.stack = m.stack) :
    computes (ca ++ tail) r := by
  intro m
  obtain ⟨m1, h1, r1, s1⟩ := hx m
  obtain ⟨m2, h2, r2, s2⟩ := ht m1 r1
  exact ⟨m2, by rw [run_append, h1]; simpa using h2, r2, by rw [s2, s1]⟩

theorem compare_tail (setcc : Operand → Instr) (cond : flags_t → Bool) (x y : Int) (b : Bool)
    (hstep : ∀ m : machine, m.step (setcc (reg AL)) = m.setcc (reg AL) cond)
    (hcond : cond (result_flags (x - y)) = b)
    (m : machine) (st : List Int) (hr : m.rax = y) (hs : m.stack = x :: st) :
    ∃ m1 : machine, machine.run [popq (reg RCX), cmpq (reg RAX) (reg RCX), setcc (reg AL),
      movzbq (reg AL) (reg RAX)] m = some m1 ∧ m1.rax = bool_value b ∧ m1.stack = st := by
  obtain ⟨rax, rcx, rdx, stack, flags⟩ := m
  simp only at hr hs
  subst hr hs
  have h1 : machine.step ⟨rax, rcx, rdx, x :: st, flags⟩ (popq (reg RCX)) =
      some ⟨rax, x, rdx, st, flags⟩ := rfl
  have h2 : machine.step ⟨rax, x, rdx, st, flags⟩ (cmpq (reg RAX) (reg RCX)) =
      some ⟨rax, x, rdx, st, some (result_flags (x - rax))⟩ := rfl
  have h3 : ∀ m : machine, m.step (movzbq (reg AL) (reg RAX)) =
      some { m with rax := m.rax % 256 } := fun _ => rfl
  simp only [machine.run, h1, h2, h3, hstep, machine.setcc, machine.set_al, hcond,
    Option.some_bind, low_byte_set]
  exact ⟨_, rfl, rfl, rfl⟩

theorem expression_value_wrap (e : node_t) (v : Int) (h : expression_value e v) :
    wrap64 v = v := by
  induction h <;>
    first
    | assumption
    | exact wrap64_wrap64 _
    | exact wrap64_bool_value _

theorem flags_le (x y : Int) (hx : wrap64 x = x) (hy : wrap64 y = y) :
    ((result_flags (x - y)).zf || ((result_flags (x - y)).sf != (result_flags (x - y)).of)) =
      decide (x ≤ y) := by
  rw [flags_zf x y hx hy, flags_lt x y hx hy]
  by_cases h1 : x = y <;> by_cases h2 : x < y <;> simp [h1, h2] <;> omega

theorem flags_gt (x y : Int) (hx : wrap64 x = x) (hy : wrap64 y = y) :
    (!(result_flags (x - y)).zf && ((result_flags (x - y)).sf == (result_flags (x - y)).of)) =
      decide (x > y) := by
  have h := flags_le x y hx hy
  have e : ∀ a b c : Bool, (b == c) = !(b != c) := by decide
  rw [e true, ← Bool.not_or, h]
  by_cases h1 : x ≤ y
  · simp [h1]
  · simp [h1]
    omega

theorem flags_ge (x y : Int) (hx : wrap64 x = x) (hy : wrap64 y = y) :
    ((result_flags (x - y)).sf == (result_flags (x - y)).of) = decide (x ≥ y) := by
  have h := flags_lt x y hx hy
  have e : ∀ b c : Bool, (b == c) = !(b != c) := by decide
  rw [e, h]
  by_cases h1 : x < y
  · simp [h1]
  · simp [h1]
    omega

theorem binary_code (A B : emitted Unit) (tail : List Instr)
    (ha : A.res = Except.ok ()) (hb : B.res = Except.ok ()) :
    seq [A, emit [pushq (reg RAX)], B, emit tail] =
      ⟨A.out ++ pushq (reg RAX) :: (B.out ++ tail), Except.ok ()⟩ := by
  simp [seq, emit, ha, hb]

theorem unary_code (A : emitted Unit) (tail : List Instr) (ha : A.res = Except.ok ()) :
    seq [A, emit tail] = ⟨A.out ++ tail, Except.ok ()⟩ := by
  simp [seq, emit, ha]

theorem generate_expression_computes (cf : symbol_t) (e : node_t) (v : Int)
    (h : expression_value e v) :
    (generate_expression cf e).res = Except.ok () ∧ computes (generate_expression cf e).out v := by
  induction h with
  | number ch n op i sym hn =>
    refine ⟨by simp [generate_expression, emit], fun m => ?_⟩
    exact ⟨{ m with rax := n }, by
      simp [generate_expression, emit, machine.run, machine.step, machine.get, machine.set, hn],
      rfl, rfl⟩
  | add a b x y n i sym ha hb iha ihb =>
    have hx := expression_value_wrap a x ha
    have hy := expression_value_wrap b y hb
    obtain ⟨ra, pa⟩ := iha
    obtain ⟨rb, pb⟩ := ihb
    have e : generate_expression cf (node_t.mk node_type_t.OPERATOR [a, b] n "+" i sym) =
        seq [generate_expression cf a, emit [pushq (reg RAX)], generate_expression cf b,
          emit [popq (reg RCX), addq (reg RCX) (reg RAX)]] := by
      simp [generate_expression, generate_operator, generate_child]
    rw [e, binary_code _ _ _ ra rb]
    refine ⟨rfl, computes_binary _ _ _ x y _ pa pb ?_⟩
    rintro ⟨rax, rcx, rdx, stack, flags⟩ st hr hs
    simp only at hr hs
    subst hr hs
    exact ⟨_, rfl, by simp [add_comm], rfl⟩

  | sub a b x y n i sym ha hb iha ihb =>
    have hx := expression_value_wrap a x ha
    have hy := expression_value_wrap b y hb
    obtain ⟨ra, pa⟩ := iha
    obtain ⟨rb, pb⟩ := ihb
    have e : generate_expression cf (node_t.mk node_type_t.OPERATOR [a, b] n "-" i sym) =
        seq [generate_expression cf b, emit [pushq (reg RAX)], generate_expression cf a,
          emit [popq (reg RCX), subq (reg RCX) (reg RAX)]] := by
      simp [generate_expression, generate_operator, generate_child]
    rw [e, binary_code _ _ _ rb ra]
    refine ⟨rfl, computes_binary _ _ _ y x _ pb pa ?_⟩
    rintro ⟨rax, rcx, rdx, stack, flags⟩ st hr hs
    simp only at hr hs
    subst hr hs
    exact ⟨_, rfl, rfl, rfl⟩

  | neg a x n i sym ha iha =>
    obtain ⟨ra, pa⟩ := iha
    have e : generate_expression cf (node_t.mk node_type_t.OPERATOR [a] n "-" i sym) =
        seq [generate_expression cf a, emit [negq (reg RAX)]] := by
      simp [generate_expression, generate_operator, generate_child]
    rw [e, unary_code _ _ ra]
    refine ⟨rfl, computes_unary _ _ x _ pa ?_⟩
    rintro ⟨rax, rcx, rdx, stack, flags⟩ hr
    simp only at hr
    subst hr
    exact ⟨_, rfl, rfl, rfl⟩
  | mul a b x y n i sym ha hb iha ihb =>
    have hx := expression_value_wrap a x ha
    have hy := expression_value_wrap b y hb
    obtain ⟨ra, pa⟩ := iha
    obtain ⟨rb, pb⟩ := ihb
    have e : generate_expression cf (node_t.mk node_type_t.OPERATOR [a, b] n "*" i sym) =
        seq [generate_expression cf a, emit [pushq (reg RAX)], generate_expression cf b,
          emit [popq (reg RCX), imulq (reg RCX) (reg RAX)]] := by
      simp [generate_expression, generate_operator, generate_child]
    rw [e, binary_code _ _ _ ra rb]
    refine ⟨rfl, computes_binary _ _ _ x y _ pa pb ?_⟩
    rintro ⟨rax, rcx, rdx, stack, flags⟩ st hr hs
    simp only at hr hs
    subst hr hs
    exact ⟨_, rfl, by simp [mul_comm], rfl⟩

  | div a b x y n i sym ha hb hy0 hq iha ihb =>
    have hx := expression_value_wrap a x ha
    obtain ⟨ra, pa⟩ := iha
    obtain ⟨rb, pb⟩ := ihb
    have e : generate_expression cf (node_t.mk node_type_t.OPERATOR [a, b] n "/" i sym) =
        seq [generate_expression cf b, emit [pushq (reg RAX)], generate_expression cf a,
          emit [cqo, popq (reg RCX), idivq (reg RCX)]] := by
      simp [generate_expression, generate_operator, generate_child]
    rw [e, binary_code _ _ _ rb ra]
    refine ⟨rfl, computes_binary _ _ _ y x _ pb pa ?_⟩
    rintro ⟨rax, rcx, rdx, stack, flags⟩ st hr hs
    simp only at hr hs
    subst hr hs
    refine ⟨⟨rax.tdiv y, y, rax.tmod y, st, none⟩, ?_, rfl, rfl⟩
    have hd : (if rax < 0 then -18446744073709551616 else 0) + rax % 18446744073709551616 =
        rax := by
      rw [wrap64_eq_self_iff] at hx
      split <;> omega
    simp [machine.run, machine.step, machine.get, machine.set, hy0, hd, hq]
  | eq a b x y n i sym ha hb iha ihb =>
    have hx := expression_value_wrap a x ha
    have hy := expression_value_wrap b y hb
    obtain ⟨ra, pa⟩ := iha
    obtain ⟨rb, pb⟩ := ihb
    have e : generate_expression cf (node_t.mk node_type_t.OPERATOR [a, b] n "==" i sym) =
        seq [generate_expression cf a, emit [pushq (reg RAX)], generate_expression cf b,
          emit [popq (reg RCX), cmpq (reg RAX) (reg RCX), sete (reg AL),
            movzbq (reg AL) (reg RAX)]] := by
      simp [generate_expression, generate_operator, generate_child]
    rw [e, binary_code _ _ _ ra rb]
    refine ⟨rfl, computes_binary _ _ _ x y _ pa pb ?_⟩
    exact compare_tail sete (fun f => f.zf) x y _ (fun _ => rfl) (flags_zf x y hx hy)

  | ne a b x y n i sym ha hb iha ihb =>
    have hx := expression_value_wrap a x ha
    have hy := expression_value_wrap b y hb
    obtain ⟨ra, pa⟩ := iha
    obtain ⟨rb, pb⟩ := ihb
    have e : generate_expression cf (node_t.mk node_type_t.OPERATOR [a, b] n "!=" i sym) =
        seq [generate_expression cf a, emit [pushq (reg RAX)], generate_expression cf b,
          emit [popq (reg RCX), cmpq (reg RAX) (reg RCX), setne (reg AL),
            movzbq (reg AL) (reg RAX)]] := by
      simp [generate_expression, generate_operator, generate_child]
    rw [e, binary_code _ _ _ ra rb]
    refine ⟨rfl, computes_binary _ _ _ x y _ pa pb ?_⟩
    exact compare_tail setne (fun f => !f.zf) x y _ (fun _ => rfl) (by simp [flags_zf x y hx hy])

  | lt a b x y n i sym ha hb iha ihb =>
    have hx := expression_value_wrap a x ha
    have hy := expression_value_wrap b y hb
    obtain ⟨ra, pa⟩ := iha
    obtain ⟨rb, pb⟩ := ihb
    have e : generate_expression cf (node_t.mk node_type_t.OPERATOR [a, b] n "<" i sym) =
        seq [generate_expression cf a, emit [pushq (reg RAX)], generate_expression cf b,
          emit [popq (reg RCX), cmpq (reg RAX) (reg RCX), setl (reg AL),
            movzbq (reg AL) (reg RAX)]] := by
      simp [generate_expression, generate_operator, generate_child]
    rw [e, binary_code _ _ _ ra rb]
    refine ⟨rfl, computes_binary _ _ _ x y _ pa pb ?_⟩
    exact compare_tail setl (fun f => f.sf != f.of) x y _ (fun _ => rfl) (flags_lt x y hx hy)

  | le a b x y n i sym ha hb iha ihb =>
    have hx := expression_value_wrap a x ha
    have hy := expression_value_wrap b y hb
    obtain ⟨ra, pa⟩ := iha
    obtain ⟨rb, pb⟩ := ihb
    have e : generate_expression cf (node_t.mk node_type_t.OPERATOR [a, b] n "<=" i sym) =
        seq [generate_expression cf a, emit [pushq (reg RAX)], generate_expression cf b,
          emit [popq (reg RCX), cmpq (reg RAX) (reg RCX), setle (reg AL),
            movzbq (reg AL) (reg RAX)]] := by
      simp [generate_expression, generate_operator, generate_child]
    rw [e, binary_code _ _ _ ra rb]
    refine ⟨rfl, computes_binary _ _ _ x y _ pa pb ?_⟩
    exact compare_tail setle (fun f => f.zf || (f.sf != f.of)) x y _ (fun _ => rfl) (flags_le x y hx hy)

  | gt a b x y n i sym ha hb iha ihb =>
    have hx := expression_value_wrap a x ha
    have hy := expression_value_wrap b y hb
    obtain ⟨ra, pa⟩ := iha
    obtain ⟨rb, pb⟩ := ihb
    have e : generate_expression cf (node_t.mk node_type_t.OPERATOR [a, b] n ">" i sym) =
        seq [generate_expression cf a, emit [pushq (reg RAX)], generate_expression cf b,
          emit [popq (reg RCX), cmpq (reg RAX) (reg RCX), setg (reg AL),
            movzbq (reg AL) (reg RAX)]] := by
      simp [generate_expression, generate_operator, generate_child]
    rw [e, binary_code _ _ _ ra rb]
    refine ⟨rfl, computes_binary _ _ _ x y _ pa pb ?_⟩
    exact compare_tail setg (fun f => !f.zf && (f.sf == f.of)) x y _ (fun _ => rfl) (flags_gt x y hx hy)

  | ge a b x y n i sym ha hb iha ihb =>
    have hx := expression_value_wrap a x ha
    have hy := expression_value_wrap b y hb
    obtain ⟨ra, pa⟩ := iha
    obtain ⟨rb, pb⟩ := ihb
    have e : generate_expression cf (node_t.mk node_type_t.OPERATOR [a, b] n ">=" i sym) =
        seq [generate_expression cf a, emit [pushq (reg RAX)], generate_expression cf b,
          emit [popq (reg RCX), cmpq (reg RAX) (reg RCX), setge (reg AL),
            movzbq (reg AL) (reg RAX)]] := by
      simp [generate_expression, generate_operator, generate_child]
    rw [e, binary_code _ _ _ ra rb]
    refine ⟨rfl, computes_binary _ _ _ x y _ pa pb ?_⟩
    exact compare_tail setge (fun f => f.sf == f.of) x y _ (fun _ => rfl) (flags_ge x y hx hy)

  | not a x n i sym ha iha =>
    have hx := expression_value_wrap a x ha
    obtain ⟨ra, pa⟩ := iha
    have e : generate_expression cf (node_t.mk node_type_t.OPERATOR [a] n "!" i sym) =
        seq [generate_expression cf a,
          emit [cmpq (imm 0) (reg RAX), sete (reg AL), movzbq (reg AL) (reg RAX)]] := by
      simp [generate_expression, generate_operator, generate_child]
    rw [e, unary_code _ _ ra]
    refine ⟨rfl, computes_unary _ _ x _ pa ?_⟩
    rintro ⟨rax, rcx, rdx, stack, flags⟩ hr
    simp only at hr
    subst hr
    have hz := flags_zf rax 0 hx (by decide)
    have h1 : machine.step ⟨rax, rcx, rdx, stack, flags⟩ (cmpq (imm 0) (reg RAX)) =
        some ⟨rax, rcx, rdx, stack, some (result_flags (rax - 0))⟩ := rfl
    have h2 : ∀ m : machine, m.step (sete (reg AL)) = m.setcc (reg AL) fun f => f.zf :=
      fun _ => rfl
    have h3 : ∀ m : machine, m.step (movzbq (reg AL) (reg RAX)) =
        some { m with rax := m.rax % 256 } := fun _ => rfl
    simp only [machine.run, h1, h2, h3, machine.setcc, machine.set_al, hz,
      Option.some_bind, low_byte_set]
    exact ⟨_, rfl, rfl, rfl⟩

theorem expression_value_of_eq (e : node_t) (v w : Int) (h : expression_value e v)
    (hw : v = w) : expression_value e w :=
  hw ▸ h

theorem sample_expression_value : expression_value sample_expression 1 := by
  have h3 := expression_value.number [] 3 "" 0 none (by decide)
  have h10 := expression_value.number [] 10 "" 0 none (by decide)
  have h2 := expression_value.number [] 2 "" 0 none (by decide)
  have h1 := expression_value.number [] 1 "" 0 none (by decide)
  have hs := expression_value_of_eq _ _ (-7) (expression_value.sub _ _ _ _ 0 0 none h3 h10)
    (by decide)
  have hd := expression_value.div _ _ _ _ 0 0 none hs h2 (by decide) (by decide)
  have hn := expression_value_of_eq _ _ (-1) (expression_value.neg _ _ 0 0 none h1) (by decide)
  exact expression_value_of_eq _ _ 1 (expression_value.lt _ _ _ _ 0 0 none hd hn) (by decide)

/-! ## C1: arithmetic expressions -/

/-- C1: for every expression built only from number literals and the operators `+`, binary
and unary `-`, `*`, `/`, `==`, `!=`, `<`, `<=`, `>`, `>=`, `!` whose divisors are non-zero and
whose quotients do not overflow (`expression_value e v`), `generate_expression` succeeds and
the emitted code, run from any machine state, ends with `%rax` equal to the value `v` of the
expression and with the stack it started with. -/
theorem generate_expression_arithmetic_correct (cf : symbol_t) (e : node_t) (v : Int)
    (h : expression_value e v) :
    (generate_expression cf e).res = Except.ok () ∧
      ∀ m : machine, ∃ m1 : machine,
        machine.run (generate_expression cf e).out m = some m1 ∧ m1.rax = v ∧
          m1.stack = m.stack :=
  generate_expression_computes cf e v h

/-- C1 at `(3 - 10) / 2 < -1`, started with `%rax = 7` and the stack `[42]`. -/
theorem generate_expression_arithmetic_correct_witness :
    expression_value sample_expression 1 ∧
      (generate_expression sample_function sample_expression).res = Except.ok () ∧
      ∃ m1 : machine,
        machine.run (generate_expression sample_function sample_expression).out
          ⟨7, 0, 0, [42], none⟩ = some m1 ∧ m1.rax = 1 ∧ m1.stack = [42] :=
  ⟨sample_expression_value,
    (generate_expression_arithmetic_correct sample_function sample_expression 1
      sample_expression_value).1,
    (generate_expression_arithmetic_correct sample_function sample_expression 1
      sample_expression_value).2 ⟨7, 0, 0, [42], none⟩⟩

/-! ## C3, C4: frame offsets of parameters and locals -/

theorem wrap32_eq_self (x : Int) (h1 : -2147483648 ≤ x) (h2 : x < 2147483648) :
    wrap32 x = x := by
  unfold wrap32
  omega

theorem generate_variable_access_parameter_node (cf : symbol_t) (ch : List node_t) (n : Int)
    (op : String) (i : Nat) (symbol : symbol_t)
    (h : symbol.type = symtype_t.SYMBOL_PARAMETER) :
    generate_variable_access cf (node_t.mk node_type_t.IDENTIFIER ch n op i (some symbol)) =
      Except.ok (frame (wrap32 (if symbol.sequence_number < 6
        then -((symbol.sequence_number : Int) + 1) * 8
        else 16 + ((symbol.sequence_number : Int) - 6) * 8))) := by
  by_cases hp : symbol.sequence_number < 6 <;>
    simp [generate_variable_access, node_t.type, node_t.symbol, h, NUM_REGISTER_PARAMS, hp]

theorem generate_variable_access_local_node (cf : symbol_t) (ch : List node_t) (n : Int)
    (op : String) (i : Nat) (symbol : symbol_t)
    (h : symbol.type = symtype_t.SYMBOL_LOCAL_VAR) :
    generate_variable_access cf (node_t.mk node_type_t.IDENTIFIER ch n op i (some symbol)) =
      Except.ok (frame (wrap32 (-((if FUNC_PARAM_COUNT cf > 6
        then (symbol.sequence_number : Int) - ((FUNC_PARAM_COUNT cf : Int) - 6)
        else (symbol.sequence_number : Int)) + 1) * 8))) := by
  by_cases hp : FUNC_PARAM_COUNT cf > 6 <;>
    simp only [generate_variable_access, node_t.type, node_t.symbol, h, NUM_REGISTER_PARAMS, hp,
      ne_eq, not_true_eq_false, if_false, if_true, Except.ok.injEq, frame.injEq] <;>
    unfold wrap32 <;>
    push_cast <;>
    omega

theorem generate_variable_access_parameter_eq (cf : symbol_t) (symbol : symbol_t)
    (h : symbol.type = symtype_t.SYMBOL_PARAMETER)
    (hfit : symbol.sequence_number ≤ 268435459) :
    generate_variable_access cf (node_t.identifier symbol) =
      Except.ok (frame (if symbol.sequence_number < 6
        then -((symbol.sequence_number : Int) + 1) * 8
        else 16 + ((symbol.sequence_number : Int) - 6) * 8)) := by
  rw [node_t.identifier, generate_variable_access_parameter_node cf _ _ _ _ symbol h,
    wrap32_eq_self _ (by split <;> omega) (by split <;> omega)]

theorem generate_variable_access_local_eq (cf : symbol_t) (symbol : symbol_t)
    (h : symbol.type = symtype_t.SYMBOL_LOCAL_VAR)
    (hfit : -268435456 ≤ (if FUNC_PARAM_COUNT cf > 6
        then (symbol.sequence_number : Int) - ((FUNC_PARAM_COUNT cf : Int) - 6)
        else (symbol.sequence_number : Int)) ∧
      (if FUNC_PARAM_COUNT cf > 6
        then (symbol.sequence_number : Int) - ((FUNC_PARAM_COUNT cf : Int) - 6)
        else (symbol.sequence_number : Int)) ≤ 268435455) :
    generate_variable_access cf (node_t.identifier symbol) =
      Except.ok (frame (-((if FUNC_PARAM_COUNT cf > 6
        then (symbol.sequence_number : Int) - ((FUNC_PARAM_COUNT cf : Int) - 6)
        else (symbol.sequence_number : Int)) + 1) * 8)) := by
  rw [node_t.identifier, generate_variable_access_local_node cf _ _ _ _ symbol h,
    wrap32_eq_self _ (by omega) (by omega)]

/-- C3, amended: for a parameter symbol with sequence number `p`, `generate_variable_access`
returns the operand `offset(%rbp)` whose offset is the signed 32-bit value of `-(p+1)*8`
when `p < 6` and of `16 + (p-6)*8` when `p >= 6`, whatever the current function `cf` is; for
`p <= 268435459` this is `-(p+1)*8`, respectively `16 + (p-6)*8`, itself. -/
theorem generate_variable_access_parameter (cf : symbol_t) (ch : List node_t) (n : Int)
    (op : String) (i : Nat) (symbol : symbol_t)
    (h : symbol.type = symtype_t.SYMBOL_PARAMETER) :
    generate_variable_access cf (node_t.mk node_type_t.IDENTIFIER ch n op i (some symbol)) =
      Except.ok (frame (wrap32 (if symbol.sequence_number < 6
        then -((symbol.sequence_number : Int) + 1) * 8
        else 16 + ((symbol.sequence_number : Int) - 6) * 8))) ∧
    (symbol.sequence_number ≤ 268435459 →
      generate_variable_access cf (node_t.mk node_type_t.IDENTIFIER ch n op i (some symbol)) =
        Except.ok (frame (if symbol.sequence_number < 6
          then -((symbol.sequence_number : Int) + 1) * 8
          else 16 + ((symbol.sequence_number : Int) - 6) * 8))) := by
  refine ⟨generate_variable_access_parameter_node cf ch n op i symbol h, fun hfit => ?_⟩
  rw [generate_variable_access_parameter_node cf ch n op i symbol h,
    wrap32_eq_self _ (by split <;> omega) (by split <;> omega)]

/-- C3 as stated fails: for the parameter with sequence number 268435460 the offset
`16 + (p-6)*8` is `2147483648`, which the `int` that holds the offset reduces to
`-2147483648`: the operand is `-2147483648(%rbp)`. -/
theorem generate_variable_access_parameter_wraps :
    generate_variable_access sample_function
        (node_t.identifier ⟨"p", symtype_t.SYMBOL_PARAMETER, 268435460, 0, node_type_t.LIST,
          0⟩) = Except.ok (frame (-2147483648)) ∧
    (16 + ((268435460 : Int) - 6) * 8 = 2147483648) ∧
    generate_variable_access sample_function
        (node_t.identifier ⟨"p", symtype_t.SYMBOL_PARAMETER, 268435460, 0, node_type_t.LIST,
          0⟩) ≠ Except.ok (frame (16 + ((268435460 : Int) - 6) * 8)) := by
  decide

/-- C3, amended, at the parameters with sequence numbers 2 and 7 of a function with 8
parameters, and at the last parameter whose offset fits. -/
theorem generate_variable_access_parameter_witness :
    generate_variable_access ⟨"g", symtype_t.SYMBOL_FUNCTION, 0, 8, node_type_t.LIST, 0⟩
        (node_t.identifier ⟨"c", symtype_t.SYMBOL_PARAMETER, 2, 0, node_type_t.LIST, 0⟩) =
      Except.ok (frame (-24)) ∧
    generate_variable_access ⟨"g", symtype_t.SYMBOL_FUNCTION, 0, 8, node_type_t.LIST, 0⟩
        (node_t.identifier ⟨"h", symtype_t.SYMBOL_PARAMETER, 7, 0, node_type_t.LIST, 0⟩) =
      Except.ok (frame 24) ∧
    generate_variable_access ⟨"g", symtype_t.SYMBOL_FUNCTION, 0, 8, node_type_t.LIST, 0⟩
        (node_t.identifier ⟨"z", symtype_t.SYMBOL_PARAMETER, 268435459, 0, node_type_t.LIST,
          0⟩) = Except.ok (frame 2147483640) :=
  ⟨(generate_variable_access_parameter _ [] 0 "" 0
      ⟨"c", symtype_t.SYMBOL_PARAMETER, 2, 0, node_type_t.LIST, 0⟩ rfl).2 (by decide),
    (generate_variable_access_parameter _ [] 0 "" 0
      ⟨"h", symtype_t.SYMBOL_PARAMETER, 7, 0, node_type_t.LIST, 0⟩ rfl).2 (by decide),
    (generate_variable_access_parameter _ [] 0 "" 0
      ⟨"z", symtype_t.SYMBOL_PARAMETER, 268435459, 0, node_type_t.LIST, 0⟩ rfl).2
      (by decide)⟩

/-- C4, amended: for a local-variable symbol with sequence number `s`, accessed while the
current function has `N` declared parameters, let `e = s - (N-6)` if `N > 6` and `e = s`
otherwise; `generate_variable_access` returns the operand `offset(%rbp)` whose offset is the
signed 32-bit value of `-(e+1)*8`; for `-268435456 <= e <= 268435455` this is `-(e+1)*8`
itself. -/
theorem generate_variable_access_local (cf : symbol_t) (ch : List node_t) (n : Int)
    (op : String) (i : Nat) (symbol : symbol_t)
    (h : symbol.type = symtype_t.SYMBOL_LOCAL_VAR) :
    generate_variable_access cf (node_t.mk node_type_t.IDENTIFIER ch n op i (some symbol)) =
      Except.ok (frame (wrap32 (-((if FUNC_PARAM_COUNT cf > 6
        then (symbol.sequence_number : Int) - ((FUNC_PARAM_COUNT cf : Int) - 6)
        else (symbol.sequence_number : Int)) + 1) * 8))) ∧
    (-268435456 ≤ (if FUNC_PARAM_COUNT cf > 6
        then (symbol.sequence_number : Int) - ((FUNC_PARAM_COUNT cf : Int) - 6)
        else (symbol.sequence_number : Int)) →
      (if FUNC_PARAM_COUNT cf > 6
        then (symbol.sequence_number : Int) - ((FUNC_PARAM_COUNT cf : Int) - 6)
        else (symbol.sequence_number : Int)) ≤ 268435455 →
      generate_variable_access cf (node_t.mk node_type_t.IDENTIFIER ch n op i (some symbol)) =
        Except.ok (frame (-((if FUNC_PARAM_COUNT cf > 6
          then (symbol.sequence_number : Int) - ((FUNC_PARAM_COUNT cf : Int) - 6)
          else (symbol.sequence_number : Int)) + 1) * 8))) := by
  refine ⟨generate_variable_access_local_node cf ch n op i symbol h, fun h1 h2 => ?_⟩
  rw [generate_variable_access_local_node cf ch n op i symbol h,
    wrap32_eq_self _ (by omega) (by omega)]

/-- C4 as stated fails: in a function without parameters the local with sequence number
`2^28 = 268435456` has `-(s+1)*8 = -2147483656`, which is no value of the `int` that holds
the offset: the operand is `2147483640(%rbp)`.  And the local with sequence number
`2^32 = 4294967296`, which the conversion to `int` reduces to 0, gets the operand `-8(%rbp)`
of the local 0. -/
theorem generate_variable_access_local_wraps :
    generate_variable_access sample_function
        (node_t.identifier ⟨"x", symtype_t.SYMBOL_LOCAL_VAR, 268435456, 0, node_type_t.LIST,
          0⟩) = Except.ok (frame 2147483640) ∧
    (-((268435456 : Int) + 1) * 8 = -2147483656) ∧
    generate_variable_access sample_function
        (node_t.identifier ⟨"x", symtype_t.SYMBOL_LOCAL_VAR, 268435456, 0, node_type_t.LIST,
          0⟩) ≠ Except.ok (frame (-((268435456 : Int) + 1) * 8)) ∧
    generate_variable_access sample_function
        (node_t.identifier ⟨"x", symtype_t.SYMBOL_LOCAL_VAR, 4294967296, 0, node_type_t.LIST,
          0⟩) = Except.ok (frame (-8)) := by
  decide

/-- C4, amended, at the local with sequence number 9 of a function with 8 parameters and at
the local with sequence number 3 of a function with 2 parameters. -/
theorem generate_variable_access_local_witness :
    generate_variable_access ⟨"g", symtype_t.SYMBOL_FUNCTION, 0, 8, node_type_t.LIST, 0⟩
        (node_t.identifier ⟨"x", symtype_t.SYMBOL_LOCAL_VAR, 9, 0, node_type_t.LIST, 0⟩) =
      Except.ok (frame (-64)) ∧
    generate_variable_access ⟨"k", symtype_t.SYMBOL_FUNCTION, 0, 2, node_type_t.LIST, 0⟩
        (node_t.identifier ⟨"y", symtype_t.SYMBOL_LOCAL_VAR, 3, 0, node_type_t.LIST, 0⟩) =
      Except.ok (frame (-32)) :=
  ⟨(generate_variable_access_local _ [] 0 "" 0
      ⟨"x", symtype_t.SYMBOL_LOCAL_VAR, 9, 0, node_type_t.LIST, 0⟩ rfl).2 (by decide)
      (by decide),
    (generate_variable_access_local _ [] 0 "" 0
      ⟨"y", symtype_t.SYMBOL_LOCAL_VAR, 3, 0, node_type_t.LIST, 0⟩ rfl).2 (by decide)
      (by decide)⟩

/-! ## C2, C5: the prologue and the frame offsets -/

theorem bind_of_ok {α β : Type} (x : emitted α) (f : α → emitted β) (a : α)
    (h : x.res = Except.ok a) : x.bind f = ⟨x.out ++ (f a).out, (f a).res⟩ := by
  simp [emitted.bind, h]

theorem bind_of_error {α β : Type} (x : emitted α) (f : α → emitted β) (e : gen_error)
    (h : x.res = Except.error e) : x.bind f = ⟨x.out, Except.error e⟩ := by
  simp [emitted.bind, h]

theorem generate_function_prologue (func : function_t) (s : gen_state) :
    ∃ rest, (generate_function func s).out = function_prologue func ++ rest := by
  unfold generate_function
  rw [bind_of_ok (emit (function_prologue func)) _ () rfl]
  exact ⟨_, rfl⟩

theorem filter_range_lt (N k : Nat) :
    (List.range N).filter (fun p => decide (p < k)) = List.range (min N k) := by
  induction N with
  | zero => simp
  | succ n ih =>
    rw [List.range_succ, List.filter_append, ih]
    by_cases h : n < k
    · have e : min (n + 1) k = n + 1 := by omega
      have e1 : min n k = n := by omega
      simp [h, e, e1, List.range_succ]
    · have e : min (n + 1) k = k := by omega
      have e1 : min n k = k := by omega
      simp [h, e, e1]

theorem pushed_slots_pushes (srcs : List Operand) (sp : Int) :
    pushed_slots (srcs.map pushq) sp =
      (List.range srcs.length).map fun (k : Nat) => sp - 8 * ((k : Int) + 1) := by
  induction srcs generalizing sp with
  | nil => rfl
  | cons a rest ih =>
    simp only [List.map_cons, pushed_slots, ih, List.length_cons, List.range_succ_eq_map,
      List.map_map]
    refine congrArg₂ _ (by simp) (List.map_congr_left fun k _ => ?_)
    simp only [Function.comp, Nat.succ_eq_add_one]
    push_cast
    ring

theorem variable_accesses_parameters (cf : symbol_t) (params : List symbol_t)
    (ht : ∀ s ∈ params, s.type = symtype_t.SYMBOL_PARAMETER)
    (hfit : ∀ s ∈ params, s.sequence_number ≤ 268435459) :
    variable_accesses cf params =
      (params.map fun s => s.sequence_number).map fun (p : Nat) =>
        Except.ok (frame (if p < 6 then -((p : Int) + 1) * 8 else 16 + ((p : Int) - 6) * 8)) := by
  rw [List.map_map]
  exact List.map_congr_left fun s hs =>
    generate_variable_access_parameter_eq cf s (ht s hs) (hfit s hs)

theorem variable_accesses_locals (cf : symbol_t) (locals : List symbol_t)
    (ht : ∀ s ∈ locals, s.type = symtype_t.SYMBOL_LOCAL_VAR)
    (hfit : ∀ s ∈ locals,
      -268435456 ≤ (if FUNC_PARAM_COUNT cf > 6
        then (s.sequence_number : Int) - ((FUNC_PARAM_COUNT cf : Int) - 6)
        else (s.sequence_number : Int)) ∧
      (if FUNC_PARAM_COUNT cf > 6
        then (s.sequence_number : Int) - ((FUNC_PARAM_COUNT cf : Int) - 6)
        else (s.sequence_number : Int)) ≤ 268435455) :
    variable_accesses cf locals =
      (locals.map fun s => s.sequence_number).map fun (q : Nat) =>
        Except.ok (frame (-((if FUNC_PARAM_COUNT cf > 6
          then (q : Int) - ((FUNC_PARAM_COUNT cf : Int) - 6) else (q : Int)) + 1) * 8)) := by
  rw [List.map_map]
  exact List.map_congr_left fun s hs =>
    generate_variable_access_local_eq cf s (ht s hs) (hfit s hs)

theorem sequence_number_mem_range' (locals : List symbol_t) (N L : Nat)
    (h : locals.map (fun s => s.sequence_number) = List.range' N L) :
    ∀ s ∈ locals, N ≤ s.sequence_number ∧ s.sequence_number < N + L := by
  intro s hs
  have hm : s.sequence_number ∈ List.range' N L := by
    rw [← h]
    exact List.mem_map_of_mem _ hs
  have := List.mem_range'_1.1 hm
  omega

theorem locals_fit (cf : symbol_t) (locals : List symbol_t) (N L : Nat)
    (hN : FUNC_PARAM_COUNT cf = N)
    (h : locals.map (fun s => s.sequence_number) = List.range' N L)
    (hfit : min N 6 + L ≤ 268435456) :
    ∀ s ∈ locals,
      -268435456 ≤ (if FUNC_PARAM_COUNT cf > 6
        then (s.sequence_number : Int) - ((FUNC_PARAM_COUNT cf : Int) - 6)
        else (s.sequence_number : Int)) ∧
      (if FUNC_PARAM_COUNT cf > 6
        then (s.sequence_number : Int) - ((FUNC_PARAM_COUNT cf : Int) - 6)
        else (s.sequence_number : Int)) ≤ 268435455 := by
  intro s hs
  have := sequence_number_mem_range' locals N L h s hs
  rw [hN]
  split <;> omega

theorem variable_accesses_append (cf : symbol_t) (a b : List symbol_t) :
    variable_accesses cf (a ++ b) = variable_accesses cf a ++ variable_accesses cf b := by
  simp [variable_accesses]

/-- C2, amended: for a function with `N` parameters and `L` locals whose locals carry the
sequence numbers `N`, ..., `N+L-1`, with `min(N,6)+L <= 2^28 = 268435456`, the output of
`generate_function` starts with the prologue, which consists of the entry label, the frame
setup and exactly `min(N,6)+L` pushes; the k-th of them (from 1) stores at `-8k(%rbp)`, and
the operands that `generate_variable_access` computes for the parameters with sequence number
below 6, followed by those for the locals, are exactly these slots, in this order.  The bound
is that of the frames `int` offsets address: the lowest slot is at `-2^31` or above. -/
theorem function_prologue_slots (func : function_t) (N L : Nat)
    (hfit : min N 6 + L ≤ 268435456)
    (hN : FUNC_PARAM_COUNT func.symbol = N)
    (hpar : (func.function_symtable.filter
      fun s => s.type = symtype_t.SYMBOL_PARAMETER).map (fun s => s.sequence_number) =
        List.range N)
    (hloc : (func.function_symtable.filter
      fun s => s.type = symtype_t.SYMBOL_LOCAL_VAR).map (fun s => s.sequence_number) =
        List.range' N L) :
    ∃ pushes : List Operand,
      (∀ s, ∃ rest, (generate_function func s).out =
        [label (Label.function func.symbol.name), pushq (reg RBP), movq (reg RSP) (reg RBP)] ++
          pushes.map pushq ++ rest) ∧
      function_prologue func =
        [label (Label.function func.symbol.name), pushq (reg RBP), movq (reg RSP) (reg RBP)] ++
          pushes.map pushq ∧
      pushes.length = min N 6 + L ∧
      pushed_slots (pushes.map pushq) 0 =
        (List.range (min N 6 + L)).map (fun (k : Nat) => -8 * ((k : Int) + 1)) ∧
      variable_accesses func.symbol
          ((func.function_symtable.filter fun s =>
              s.type = symtype_t.SYMBOL_PARAMETER ∧ s.sequence_number < 6) ++
            func.function_symtable.filter fun s => s.type = symtype_t.SYMBOL_LOCAL_VAR) =
        (pushed_slots (pushes.map pushq) 0).map fun o => Except.ok (frame o) := by
  have hL : (func.function_symtable.filter
      fun s => s.type = symtype_t.SYMBOL_LOCAL_VAR).length = L := by
    simpa using congrArg List.length hloc
  refine ⟨(REGISTER_PARAMS.take N).map reg ++
    (func.function_symtable.filter fun s => s.type = symtype_t.SYMBOL_LOCAL_VAR).map
      (fun _ => imm 0), ?_, ?_, ?_, ?_, ?_⟩
  · intro s
    obtain ⟨rest, hr⟩ := generate_function_prologue func s
    refine ⟨rest, ?_⟩
    rw [hr]
    simp [function_prologue, hN, List.map_map, Function.comp_def]
  · simp [function_prologue, hN, List.map_map, Function.comp_def]
  · simp [hL, REGISTER_PARAMS]
  · rw [pushed_slots_pushes]
    simp [hL, REGISTER_PARAMS]
  · have hp6 : (func.function_symtable.filter fun s =>
        s.type = symtype_t.SYMBOL_PARAMETER ∧ s.sequence_number < 6).map
          (fun s => s.sequence_number) = List.range (min N 6) := by
      rw [← filter_range_lt, ← hpar, List.filter_map, List.filter_filter]
      congr 1
      apply List.filter_congr
      intro s _
      simp [Bool.and_comm]
    rw [pushed_slots_pushes, variable_accesses_append,
      variable_accesses_parameters _ _
        (fun s hs => (of_decide_eq_true (List.mem_filter.1 hs).2).1)
        (fun s hs => by
          have := (of_decide_eq_true (List.mem_filter.1 hs).2).2
          omega),
      variable_accesses_locals _ _ (fun s hs => of_decide_eq_true (List.mem_filter.1 hs).2)
        (locals_fit func.symbol _ N L hN hloc hfit),
      hp6, hloc, hN]
    have hlen : ((REGISTER_PARAMS.take N).map reg ++
        (func.function_symtable.filter fun s => s.type = symtype_t.SYMBOL_LOCAL_VAR).map
          (fun _ => imm 0)).length = min N 6 + L := by
      simp [hL, REGISTER_PARAMS]
    rw [hlen, List.range_add, List.map_append, List.map_append, List.range'_eq_map_range,
      List.map_map, List.map_map, List.map_map, List.map_map]
    refine congrArg₂ _ (List.map_congr_left fun p hp => ?_) (List.map_congr_left fun j _ => ?_)
    · have h6 : p < 6 := by have := List.mem_range.1 hp; omega
      simp only [Function.comp, h6, if_true]
      congr 2
      ring
    · simp only [Function.comp]
      congr 2
      by_cases h : N > 6
      · have e : min N 6 = 6 := by omega
        simp only [h, if_true, e]
        push_cast
        ring
      · have e : min N 6 = N := by omega
        simp only [h, if_false, e]
        push_cast
        ring

/-- C2, amended, at a function with seven parameters and two locals. -/
theorem function_prologue_slots_witness :
    ∃ pushes : List Operand,
      (∀ s, ∃ rest, (generate_function sample_frame_function s).out =
        [label (Label.function "g"), pushq (reg RBP), movq (reg RSP) (reg RBP)] ++
          pushes.map pushq ++ rest) ∧
      function_prologue sample_frame_function =
        [label (Label.function "g"), pushq (reg RBP), movq (reg RSP) (reg RBP)] ++
          pushes.map pushq ∧
      pushes.length = min 7 6 + 2 ∧
      pushed_slots (pushes.map pushq) 0 =
        (List.range (min 7 6 + 2)).map (fun (k : Nat) => -8 * ((k : Int) + 1)) ∧
      variable_accesses sample_frame_function.symbol
          ((sample_frame_function.function_symtable.filter fun s =>
              s.type = symtype_t.SYMBOL_PARAMETER ∧ s.sequence_number < 6) ++
            sample_frame_function.function_symtable.filter
              fun s => s.type = symtype_t.SYMBOL_LOCAL_VAR) =
        (pushed_slots (pushes.map pushq) 0).map fun o => Except.ok (frame o) :=
  function_prologue_slots sample_frame_function 7 2 (by decide) rfl (by decide) (by decide)

theorem numbered_locals_type (N L : Nat) :
    ∀ s ∈ numbered_locals N L, s.type = symtype_t.SYMBOL_LOCAL_VAR := by
  intro s hs
  obtain ⟨k, -, rfl⟩ := List.mem_map.1 hs
  rfl

theorem numbered_locals_sequence_numbers (N L : Nat) :
    (numbered_locals N L).map (fun s => s.sequence_number) = List.range' N L := by
  unfold numbered_locals
  rw [List.map_map]
  exact (List.map_congr_left fun k _ => rfl).trans (List.map_id _)

theorem numbered_locals_filter_locals (N L : Nat) :
    ((numbered_locals N L).filter fun s => s.type = symtype_t.SYMBOL_LOCAL_VAR) =
      numbered_locals N L :=
  List.filter_eq_self.2 fun s hs => decide_eq_true (numbered_locals_type N L s hs)

theorem numbered_locals_filter_parameters (N L : Nat) (p : symbol_t → Prop)
    [DecidablePred p] (hp : ∀ s, p s → s.type = symtype_t.SYMBOL_PARAMETER) :
    ((numbered_locals N L).filter fun s => p s) = [] := by
  refine List.filter_eq_nil_iff.2 fun s hs h => ?_
  have h1 := hp s (of_decide_eq_true h)
  rw [numbered_locals_type N L s hs] at h1
  cases h1

/-- C2 as stated fails: the function `f` without parameters and with `2^28 + 1` locals,
numbered from 0, has the shape the claim asks for, and its prologue pushes `2^28 + 1` words;
the last local, number `2^28`, is accessed at `2147483640(%rbp)`, which is the offset
`-2147483656` of its slot as an `int`: an operand above the frame pointer is among the
accesses of the locals, and no list of pushes has these accesses as its slots. -/
theorem function_prologue_slots_beyond_int :
    FUNC_PARAM_COUNT sample_wide_frame_function.symbol = 0 ∧
    (sample_wide_frame_function.function_symtable.filter
      fun s => s.type = symtype_t.SYMBOL_PARAMETER).map (fun s => s.sequence_number) =
        List.range 0 ∧
    (sample_wide_frame_function.function_symtable.filter
      fun s => s.type = symtype_t.SYMBOL_LOCAL_VAR).map (fun s => s.sequence_number) =
        List.range' 0 268435457 ∧
    Except.ok (frame 2147483640) ∈
      variable_accesses sample_wide_frame_function.symbol
        ((sample_wide_frame_function.function_symtable.filter fun s =>
            s.type = symtype_t.SYMBOL_PARAMETER ∧ s.sequence_number < 6) ++
          sample_wide_frame_function.function_symtable.filter
            fun s => s.type = symtype_t.SYMBOL_LOCAL_VAR) ∧
    ∀ pushes : List Operand,
      variable_accesses sample_wide_frame_function.symbol
          ((sample_wide_frame_function.function_symtable.filter fun s =>
              s.type = symtype_t.SYMBOL_PARAMETER ∧ s.sequence_number < 6) ++
            sample_wide_frame_function.function_symtable.filter
              fun s => s.type = symtype_t.SYMBOL_LOCAL_VAR) ≠
        (pushed_slots (pushes.map pushq) 0).map fun o => Except.ok (frame o) := by
  have hsym : sample_wide_frame_function.function_symtable = numbered_locals 0 268435457 := rfl
  have hmem : Except.ok (frame 2147483640) ∈
      variable_accesses sample_wide_frame_function.symbol
        ((sample_wide_frame_function.function_symtable.filter fun s =>
            s.type = symtype_t.SYMBOL_PARAMETER ∧ s.sequence_number < 6) ++
          sample_wide_frame_function.function_symtable.filter
            fun s => s.type = symtype_t.SYMBOL_LOCAL_VAR) := by
    rw [hsym, numbered_locals_filter_locals]
    refine List.mem_map.2 ⟨⟨"x", symtype_t.SYMBOL_LOCAL_VAR, 268435456, 0, node_type_t.LIST, 0⟩,
      List.mem_append_right _ (List.mem_map.2 ⟨268435456, ?_, rfl⟩), ?_⟩
    · exact List.mem_range'_1.2 ⟨by omega, by omega⟩
    · show generate_variable_access sample_function
        (node_t.identifier ⟨"x", symtype_t.SYMBOL_LOCAL_VAR, 268435456, 0, node_type_t.LIST,
          0⟩) = Except.ok (frame 2147483640)
      decide
  refine ⟨rfl, ?_, ?_, hmem, fun pushes h => ?_⟩
  · rw [hsym, numbered_locals_filter_parameters 0 _ _ fun s h => h]
    rfl
  · rw [hsym, numbered_locals_filter_locals, numbered_locals_sequence_numbers]
  · rw [h, pushed_slots_pushes] at hmem
    simp only [List.map_map, List.mem_map, Function.comp, Except.ok.injEq, frame.injEq] at hmem
    obtain ⟨k, -, hk⟩ := hmem
    omega

theorem variable_accesses_parameters_wrap32 (cf : symbol_t) (params : List symbol_t)
    (ht : ∀ s ∈ params, s.type = symtype_t.SYMBOL_PARAMETER) :
    variable_accesses cf params =
      (params.map fun s => s.sequence_number).map fun (p : Nat) =>
        Except.ok (frame (wrap32
          (if p < 6 then -((p : Int) + 1) * 8 else 16 + ((p : Int) - 6) * 8))) := by
  rw [List.map_map]
  exact List.map_congr_left fun s hs =>
    generate_variable_access_parameter_node cf [] 0 "" 0 s (ht s hs)

theorem variable_accesses_locals_wrap32 (cf : symbol_t) (locals : List symbol_t)
    (ht : ∀ s ∈ locals, s.type = symtype_t.SYMBOL_LOCAL_VAR) :
    variable_accesses cf locals =
      (locals.map fun s => s.sequence_number).map fun (q : Nat) =>
        Except.ok (frame (wrap32 (-((if FUNC_PARAM_COUNT cf > 6
          then (q : Int) - ((FUNC_PARAM_COUNT cf : Int) - 6) else (q : Int)) + 1) * 8))) := by
  rw [List.map_map]
  exact List.map_congr_left fun s hs =>
    generate_variable_access_local_node cf [] 0 "" 0 s (ht s hs)

/-- C5, amended: for a function with `N` parameters numbered `0..N-1` and `L` locals numbered
`N..N+L-1` (contiguously after the parameters), with `N + L <= 536870910 = 2^29 - 2`, the
`N+L` operands that `generate_variable_access` computes are frame slots and pairwise
distinct, both for `N <= 6` and for `N > 6`.  The bound is what the 32-bit offsets need:
offsets that differ by a multiple of `2^32` are the same `int`. -/
theorem variable_accesses_nodup (cf : symbol_t) (params locals : List symbol_t) (N L : Nat)
    (hfit : N + L ≤ 536870910)
    (hN : FUNC_PARAM_COUNT cf = N)
    (hpt : ∀ s ∈ params, s.type = symtype_t.SYMBOL_PARAMETER)
    (hps : params.map (fun s => s.sequence_number) = List.range N)
    (hlt : ∀ s ∈ locals, s.type = symtype_t.SYMBOL_LOCAL_VAR)
    (hls : locals.map (fun s => s.sequence_number) = List.range' N L) :
    (variable_accesses cf (params ++ locals)).Nodup ∧
      ∀ a ∈ variable_accesses cf (params ++ locals), ∃ offset : Int, a = Except.ok (frame offset) := by
  rw [variable_accesses_append, variable_accesses_parameters_wrap32 cf params hpt,
    variable_accesses_locals_wrap32 cf locals hlt, hps, hls, hN]
  refine ⟨List.nodup_append.2 ⟨?_, ?_, ?_⟩, ?_⟩
  · refine List.Nodup.map_on (fun p hp q hq h => ?_) (List.nodup_range N)
    simp only [Except.ok.injEq, frame.injEq] at h
    have hp1 := List.mem_range.1 hp
    have hq1 := List.mem_range.1 hq
    unfold wrap32 at h
    split at h <;> split at h <;> omega
  · refine List.Nodup.map_on (fun p hp q hq h => ?_) (List.nodup_range' N L)
    simp only [Except.ok.injEq, frame.injEq] at h
    have hp1 := (List.mem_range'_1.1 hp)
    have hq1 := (List.mem_range'_1.1 hq)
    unfold wrap32 at h
    split at h <;> omega
  · intro a ha hb
    obtain ⟨p, hp, rfl⟩ := List.mem_map.1 ha
    obtain ⟨q, hq, e⟩ := List.mem_map.1 hb
    simp only [Except.ok.injEq, frame.injEq] at e
    have hp1 := List.mem_range.1 hp
    have hq1 := (List.mem_range'_1.1 hq)
    unfold wrap32 at e
    split at e <;> split at e <;> omega
  · intro a ha
    rcases List.mem_append.1 ha with h | h <;>
      obtain ⟨p, _, rfl⟩ := List.mem_map.1 h <;> exact ⟨_, rfl⟩

/-- C5 as stated fails: with parameters and locals numbered independently from zero, the
parameter 0 and the local 0 of a function with one parameter both get `-8(%rbp)`, and in a
function with seven parameters the local 1 gets the slot `-8(%rbp)` of parameter 0.  With the
locals numbered after the parameters, in a function with 7 parameters and 536870904 locals
(`N + L = 2^29 - 1`) the last local, number 536870910, gets the operand `16(%rbp)` of
parameter 6: its offset `-4294967280` is 16 as an `int`. -/
theorem variable_accesses_independent_numbering_collide :
    (List.map (fun s => s.sequence_number)
        [(⟨"a", symtype_t.SYMBOL_PARAMETER, 0, 0, node_type_t.LIST, 0⟩ : symbol_t)] =
      List.range 1 ∧
    List.map (fun s => s.sequence_number)
        [(⟨"x", symtype_t.SYMBOL_LOCAL_VAR, 0, 0, node_type_t.LIST, 0⟩ : symbol_t)] =
      List.range 1) ∧
    variable_accesses ⟨"f", symtype_t.SYMBOL_FUNCTION, 0, 1, node_type_t.LIST, 0⟩
      [⟨"a", symtype_t.SYMBOL_PARAMETER, 0, 0, node_type_t.LIST, 0⟩,
        ⟨"x", symtype_t.SYMBOL_LOCAL_VAR, 0, 0, node_type_t.LIST, 0⟩] =
      [Except.ok (frame (-8)), Except.ok (frame (-8))] ∧
    ¬ (variable_accesses ⟨"f", symtype_t.SYMBOL_FUNCTION, 0, 1, node_type_t.LIST, 0⟩
      [⟨"a", symtype_t.SYMBOL_PARAMETER, 0, 0, node_type_t.LIST, 0⟩,
        ⟨"x", symtype_t.SYMBOL_LOCAL_VAR, 0, 0, node_type_t.LIST, 0⟩]).Nodup ∧
    generate_variable_access ⟨"g", symtype_t.SYMBOL_FUNCTION, 0, 7, node_type_t.LIST, 0⟩
        (node_t.identifier ⟨"a", symtype_t.SYMBOL_PARAMETER, 0, 0, node_type_t.LIST, 0⟩) =
      generate_variable_access ⟨"g", symtype_t.SYMBOL_FUNCTION, 0, 7, node_type_t.LIST, 0⟩
        (node_t.identifier ⟨"y", symtype_t.SYMBOL_LOCAL_VAR, 1, 0, node_type_t.LIST, 0⟩) ∧
    (7 + 536870904 = 536870910 + 1 ∧
      generate_variable_access ⟨"g", symtype_t.SYMBOL_FUNCTION, 0, 7, node_type_t.LIST, 0⟩
          (node_t.identifier ⟨"a6", symtype_t.SYMBOL_PARAMETER, 6, 0, node_type_t.LIST, 0⟩) =
        Except.ok (frame 16) ∧
      generate_variable_access ⟨"g", symtype_t.SYMBOL_FUNCTION, 0, 7, node_type_t.LIST, 0⟩
          (node_t.identifier
            ⟨"z", symtype_t.SYMBOL_LOCAL_VAR, 7 + 536870904 - 1, 0, node_type_t.LIST, 0⟩) =
        Except.ok (frame 16)) := by
  decide

/-- C5, amended, at the seven parameters and two locals of `sample_frame_function`. -/
theorem variable_accesses_nodup_witness :
    (variable_accesses sample_frame_function.symbol
      (sample_frame_function.function_symtable.take 7 ++
        sample_frame_function.function_symtable.drop 7)).Nodup ∧
      ∀ a ∈ variable_accesses sample_frame_function.symbol
        (sample_frame_function.function_symtable.take 7 ++
          sample_frame_function.function_symtable.drop 7),
        ∃ offset : Int, a = Except.ok (frame offset) :=
  variable_accesses_nodup sample_frame_function.symbol
    (sample_frame_function.function_symtable.take 7)
    (sample_frame_function.function_symtable.drop 7) 7 2 (by decide) rfl
    (by decide) (by decide) (by decide) (by decide)

/-! ## C6, C7, C8: calls -/

theorem node_induction {P : node_t → Prop}
    (h : ∀ ty ch n op i sym, (∀ c ∈ ch, P c) → P (node_t.mk ty ch n op i sym)) :
    ∀ e, P e := by
  intro e
  refine node_t.rec (motive_1 := P) (motive_2 := fun l => ∀ c ∈ l, P c) ?_ ?_ ?_ e
  · intro ty ch n op i sym ih
    exact h ty ch n op i sym ih
  · intro c hc
    cases hc
  · intro head tail hh ht c hc
    rcases List.mem_cons.1 hc with rfl | hc
    · exact hh
    · exact ht c hc

theorem seq_res_ok_cons (x : emitted Unit) (rest : List (emitted Unit)) :
    (seq (x :: rest)).res = Except.ok () ↔ x.res = Except.ok () ∧ (seq rest).res = Except.ok () := by
  rcases x with ⟨o, r⟩
  cases r with
  | ok u => simp [seq]
  | error e => simp [seq]

theorem seq_out_cons (x : emitted Unit) (rest : List (emitted Unit))
    (h : x.res = Except.ok ()) : (seq (x :: rest)).out = x.out ++ (seq rest).out := by
  simp [seq, h]

theorem generate_arguments_cons (cf : symbol_t) (a : node_t) (rest : List node_t) :
    generate_arguments cf (a :: rest) =
      seq [generate_arguments cf rest, generate_expression cf a, emit [pushq (reg RAX)]] := by
  rw [generate_arguments]

theorem generate_function_call_children_not_function (cf : symbol_t) (c0 : node_t)
    (rest : List node_t) (symbol : symbol_t)
    (hs : c0.symbol = some symbol) (hf : symbol.type ≠ symtype_t.SYMBOL_FUNCTION) :
    generate_function_call_children cf (c0 :: rest) =
      ⟨[], Except.error (gen_error.not_a_function symbol.name)⟩ := by
  rw [generate_function_call_children]
  simp [hs, hf, fail]

theorem generate_function_call_children_wrong_count (cf : symbol_t) (c0 : node_t)
    (lty : node_type_t) (args : List node_t) (ln : Int) (lop : String) (li : Nat)
    (lsym : Option symbol_t) (rest : List node_t) (symbol : symbol_t)
    (hs : c0.symbol = some symbol) (hf : symbol.type = symtype_t.SYMBOL_FUNCTION)
    (hn : FUNC_PARAM_COUNT symbol ≠ args.length) :
    generate_function_call_children cf (c0 :: node_t.mk lty args ln lop li lsym :: rest) =
      ⟨[], Except.error (gen_error.wrong_argument_count symbol.name (FUNC_PARAM_COUNT symbol)
        args.length)⟩ := by
  rw [generate_function_call_children]
  simp [hs, hf, hn, fail]

theorem generate_function_call_children_eq (cf : symbol_t) (c0 : node_t) (lty : node_type_t)
    (args : List node_t) (ln : Int) (lop : String) (li : Nat) (lsym : Option symbol_t)
    (rest : List node_t) (symbol : symbol_t) (hs : c0.symbol = some symbol)
    (hf : symbol.type = symtype_t.SYMBOL_FUNCTION)
    (hn : FUNC_PARAM_COUNT symbol = args.length) :
    generate_function_call_children cf (c0 :: node_t.mk lty args ln lop li lsym :: rest) =
      seq [generate_arguments cf args, emit (call_tail symbol.name args.length)] := by
  rw [generate_function_call_children]
  simp only [hs, hf, hn, ne_eq, not_true_eq_false, if_false, call_tail]
  cases hr : (generate_arguments cf args).res with
  | error e => simp [seq, hr]
  | ok u => simp [seq, hr, emit]

theorem generate_function_call_children_cases (cf : symbol_t) (ch : List node_t) :
    (∃ e, generate_function_call_children cf ch = ⟨[], Except.error e⟩) ∨
    ∃ c0 lty args ln lop li lsym rest symbol,
      ch = c0 :: node_t.mk lty args ln lop li lsym :: rest ∧ c0.symbol = some symbol ∧
      symbol.type = symtype_t.SYMBOL_FUNCTION ∧ FUNC_PARAM_COUNT symbol = args.length ∧
      generate_function_call_children cf ch =
        seq [generate_arguments cf args, emit (call_tail symbol.name args.length)] := by
  cases ch with
  | nil => exact Or.inl ⟨_, by rw [generate_function_call_children]; rfl⟩
  | cons c0 rest =>
    cases hs : c0.symbol with
    | none =>
      refine Or.inl ⟨gen_error.invalid_access, ?_⟩
      rw [generate_function_call_children]
      simp [hs, fail]
    | some symbol =>
      by_cases hf : symbol.type = symtype_t.SYMBOL_FUNCTION
      · cases rest with
        | nil =>
          refine Or.inl ⟨gen_error.invalid_access, ?_⟩
          rw [generate_function_call_children]
          simp [hs, hf, fail]
        | cons c1 rest1 =>
          cases c1 with
          | mk lty args ln lop li lsym =>
            by_cases hn : FUNC_PARAM_COUNT symbol = args.length
            · exact Or.inr ⟨c0, lty, args, ln, lop, li, lsym, rest1, symbol, rfl, hs, hf, hn,
                generate_function_call_children_eq cf c0 lty args ln lop li lsym rest1 symbol
                  hs hf hn⟩
            · exact Or.inl ⟨_, generate_function_call_children_wrong_count cf c0 lty args ln
                lop li lsym rest1 symbol hs hf hn⟩
      · exact Or.inl ⟨_, generate_function_call_children_not_function cf c0 rest symbol hs hf⟩

theorem generate_array_access_children_cases (cf : symbol_t) (ch : List node_t) :
    (∃ e, generate_array_access_children cf ch = ⟨[], Except.error e⟩) ∨
    ∃ c0 rest symbol,
      ch = c0 :: rest ∧ c0.symbol = some symbol ∧
      symbol.type = symtype_t.SYMBOL_GLOBAL_ARRAY ∧
      generate_array_access_children cf ch =
        (seq [generate_child cf rest 0,
          emit [leaq (global symbol.name) (reg RCX),
            leaq (indexed RCX RAX 8) (reg RCX)]]).bind fun _ => emitted.pure (mem RCX) := by
  cases ch with
  | nil => exact Or.inl ⟨_, by rw [generate_array_access_children]; rfl⟩
  | cons c0 rest =>
    cases hs : c0.symbol with
    | none =>
      refine Or.inl ⟨gen_error.invalid_access, ?_⟩
      rw [generate_array_access_children]
      simp [hs, fail]
    | some symbol =>
      by_cases ha : symbol.type = symtype_t.SYMBOL_GLOBAL_ARRAY
      · refine Or.inr ⟨c0, rest, symbol, rfl, hs, ha, ?_⟩
        rw [generate_array_access_children]
        simp [hs, ha]
      · refine Or.inl ⟨gen_error.not_an_array symbol.name, ?_⟩
        rw [generate_array_access_children]
        simp [hs, ha, fail]

theorem emits_only_fail {α : Type} (p : Instr → Prop) (e : gen_error) :
    emits_only p (fail e : emitted α) := by
  intro i hi
  simp [fail] at hi

theorem emits_only_emit (p : Instr → Prop) (l : List Instr) (h : ∀ i ∈ l, p i) :
    emits_only p (emit l) := h

theorem emits_only_bind {α β : Type} (p : Instr → Prop) (x : emitted α) (f : α → emitted β)
    (hx : emits_only p x) (hf : ∀ a, emits_only p (f a)) : emits_only p (x.bind f) := by
  intro i hi
  unfold emitted.bind at hi
  split at hi
  · rcases List.mem_append.1 hi with h | h
    · exact hx i h
    · exact hf _ i h
  · exact hx i hi

theorem emits_only_seq (p : Instr → Prop) (xs : List (emitted Unit))
    (h : ∀ x ∈ xs, emits_only p x) : emits_only p (seq xs) := by
  induction xs with
  | nil =>
    intro i hi
    simp [seq] at hi
  | cons x rest ih =>
    intro i hi
    unfold seq at hi
    split at hi
    · rcases List.mem_append.1 hi with h1 | h1
      · exact h x (List.mem_cons_self _ _) i h1
      · exact ih (fun y hy => h y (List.mem_cons_of_mem _ hy)) i h1
    · exact h x (List.mem_cons_self _ _) i hi

theorem emits_only_ite {α : Type} (p : Instr → Prop) (c : Prop) [Decidable c]
    (x y : emitted α) (hx : emits_only p x) (hy : emits_only p y) :
    emits_only p (if c then x else y) := by
  split <;> assumption

theorem emits_only_generate_operator (p : Instr → Prop)
    (hp : ∀ i, is_expression_instr i = true → p i) (op : String) (n : Nat)
    (child : Nat → emitted Unit) (h0 : emits_only p (child 0)) (h1 : emits_only p (child 1)) :
    emits_only p (generate_operator op n child) := by
  unfold generate_operator
  repeat' apply emits_only_ite
  all_goals
    first
    | exact emits_only_fail _ _
    | (apply emits_only_seq
       intro x hx
       simp only [List.mem_cons, List.mem_singleton, List.not_mem_nil, or_false] at hx
       rcases hx with rfl | rfl | rfl | rfl
       · assumption
       · exact emits_only_emit _ _ (fun i hi => hp i (by
          simp only [List.mem_cons, List.mem_singleton, List.not_mem_nil, or_false] at hi
          rcases hi with rfl <;> rfl))
       · assumption
       · exact emits_only_emit _ _ (fun i hi => hp i (by
          simp only [List.mem_cons, List.mem_singleton, List.not_mem_nil, or_false] at hi
          rcases hi with rfl | rfl | rfl | rfl <;> rfl)))
    | (apply emits_only_seq
       intro x hx
       simp only [List.mem_cons, List.mem_singleton, List.not_mem_nil, or_false] at hx
       rcases hx with rfl | rfl
       · assumption
       · exact emits_only_emit _ _ (fun i hi => hp i (by
          simp only [List.mem_cons, List.mem_singleton, List.not_mem_nil, or_false] at hi
          rcases hi with rfl | rfl | rfl <;> rfl)))

theorem emits_only_generate_child (p : Instr → Prop) (cf : symbol_t) (ch : List node_t)
    (h : ∀ c ∈ ch, emits_only p (generate_expression cf c)) (k : Nat) :
    emits_only p (generate_child cf ch k) := by
  induction ch generalizing k with
  | nil => simpa [generate_child] using emits_only_fail p _
  | cons c rest ih =>
    cases k with
    | zero => simpa [generate_child] using h c (List.mem_cons_self _ _)
    | succ k =>
      simpa [generate_child] using ih (fun c hc => h c (List.mem_cons_of_mem _ hc)) k

theorem emits_only_generate_arguments (p : Instr → Prop)
    (hp : ∀ i, is_expression_instr i = true → p i) (cf : symbol_t) (args : List node_t)
    (h : ∀ a ∈ args, emits_only p (generate_expression cf a)) :
    emits_only p (generate_arguments cf args) := by
  induction args with
  | nil =>
    intro i hi
    simp [generate_arguments, emit] at hi
  | cons a rest ih =>
    rw [generate_arguments_cons]
    apply emits_only_seq
    intro x hx
    simp only [List.mem_cons, List.mem_singleton, List.not_mem_nil, or_false] at hx
    rcases hx with rfl | rfl | rfl
    · exact ih fun b hb => h b (List.mem_cons_of_mem _ hb)
    · exact h a (List.mem_cons_self _ _)
    · exact emits_only_emit _ _ fun i hi => hp i (by
        simp only [List.mem_singleton] at hi
        subst hi
        rfl)

theorem call_tail_expression_instr (name : String) (N : Nat) :
    ∀ i ∈ call_tail name N, is_expression_instr i = true := by
  intro i hi
  unfold call_tail at hi
  simp only [List.mem_append, List.mem_map, List.mem_singleton] at hi
  rcases hi with (⟨r, -, rfl⟩ | rfl) | hi
  · rfl
  · rfl
  · split at hi
    · simp only [List.mem_singleton] at hi
      subst hi
      rfl
    · simp at hi

theorem emits_only_function_call_children (p : Instr → Prop)
    (hp : ∀ i, is_expression_instr i = true → p i) (cf : symbol_t) (ch : List node_t)
    (h : ∀ c ∈ ch, ∀ a ∈ c.children, emits_only p (generate_expression cf a)) :
    emits_only p (generate_function_call_children cf ch) := by
  rcases generate_function_call_children_cases cf ch with
    ⟨e, he⟩ | ⟨c0, lty, args, ln, lop, li, lsym, rest, symbol, rfl, -, -, -, he⟩
  · rw [he]
    exact emits_only_fail p e
  · have hargs : ∀ a ∈ args, emits_only p (generate_expression cf a) :=
      h (node_t.mk lty args ln lop li lsym) (by simp)
    rw [he]
    apply emits_only_seq
    intro x hx
    simp only [List.mem_cons, List.mem_singleton, List.not_mem_nil, or_false] at hx
    rcases hx with rfl | rfl
    · exact emits_only_generate_arguments p hp cf args hargs
    · exact emits_only_emit _ _ fun i hi => hp i (call_tail_expression_instr _ _ i hi)

theorem emits_only_array_access_children (p : Instr → Prop)
    (hp : ∀ i, is_expression_instr i = true → p i) (cf : symbol_t) (ch : List node_t)
    (h : ∀ c ∈ ch, emits_only p (generate_expression cf c)) :
    emits_only p (generate_array_access_children cf ch) := by
  rcases generate_array_access_children_cases cf ch with
    ⟨e, he⟩ | ⟨c0, rest, symbol, rfl, -, -, he⟩
  · rw [he]
    exact emits_only_fail p e
  · rw [he]
    apply emits_only_bind
    · apply emits_only_seq
      intro x hx
      simp only [List.mem_cons, List.mem_singleton, List.not_mem_nil, or_false] at hx
      rcases hx with rfl | rfl
      · exact emits_only_generate_child p cf rest
          (fun c hc => h c (List.mem_cons_of_mem _ hc)) 0
      · exact emits_only_emit _ _ fun i hi => hp i (by
          simp only [List.mem_cons, List.mem_singleton, List.not_mem_nil, or_false] at hi
          rcases hi with rfl | rfl <;> rfl)
    · intro _ i hi
      simp [emitted.pure] at hi

theorem emits_only_generate_expression_aux (p : Instr → Prop)
    (hp : ∀ i, is_expression_instr i = true → p i) (cf : symbol_t) :
    ∀ e : node_t, emits_only p (generate_expression cf e) ∧
      ∀ a ∈ e.children, emits_only p (generate_expression cf a) := by
  refine node_induction fun ty ch n op i sym ih => ?_
  have hch : ∀ a ∈ ch, emits_only p (generate_expression cf a) := fun a ha => (ih a ha).1
  refine ⟨?_, hch⟩
  cases ty
  case NUMBER_LITERAL =>
    rw [generate_expression]
    exact emits_only_emit _ _ fun i hi => hp i (by
      simp only [List.mem_singleton] at hi
      subst hi
      rfl)
  case IDENTIFIER =>
    rw [generate_expression]
    apply emits_only_bind
    · intro i hi
      simp [lift] at hi
    · intro a
      exact emits_only_emit _ _ fun i hi => hp i (by
        simp only [List.mem_singleton] at hi
        subst hi
        rfl)
  case ARRAY_INDEXING =>
    rw [generate_expression]
    apply emits_only_bind
    · exact emits_only_array_access_children p hp cf ch hch
    · intro a
      exact emits_only_emit _ _ fun i hi => hp i (by
        simp only [List.mem_singleton] at hi
        subst hi
        rfl)
  case OPERATOR =>
    rw [generate_expression]
    exact emits_only_generate_operator p hp _ _ _ (emits_only_generate_child p cf ch hch 0)
      (emits_only_generate_child p cf ch hch 1)
  case FUNCTION_CALL =>
    rw [generate_expression]
    exact emits_only_function_call_children p hp cf ch fun c hc => (ih c hc).2
  all_goals
    rw [generate_expression]
    · exact emits_only_fail _ _
    all_goals simp

theorem emits_only_generate_expression (p : Instr → Prop)
    (hp : ∀ i, is_expression_instr i = true → p i) (cf : symbol_t) (e : node_t) :
    emits_only p (generate_expression cf e) :=
  (emits_only_generate_expression_aux p hp cf e).1

theorem loop_exits_eq_nil (code : List Instr) (h : ∀ i ∈ code, loop_exit_target i = none) :
    loop_exits code = [] := by
  induction code with
  | nil => rfl
  | cons i rest ih =>
    simp only [loop_exits, List.filterMap_cons, h i (List.mem_cons_self _ _)]
    exact ih fun j hj => h j (List.mem_cons_of_mem _ hj)

theorem loop_exits_append (a b : List Instr) :
    loop_exits (a ++ b) = loop_exits a ++ loop_exits b := by
  simp [loop_exits]

theorem loop_exit_target_expression_instr (i : Instr) (h : is_expression_instr i = true) :
    loop_exit_target i = none := by
  cases i <;> first | rfl | simp [is_expression_instr] at h

theorem loop_exits_generate_expression (cf : symbol_t) (e : node_t) :
    loop_exits (generate_expression cf e).out = [] :=
  loop_exits_eq_nil _
    (emits_only_generate_expression _ loop_exit_target_expression_instr cf e)

theorem emits_only_emit_expression_instrs (p : Instr → Prop)
    (hp : ∀ i, is_expression_instr i = true → p i) (l : List Instr)
    (h : l.all is_expression_instr = true) : emits_only p (emit l) := by
  intro i hi
  exact hp i (List.all_eq_true.1 h i hi)

theorem emits_only_assignment_children (p : Instr → Prop)
    (hp : ∀ i, is_expression_instr i = true → p i) (cf : symbol_t) (ch : List node_t) :
    emits_only p (generate_assignment_statement_children cf ch) := by
  match ch with
  | [] => exact emits_only_fail p _
  | [_] => exact emits_only_fail p _
  | dest :: expression :: rest =>
    rw [generate_assignment_statement_children]
    apply emits_only_bind
    · exact emits_only_generate_expression p hp cf expression
    · intro _
      apply emits_only_ite
      · apply emits_only_bind
        · intro i hi
          simp [lift] at hi
        · intro a
          exact emits_only_emit_expression_instrs p hp _ rfl
      · apply emits_only_ite
        · exact emits_only_fail p _
        · apply emits_only_bind
          · exact emits_only_emit_expression_instrs p hp _ rfl
          · intro _
            apply emits_only_bind
            · unfold generate_array_access
              apply emits_only_ite
              · exact emits_only_fail p _
              · exact emits_only_array_access_children p hp cf _
                  fun c _ => emits_only_generate_expression p hp cf c
            · intro a
              exact emits_only_emit_expression_instrs p hp _ rfl

theorem emits_only_print_items (p : Instr → Prop)
    (hp : ∀ i, is_expression_instr i = true → p i)
    (hprintf : p (call (Label.named "safe_printf"))) (cf : symbol_t) (items : List node_t) :
    emits_only p (generate_print_items cf items) := by
  induction items with
  | nil =>
    intro i hi
    simp [generate_print_items, emit] at hi
  | cons item rest ih =>
    rw [generate_print_items]
    apply emits_only_seq
    intro x hx
    simp only [List.mem_cons, List.mem_singleton, List.not_mem_nil, or_false] at hx
    rcases hx with rfl | rfl | rfl
    · apply emits_only_ite
      · exact emits_only_emit_expression_instrs p hp _ rfl
      · apply emits_only_seq
        intro y hy
        simp only [List.mem_cons, List.mem_singleton, List.not_mem_nil, or_false] at hy
        rcases hy with rfl | rfl
        · exact emits_only_generate_expression p hp cf item
        · exact emits_only_emit_expression_instrs p hp _ rfl
    · intro i hi
      simp only [emit, List.mem_singleton] at hi
      subst hi
      exact hprintf
    · exact ih

theorem emits_only_print_statement (p : Instr → Prop)
    (hp : ∀ i, is_expression_instr i = true → p i)
    (hprintf : p (call (Label.named "safe_printf")))
    (hputchar : p (call (Label.named "safe_putchar"))) (cf : symbol_t) (statement : node_t) :
    emits_only p (generate_print_statement cf statement) := by
  unfold generate_print_statement
  split
  · apply emits_only_seq
    intro x hx
    simp only [List.mem_cons, List.mem_singleton, List.not_mem_nil, or_false] at hx
    rcases hx with rfl | rfl
    · exact emits_only_print_items p hp hprintf cf _
    · intro i hi
      simp only [emit, List.mem_cons, List.mem_singleton, List.not_mem_nil, or_false] at hi
      rcases hi with rfl | rfl
      · exact hp _ rfl
      · exact hputchar
  · exact emits_only_fail p _

theorem emits_only_return_statement (p : Instr → Prop)
    (hp : ∀ i, is_expression_instr i = true → p i) (cf : symbol_t)
    (hj : p (jmp (Label.epilogue cf.name))) (statement : node_t) :
    emits_only p (generate_return_statement cf statement) := by
  unfold generate_return_statement
  split
  · apply emits_only_seq
    intro x hx
    simp only [List.mem_cons, List.mem_singleton, List.not_mem_nil, or_false] at hx
    rcases hx with rfl | rfl
    · exact emits_only_generate_expression p hp cf _
    · intro i hi
      simp only [emit, List.mem_singleton] at hi
      subst hi
      exact hj
  · exact emits_only_fail p _

theorem same_loops_refl (s : gen_state) : same_loops s s := ⟨rfl, fun _ _ => rfl⟩

theorem same_loops_trans (s s1 s2 : gen_state) (h1 : same_loops s s1) (h2 : same_loops s1 s2) :
    same_loops s s2 :=
  ⟨h2.1.trans h1.1, fun j hj => (h2.2 j (by rw [h1.1]; exact hj)).trans (h1.2 j hj)⟩

theorem same_loops_innermost (s s1 : gen_state) (h : same_loops s s1) :
    s1.innermost_loop = s.innermost_loop := by
  unfold gen_state.innermost_loop
  rw [h.1]
  split
  · rfl
  · rw [h.2 _ (by omega)]

theorem bind_res_ok {α β : Type} (x : emitted α) (f : α → emitted β) (b : β)
    (h : (x.bind f).res = Except.ok b) :
    ∃ a, x.res = Except.ok a ∧ (f a).res = Except.ok b ∧
      (x.bind f).out = x.out ++ (f a).out := by
  cases hx : x.res with
  | error e => simp [emitted.bind, hx] at h
  | ok a =>
    refine ⟨a, rfl, ?_, ?_⟩
    · simpa [emitted.bind, hx] using h
    · simp [emitted.bind, hx]

theorem refines_simple_statement (cf : symbol_t) (st : node_t) (x : emitted Unit)
    (hx : emits_only (fun i => loop_exit_target i = none) x)
    (hg : ∀ s, generate_statement cf st s = x.bind fun _ => emitted.pure s)
    (hb : ∀ enclosing next, break_targets st enclosing next = ([], next)) :
    refines_break_targets cf st := by
  intro s s1 h
  rw [hg] at h ⊢
  obtain ⟨u, -, h2, ho⟩ := bind_res_ok _ _ _ h
  simp only [emitted.pure, Except.ok.injEq] at h2
  subst h2
  rw [ho, hb]
  refine ⟨same_loops_refl _, ?_, rfl⟩
  simp only [emitted.pure, List.append_nil]
  exact loop_exits_eq_nil _ hx

theorem refines_statement_list (cf : symbol_t) (l : List node_t)
    (h : ∀ st ∈ l, refines_break_targets cf st) (s s1 : gen_state)
    (hok : (generate_statement_list cf l s).res = Except.ok s1) :
    same_loops s s1 ∧
    loop_exits (generate_statement_list cf l s).out =
      (break_targets_list l s.innermost_loop s.while_counter).1 ∧
    s1.while_counter = (break_targets_list l s.innermost_loop s.while_counter).2 := by
  induction l generalizing s with
  | nil =>
    rw [generate_statement_list] at hok ⊢
    simp only [emitted.pure, Except.ok.injEq] at hok
    subst hok
    exact ⟨same_loops_refl _, rfl, rfl⟩
  | cons st rest ih =>
    rw [generate_statement_list] at hok ⊢
    obtain ⟨s2, h1, h2, ho⟩ := bind_res_ok _ _ _ hok
    obtain ⟨a1, a2, a3⟩ := h st (List.mem_cons_self _ _) s s2 h1
    obtain ⟨b1, b2, b3⟩ := ih (fun x hx => h x (List.mem_cons_of_mem _ hx)) s2 h2
    rw [same_loops_innermost s s2 a1, a3] at b2 b3
    rw [ho, loop_exits_append, a2, b2, break_targets_list]
    exact ⟨same_loops_trans s s2 s1 a1 b1, rfl, b3⟩

theorem refines_block_children (cf : symbol_t) (ch : List node_t)
    (h : ∀ c ∈ ch, ∀ st ∈ c.children, refines_break_targets cf st) (s s1 : gen_state)
    (hok : (generate_block_children cf ch s).res = Except.ok s1) :
    same_loops s s1 ∧
    loop_exits (generate_block_children cf ch s).out =
      (break_targets_block ch s.innermost_loop s.while_counter).1 ∧
    s1.while_counter = (break_targets_block ch s.innermost_loop s.while_counter).2 := by
  induction ch with
  | nil =>
    rw [generate_block_children] at hok
    simp [fail] at hok
  | cons c rest ih =>
    cases rest with
    | nil =>
      cases c with
      | mk ty statements n op i sym =>
        rw [generate_block_children] at hok ⊢
        rw [break_targets_block]
        exact refines_statement_list cf statements (h _ (List.mem_cons_self _ _)) s s1 hok
    | cons d rest1 =>
      rw [generate_block_children] at hok ⊢
      rw [break_targets_block]
      exact ih (fun x hx => h x (List.mem_cons_of_mem _ hx)) hok

theorem refines_if_children (cf : symbol_t) (ch : List node_t)
    (h : ∀ c ∈ ch, refines_break_targets cf c) (s s1 : gen_state)
    (hok : (generate_if_statement_children cf ch s).res = Except.ok s1) :
    same_loops s s1 ∧
    loop_exits (generate_if_statement_children cf ch s).out =
      (break_targets_if ch s.innermost_loop s.while_counter).1 ∧
    s1.while_counter = (break_targets_if ch s.innermost_loop s.while_counter).2 := by
  have hcond : ∀ (c0 : node_t) (l : Label),
      loop_exits (seq [generate_expression cf c0, emit [cmpq (imm 0) (reg RAX)],
        emit [je l]]).out = [] := by
    intro c0 l
    refine loop_exits_eq_nil _ (emits_only_seq _ _ fun x hx => ?_)
    simp only [List.mem_cons, List.mem_singleton, List.not_mem_nil, or_false] at hx
    rcases hx with rfl | rfl | rfl
    · exact emits_only_generate_expression _ loop_exit_target_expression_instr cf c0
    · intro i hi
      simp only [emit, List.mem_singleton] at hi
      subst hi
      rfl
    · intro i hi
      simp only [emit, List.mem_singleton] at hi
      subst hi
      rfl
  have two : ∀ (c0 c1 : node_t) (rest : List node_t), refines_break_targets cf c1 →
      (generate_if_statement_children cf (c0 :: c1 :: rest) s =
        (seq [generate_expression cf c0, emit [cmpq (imm 0) (reg RAX)],
          emit [je (Label.ENDIF s.if_counter)]]).bind fun _ =>
        (generate_statement cf c1 { s with if_counter := s.if_counter + 1 }).bind fun s1 =>
          (emit [label (Label.ENDIF s.if_counter)]).bind fun _ => emitted.pure s1) →
      break_targets_if (c0 :: c1 :: rest) s.innermost_loop s.while_counter =
        break_targets c1 s.innermost_loop s.while_counter →
      (generate_if_statement_children cf (c0 :: c1 :: rest) s).res = Except.ok s1 →
      same_loops s s1 ∧
      loop_exits (generate_if_statement_children cf (c0 :: c1 :: rest) s).out =
        (break_targets_if (c0 :: c1 :: rest) s.innermost_loop s.while_counter).1 ∧
      s1.while_counter =
        (break_targets_if (c0 :: c1 :: rest) s.innermost_loop s.while_counter).2 := by
    intro c0 c1 rest hc1 e eb hok
    rw [e] at hok ⊢
    rw [eb]
    obtain ⟨_, -, h2, o1⟩ := bind_res_ok _ _ _ hok
    obtain ⟨s2, h3, h4, o2⟩ := bind_res_ok _ _ _ h2
    obtain ⟨_, -, h5, o3⟩ := bind_res_ok _ _ _ h4
    simp only [emitted.pure, Except.ok.injEq] at h5
    subst h5
    obtain ⟨a1, a2, a3⟩ := hc1 _ _ h3
    rw [o1, o2, o3, loop_exits_append, loop_exits_append, loop_exits_append, hcond, a2]
    exact ⟨a1, by simp [emit, emitted.pure, loop_exits, loop_exit_target]; rfl, a3⟩
  match ch with
  | [] =>
    rw [generate_if_statement_children] at hok
    · simp [fail] at hok
    · simp
    · simp
  | [_] =>
    rw [generate_if_statement_children] at hok
    · simp [fail] at hok
    · simp
    · simp
  | [c0, c1] =>
    refine two c0 c1 [] (h c1 (by simp)) ?_ ?_ hok
    · rw [generate_if_statement_children]
      simp
    · rw [break_targets_if]
      simp
  | c0 :: c1 :: c2 :: c3 :: rest =>
    refine two c0 c1 (c2 :: c3 :: rest) (h c1 (by simp)) ?_ ?_ hok
    · rw [generate_if_statement_children]
      simp
    · rw [break_targets_if]
      simp
  | [c0, c1, c2] =>
    rw [generate_if_statement_children] at hok ⊢
    rw [break_targets_if]
    obtain ⟨_, -, h2, o1⟩ := bind_res_ok _ _ _ hok
    obtain ⟨s2, h3, h4, o2⟩ := bind_res_ok _ _ _ h2
    obtain ⟨_, -, h5, o3⟩ := bind_res_ok _ _ _ h4
    obtain ⟨s3, h6, h7, o4⟩ := bind_res_ok _ _ _ h5
    obtain ⟨_, -, h8, o5⟩ := bind_res_ok _ _ _ h7
    simp only [emitted.pure, Except.ok.injEq] at h8
    subst h8
    obtain ⟨a1, a2, a3⟩ := h c1 (by simp) _ _ h3
    obtain ⟨b1, b2, b3⟩ := h c2 (by simp) _ _ h6
    have a1' : same_loops s s2 := a1
    rw [same_loops_innermost _ _ a1, a3] at b2 b3
    rw [o1, o2, o3, o4, o5]
    simp only [loop_exits_append, hcond, a2, b2]
    refine ⟨same_loops_trans s s2 s3 a1' b1, ?_, b3⟩
    simp [emit, emitted.pure, loop_exits, loop_exit_target]
    rfl

theorem generate_while_statement_children_eq (cf : symbol_t) (c0 c1 : node_t)
    (rest : List node_t) (s : gen_state) (h : ¬ s.loop_depth ≥ MAX_LOOP_NESTING) :
    generate_while_statement_children cf (c0 :: c1 :: rest) s =
      (seq [emit [label (Label.WHILE s.while_counter)], generate_expression cf c0,
        emit [cmpq (imm 0) (reg RAX), je (Label.ENDWHILE s.while_counter)]]).bind fun _ =>
      (generate_statement cf c1
        { s with
          while_counter := s.while_counter + 1
          loop_end_labels := Function.update s.loop_end_labels s.loop_depth s.while_counter
          loop_depth := s.loop_depth + 1 }).bind fun s1 =>
        (emit [jmp (Label.WHILE s.while_counter),
          label (Label.ENDWHILE s.while_counter)]).bind fun _ =>
          emitted.pure { s1 with loop_depth := s1.loop_depth - 1 } := by
  rw [generate_while_statement_children]
  simp [h]

theorem generate_while_statement_children_body (cf : symbol_t) (c0 c1 : node_t)
    (rest : List node_t) (s s1 : gen_state)
    (hok : (generate_while_statement_children cf (c0 :: c1 :: rest) s).res = Except.ok s1) :
    ¬ s.loop_depth ≥ MAX_LOOP_NESTING ∧
    ∃ s2 : gen_state,
      (generate_expression cf c0).res = Except.ok () ∧
      (generate_statement cf c1
        { s with
          while_counter := s.while_counter + 1
          loop_end_labels := Function.update s.loop_end_labels s.loop_depth s.while_counter
          loop_depth := s.loop_depth + 1 }).res = Except.ok s2 ∧
      s1 = { s2 with loop_depth := s2.loop_depth - 1 } ∧
      (generate_while_statement_children cf (c0 :: c1 :: rest) s).out =
        [label (Label.WHILE s.while_counter)] ++ (generate_expression cf c0).out ++
          [cmpq (imm 0) (reg RAX), je (Label.ENDWHILE s.while_counter)] ++
          (generate_statement cf c1
            { s with
              while_counter := s.while_counter + 1
              loop_end_labels :=
                Function.update s.loop_end_labels s.loop_depth s.while_counter
              loop_depth := s.loop_depth + 1 }).out ++
          [jmp (Label.WHILE s.while_counter), label (Label.ENDWHILE s.while_counter)] := by
  by_cases hd : s.loop_depth ≥ MAX_LOOP_NESTING
  · rw [generate_while_statement_children] at hok
    simp [hd, fail] at hok
  · refine ⟨hd, ?_⟩
    rw [generate_while_statement_children_eq cf c0 c1 rest s hd] at hok ⊢
    obtain ⟨_, h1, h2, o1⟩ := bind_res_ok _ _ _ hok
    obtain ⟨s2, h3, h4, o2⟩ := bind_res_ok _ _ _ h2
    obtain ⟨_, -, h5, o3⟩ := bind_res_ok _ _ _ h4
    simp only [emitted.pure, Except.ok.injEq] at h5
    have hc : (generate_expression cf c0).res = Except.ok () := by
      rw [seq_res_ok_cons, seq_res_ok_cons] at h1
      exact h1.2.1
    refine ⟨s2, hc, h3, h5.symm, ?_⟩
    rw [o1, o2, o3]
    simp [seq, emit, emitted.pure, hc]

theorem refines_while_children (cf : symbol_t) (ch : List node_t)
    (h : ∀ c ∈ ch, refines_break_targets cf c) (s s1 : gen_state)
    (hok : (generate_while_statement_children cf ch s).res = Except.ok s1) :
    same_loops s s1 ∧
    loop_exits (generate_while_statement_children cf ch s).out =
      (break_targets_while ch s.while_counter).1 ∧
    s1.while_counter = (break_targets_while ch s.while_counter).2 := by
  match ch with
  | [] =>
    rw [generate_while_statement_children] at hok
    · split at hok <;> simp [fail] at hok
    · simp
  | [_] =>
    rw [generate_while_statement_children] at hok
    · split at hok <;> simp [fail] at hok
    · simp
  | c0 :: c1 :: rest =>
    obtain ⟨hd, s2, -, hb, hs, ho⟩ := generate_while_statement_children_body cf c0 c1 rest s s1 hok
    obtain ⟨⟨a1, a1'⟩, a2, a3⟩ := h c1 (by simp) _ _ hb
    have hin : gen_state.innermost_loop
        { s with
          while_counter := s.while_counter + 1
          loop_end_labels := Function.update s.loop_end_labels s.loop_depth s.while_counter
          loop_depth := s.loop_depth + 1 } = some s.while_counter := by
      simp [gen_state.innermost_loop]
    rw [hin] at a2 a3
    simp only at a1 a1' a2 a3
    rw [ho, break_targets_while]
    refine ⟨⟨?_, fun j hj => ?_⟩, ?_, ?_⟩
    · rw [hs]
      simp only [a1]
      omega
    · rw [hs]
      simp only
      rw [a1' j (by omega), Function.update_noteq (by omega)]
    · simp only [loop_exits_append, a2]
      rw [loop_exits_eq_nil _ (emits_only_generate_expression _
        loop_exit_target_expression_instr cf c0)]
      simp [loop_exits, loop_exit_target]
    · rw [hs]
      exact a3

theorem generate_break_statement_eq (s : gen_state) (h : ¬ s.loop_depth ≤ 0) :
    generate_break_statement s =
      ⟨[jmp (Label.ENDWHILE (s.loop_end_labels (s.loop_depth - 1)))], Except.ok s⟩ := by
  simp [generate_break_statement, h, emitted.bind, emit, emitted.pure]

theorem generate_break_statement_fail (s : gen_state) (h : s.loop_depth ≤ 0) :
    generate_break_statement s = ⟨[], Except.error gen_error.break_outside_loop⟩ := by
  simp [generate_break_statement, h, fail]

theorem refines_break_targets_aux (cf : symbol_t) :
    ∀ st : node_t, refines_break_targets cf st ∧
      ∀ a ∈ st.children, refines_break_targets cf a := by
  refine node_induction fun ty ch n op i sym ih => ?_
  have hch : ∀ a ∈ ch, refines_break_targets cf a := fun a ha => (ih a ha).1
  refine ⟨?_, hch⟩
  cases ty
  case BLOCK =>
    intro s s1 hok
    rw [generate_statement] at hok ⊢
    rw [break_targets]
    exact refines_block_children cf ch (fun c hc => (ih c hc).2) s s1 hok
  case IF_STATEMENT =>
    intro s s1 hok
    rw [generate_statement] at hok ⊢
    rw [break_targets]
    exact refines_if_children cf ch hch s s1 hok
  case WHILE_STATEMENT =>
    intro s s1 hok
    rw [generate_statement] at hok ⊢
    rw [break_targets]
    exact refines_while_children cf ch hch s s1 hok
  case BREAK_STATEMENT =>
    intro s s1 hok
    rw [generate_statement] at hok ⊢
    rw [break_targets]
    by_cases hd : s.loop_depth ≤ 0
    · rw [generate_break_statement_fail s hd] at hok
      simp at hok
    · rw [generate_break_statement_eq s hd] at hok ⊢
      simp only [Except.ok.injEq] at hok
      subst hok
      have h0 : ¬ s.loop_depth = 0 := by omega
      exact ⟨same_loops_refl _, by simp [loop_exits, loop_exit_target,
        gen_state.innermost_loop, h0], rfl⟩
  case ASSIGNMENT_STATEMENT =>
    exact refines_simple_statement cf _ (generate_assignment_statement_children cf ch)
      (emits_only_assignment_children _ loop_exit_target_expression_instr cf ch)
      (fun s => by rw [generate_statement]) (fun _ _ => by rw [break_targets]; all_goals simp)
  case PRINT_STATEMENT =>
    exact refines_simple_statement cf _ _
      (emits_only_print_statement _ loop_exit_target_expression_instr rfl rfl cf _)
      (fun s => by rw [generate_statement]) (fun _ _ => by rw [break_targets]; all_goals simp)
  case RETURN_STATEMENT =>
    exact refines_simple_statement cf _ _
      (emits_only_return_statement _ loop_exit_target_expression_instr cf rfl _)
      (fun s => by rw [generate_statement]) (fun _ _ => by rw [break_targets]; all_goals simp)
  case FUNCTION_CALL =>
    exact refines_simple_statement cf _ (generate_function_call_children cf ch)
      (emits_only_function_call_children _ loop_exit_target_expression_instr cf ch
        fun c _ a _ => emits_only_generate_expression _ loop_exit_target_expression_instr cf a)
      (fun s => by rw [generate_statement]) (fun _ _ => by rw [break_targets]; all_goals simp)
  all_goals
    intro s s1 hok
    rw [generate_statement] at hok
    · simp [fail] at hok
    all_goals simp

theorem refines_break_targets_all (cf : symbol_t) (st : node_t) :
    refines_break_targets cf st :=
  (refines_break_targets_aux cf st).1

/-- C10: `generate_break_statement` stops with an error exactly when `loop_depth <= 0`, and
then writes nothing; otherwise it writes the single line `jmp ENDWHILEk` for the id `k` on
top of the loop-nesting stack and returns with the state, hence the depth and the contents
of the stack, unchanged. -/
theorem generate_break_statement_spec (s : gen_state) :
    ((∃ e, (generate_break_statement s).res = Except.error e) ↔ s.loop_depth ≤ 0) ∧
    (s.loop_depth ≤ 0 →
      generate_break_statement s = ⟨[], Except.error gen_error.break_outside_loop⟩) ∧
    (¬ s.loop_depth ≤ 0 →
      generate_break_statement s =
        ⟨[jmp (Label.ENDWHILE (s.loop_end_labels (s.loop_depth - 1)))], Except.ok s⟩) := by
  refine ⟨⟨fun ⟨e, he⟩ => ?_, fun h => ⟨_, by rw [generate_break_statement_fail s h]⟩⟩,
    generate_break_statement_fail s, generate_break_statement_eq s⟩
  by_contra hd
  rw [generate_break_statement_eq s hd] at he
  simp at he

/-! ## Runs of the statement generators that return are derivations -/

theorem generate_block_children_eq (cf : symbol_t) (ch : List node_t) (s : gen_state) :
    generate_block_children cf ch s =
      match block_statements ch with
      | none => fail gen_error.invalid_access
      | some statements => generate_statement_list cf statements s := by
  induction ch with
  | nil => rw [generate_block_children, block_statements]
  | cons c rest ih =>
    cases rest with
    | nil =>
      cases c
      rw [generate_block_children, block_statements]
      rfl
    | cons d rest1 =>
      rw [generate_block_children, block_statements]
      exact ih

theorem block_statements_mem (ch statements : List node_t)
    (h : block_statements ch = some statements) : ∃ c ∈ ch, c.children = statements := by
  induction ch with
  | nil => simp [block_statements] at h
  | cons c rest ih =>
    cases rest with
    | nil =>
      simp only [block_statements, Option.some.injEq] at h
      exact ⟨c, by simp, h⟩
    | cons d rest1 =>
      rw [block_statements] at h
      obtain ⟨x, hx, hc⟩ := ih h
      exact ⟨x, List.mem_cons_of_mem _ hx, hc⟩

theorem condition_res_ok (x : emitted Unit) (tail : List (emitted Unit)) (u : Unit)
    (h : (seq (x :: tail)).res = Except.ok u) : x.res = Except.ok () :=
  ((seq_res_ok_cons x tail).1 h).1

theorem generate_if_then_body (cf : symbol_t) (c0 c1 : node_t) (rest : List node_t)
    (hn : rest.length ≠ 1) (s s1 : gen_state)
    (hok : (generate_if_statement_children cf (c0 :: c1 :: rest) s).res = Except.ok s1) :
    (generate_expression cf c0).res = Except.ok () ∧
    (generate_statement cf c1 { s with if_counter := s.if_counter + 1 }).res = Except.ok s1 ∧
    (generate_if_statement_children cf (c0 :: c1 :: rest) s).out =
      (generate_expression cf c0).out ++
        [cmpq (imm 0) (reg RAX), je (Label.ENDIF s.if_counter)] ++
        (generate_statement cf c1 { s with if_counter := s.if_counter + 1 }).out ++
        [label (Label.ENDIF s.if_counter)] := by
  have e : generate_if_statement_children cf (c0 :: c1 :: rest) s =
      (seq [generate_expression cf c0, emit [cmpq (imm 0) (reg RAX)],
        emit [je (Label.ENDIF s.if_counter)]]).bind fun _ =>
      (generate_statement cf c1 { s with if_counter := s.if_counter + 1 }).bind fun s1 =>
        (emit [label (Label.ENDIF s.if_counter)]).bind fun _ => emitted.pure s1 := by
    rw [generate_if_statement_children]
    intro c2 hc
    simp only [List.cons.injEq, true_and] at hc
    rw [hc] at hn
    simp at hn
  rw [e] at hok ⊢
  obtain ⟨_, h1, h2, o1⟩ := bind_res_ok _ _ _ hok
  obtain ⟨s2, h3, h4, o2⟩ := bind_res_ok _ _ _ h2
  obtain ⟨_, -, h5, o3⟩ := bind_res_ok _ _ _ h4
  simp only [emitted.pure, Except.ok.injEq] at h5
  subst h5
  have hc := condition_res_ok _ _ _ h1
  refine ⟨hc, h3, ?_⟩
  rw [o1, o2, o3]
  simp [seq, emit, emitted.pure, hc]

theorem generate_if_then_else_body (cf : symbol_t) (c0 c1 c2 : node_t) (s s2 : gen_state)
    (hok : (generate_if_statement_children cf [c0, c1, c2] s).res = Except.ok s2) :
    ∃ s1 : gen_state,
      (generate_expression cf c0).res = Except.ok () ∧
      (generate_statement cf c1 { s with if_counter := s.if_counter + 1 }).res =
        Except.ok s1 ∧
      (generate_statement cf c2 s1).res = Except.ok s2 ∧
      (generate_if_statement_children cf [c0, c1, c2] s).out =
        (generate_expression cf c0).out ++
          [cmpq (imm 0) (reg RAX), je (Label.ELSE s.if_counter)] ++
          (generate_statement cf c1 { s with if_counter := s.if_counter + 1 }).out ++
          [jmp (Label.ENDIF s.if_counter), label (Label.ELSE s.if_counter)] ++
          (generate_statement cf c2 s1).out ++ [label (Label.ENDIF s.if_counter)] := by
  rw [generate_if_statement_children] at hok ⊢
  obtain ⟨_, h1, h2, o1⟩ := bind_res_ok _ _ _ hok
  obtain ⟨s1, h3, h4, o2⟩ := bind_res_ok _ _ _ h2
  obtain ⟨_, -, h5, o3⟩ := bind_res_ok _ _ _ h4
  obtain ⟨s3, h6, h7, o4⟩ := bind_res_ok _ _ _ h5
  obtain ⟨_, -, h8, o5⟩ := bind_res_ok _ _ _ h7
  simp only [emitted.pure, Except.ok.injEq] at h8
  subst h8
  have hc := condition_res_ok _ _ _ h1
  refine ⟨s1, hc, h3, h6, ?_⟩
  rw [o1, o2, o3, o4, o5]
  simp [seq, emit, emitted.pure, hc]

theorem generate_statement_list_generated (cf : symbol_t) (l : List node_t)
    (h : ∀ st ∈ l, ∀ s s1, (generate_statement cf st s).res = Except.ok s1 →
      generated cf [st] s (generate_statement cf st s).out s1)
    (s s1 : gen_state) (hok : (generate_statement_list cf l s).res = Except.ok s1) :
    generated cf l s (generate_statement_list cf l s).out s1 := by
  induction l generalizing s with
  | nil =>
    rw [generate_statement_list] at hok ⊢
    simp only [emitted.pure, Except.ok.injEq] at hok
    subst hok
    exact generated.nil s
  | cons st rest ih =>
    rw [generate_statement_list] at hok ⊢
    obtain ⟨s2, h1, h2, ho⟩ := bind_res_ok _ _ _ hok
    rw [ho]
    have g1 := h st (List.mem_cons_self _ _) s s2 h1
    cases rest with
    | nil =>
      rw [generate_statement_list] at h2 ⊢
      simp only [emitted.pure, Except.ok.injEq] at h2
      subst h2
      simpa [emitted.pure] using g1
    | cons st2 rest1 =>
      exact generated.cons st st2 rest1 s s2 s1 _ _ g1
        (ih (fun x hx => h x (List.mem_cons_of_mem _ hx)) s2 h2)

theorem simple_statement_res (x : emitted Unit) (s s1 : gen_state)
    (h : (x.bind fun _ => emitted.pure s).res = Except.ok s1) :
    x.res = Except.ok () ∧ s1 = s ∧ (x.bind fun _ => emitted.pure s).out = x.out := by
  obtain ⟨_, h1, h2, ho⟩ := bind_res_ok _ _ _ h
  simp only [emitted.pure, Except.ok.injEq] at h2
  exact ⟨h1, h2.symm, by rw [ho]; simp [emitted.pure]⟩

theorem generate_statement_generated_aux (cf : symbol_t) :
    ∀ st : node_t,
      (∀ s s1, (generate_statement cf st s).res = Except.ok s1 →
        generated cf [st] s (generate_statement cf st s).out s1) ∧
      ∀ a ∈ st.children, ∀ s s1, (generate_statement cf a s).res = Except.ok s1 →
        generated cf [a] s (generate_statement cf a s).out s1 := by
  refine node_induction fun ty ch n op i sym ih => ?_
  have hch : ∀ a ∈ ch, ∀ s s1, (generate_statement cf a s).res = Except.ok s1 →
      generated cf [a] s (generate_statement cf a s).out s1 := fun a ha => (ih a ha).1
  refine ⟨?_, hch⟩
  cases ty
  case BLOCK =>
    intro s s1 hok
    rw [generate_statement, generate_block_children_eq] at hok ⊢
    cases hb : block_statements ch with
    | none => simp [hb, fail] at hok
    | some statements =>
      simp only [hb] at hok ⊢
      obtain ⟨c, hc, hcs⟩ := block_statements_mem ch statements hb
      refine generated.block ch statements n op i sym s s1 _ hb
        (generate_statement_list_generated cf statements ?_ s s1 hok)
      rw [← hcs]
      exact (ih c hc).2
  case ASSIGNMENT_STATEMENT =>
    intro s s1 hok
    rw [generate_statement] at hok ⊢
    obtain ⟨h1, rfl, ho⟩ := simple_statement_res _ _ _ hok
    rw [ho]
    exact generated.assignment ch n op i sym s1 h1
  case PRINT_STATEMENT =>
    intro s s1 hok
    rw [generate_statement] at hok ⊢
    obtain ⟨h1, rfl, ho⟩ := simple_statement_res _ _ _ hok
    rw [ho]
    exact generated.print ch n op i sym s1 h1
  case RETURN_STATEMENT =>
    intro s s1 hok
    rw [generate_statement] at hok ⊢
    obtain ⟨h1, rfl, ho⟩ := simple_statement_res _ _ _ hok
    rw [ho]
    exact generated.return_ ch n op i sym s1 h1
  case FUNCTION_CALL =>
    intro s s1 hok
    rw [generate_statement] at hok ⊢
    obtain ⟨h1, rfl, ho⟩ := simple_statement_res _ _ _ hok
    rw [ho]
    exact generated.call ch n op i sym s1 h1
  case IF_STATEMENT =>
    intro s s1 hok
    rw [generate_statement] at hok ⊢
    match ch with
    | [] =>
      rw [generate_if_statement_children] at hok
      · simp [fail] at hok
      all_goals simp
    | [_] =>
      rw [generate_if_statement_children] at hok
      · simp [fail] at hok
      all_goals simp
    | [c0, c1] =>
      obtain ⟨hc, hb, ho⟩ := generate_if_then_body cf c0 c1 [] (by simp) s s1 hok
      rw [ho]
      exact generated.if_then c0 c1 [] n op i sym s s1 _ (by simp) hc
        (hch c1 (by simp) _ _ hb)
    | c0 :: c1 :: c2 :: c3 :: rest =>
      obtain ⟨hc, hb, ho⟩ :=
        generate_if_then_body cf c0 c1 (c2 :: c3 :: rest) (by simp) s s1 hok
      rw [ho]
      exact generated.if_then c0 c1 (c2 :: c3 :: rest) n op i sym s s1 _ (by simp) hc
        (hch c1 (by simp) _ _ hb)
    | [c0, c1, c2] =>
      obtain ⟨s2, hc, hb1, hb2, ho⟩ := generate_if_then_else_body cf c0 c1 c2 s s1 hok
      rw [ho]
      exact generated.if_then_else c0 c1 c2 n op i sym s s2 s1 _ _ hc
        (hch c1 (by simp) _ _ hb1) (hch c2 (by simp) _ _ hb2)
  case WHILE_STATEMENT =>
    intro s s1 hok
    rw [generate_statement] at hok ⊢
    match ch with
    | [] =>
      rw [generate_while_statement_children] at hok
      · split at hok <;> simp [fail] at hok
      · simp
    | [_] =>
      rw [generate_while_statement_children] at hok
      · split at hok <;> simp [fail] at hok
      · simp
    | c0 :: c1 :: rest =>
      obtain ⟨hd, s2, hc, hb, hs, ho⟩ :=
        generate_while_statement_children_body cf c0 c1 rest s s1 hok
      rw [ho, hs]
      exact generated.while_ c0 c1 rest n op i sym s s2 _ (by omega) hc
        (hch c1 (by simp) _ _ hb)
  case BREAK_STATEMENT =>
    intro s s1 hok
    rw [generate_statement] at hok ⊢
    by_cases hd : s.loop_depth ≤ 0
    · rw [generate_break_statement_fail s hd] at hok
      simp at hok
    · rw [generate_break_statement_eq s hd] at hok ⊢
      simp only [Except.ok.injEq] at hok
      subst hok
      exact generated.break_ ch n op i sym s (by omega)
  all_goals
    intro s s1 hok
    rw [generate_statement] at hok
    · simp [fail] at hok
    all_goals simp

theorem generate_statement_generated (cf : symbol_t) (st : node_t) (s s1 : gen_state)
    (hok : (generate_statement cf st s).res = Except.ok s1) :
    generated cf [st] s (generate_statement cf st s).out s1 :=
  (generate_statement_generated_aux cf st).1 s s1 hok

/-! ## C15: symbol-kind mismatches -/

theorem generate_variable_access_error_iff (cf : symbol_t) (ch : List node_t) (n : Int)
    (op : String) (i : Nat) (symbol : symbol_t) :
    (∃ e, generate_variable_access cf
        (node_t.mk node_type_t.IDENTIFIER ch n op i (some symbol)) = Except.error e) ↔
      symbol.type = symtype_t.SYMBOL_FUNCTION ∨ symbol.type = symtype_t.SYMBOL_GLOBAL_ARRAY := by
  unfold generate_variable_access
  simp only [node_t.type, node_t.symbol, ne_eq, not_true_eq_false, if_false]
  cases h : symbol.type <;> simp
  split <;> simp

theorem generate_array_access_eq (cf : symbol_t) (c0 idx : node_t) (rest : List node_t)
    (n : Int) (op : String) (i : Nat) (sym : Option symbol_t) (symbol : symbol_t)
    (hs : c0.symbol = some symbol) (ha : symbol.type = symtype_t.SYMBOL_GLOBAL_ARRAY) :
    generate_array_access cf
        (node_t.mk node_type_t.ARRAY_INDEXING (c0 :: idx :: rest) n op i sym) =
      (seq [generate_expression cf idx,
        emit [leaq (global symbol.name) (reg RCX), leaq (indexed RCX RAX 8) (reg RCX)]]).bind
        fun _ => emitted.pure (mem RCX) := by
  unfold generate_array_access
  simp only [node_t.type, node_t.children, ne_eq, not_true_eq_false, if_false]
  rw [generate_array_access_children]
  simp [hs, ha, generate_child]

theorem generate_array_access_not_array (cf : symbol_t) (c0 : node_t) (rest : List node_t)
    (n : Int) (op : String) (i : Nat) (sym : Option symbol_t) (symbol : symbol_t)
    (hs : c0.symbol = some symbol) (ha : symbol.type ≠ symtype_t.SYMBOL_GLOBAL_ARRAY) :
    generate_array_access cf (node_t.mk node_type_t.ARRAY_INDEXING (c0 :: rest) n op i sym) =
      ⟨[], Except.error (gen_error.not_an_array symbol.name)⟩ := by
  unfold generate_array_access
  simp only [node_t.type, node_t.children, ne_eq, not_true_eq_false, if_false]
  rw [generate_array_access_children]
  simp [hs, ha, fail]

/-- C15: `generate_array_access` on a symbol that is not a global array stops with the error
`not an array` having written nothing, in particular no line of the index expression; on a
global array it writes the code of the index expression and the two address computations, so
that it fails only with an error of the index expression, and when the index expression
generates it fails if and only if the symbol is not a global array.  The function
`generate_variable_access` fails if and only if the symbol of the identifier is a function or
a global array; then an identifier expression writes nothing, and an assignment to the
identifier writes the code of its right-hand side and no store. -/
theorem generate_access_symbol_kind_errors (cf : symbol_t) (c0 idx : node_t)
    (rest : List node_t) (n : Int) (op : String) (i : Nat) (sym : Option symbol_t)
    (symbol : symbol_t) (hs : c0.symbol = some symbol) :
    (symbol.type ≠ symtype_t.SYMBOL_GLOBAL_ARRAY →
      generate_array_access cf
          (node_t.mk node_type_t.ARRAY_INDEXING (c0 :: idx :: rest) n op i sym) =
        ⟨[], Except.error (gen_error.not_an_array symbol.name)⟩) ∧
    (symbol.type = symtype_t.SYMBOL_GLOBAL_ARRAY →
      generate_array_access cf
          (node_t.mk node_type_t.ARRAY_INDEXING (c0 :: idx :: rest) n op i sym) =
        (seq [generate_expression cf idx,
          emit [leaq (global symbol.name) (reg RCX),
            leaq (indexed RCX RAX 8) (reg RCX)]]).bind fun _ => emitted.pure (mem RCX)) ∧
    (symbol.type = symtype_t.SYMBOL_GLOBAL_ARRAY →
      ∀ e, (generate_array_access cf
          (node_t.mk node_type_t.ARRAY_INDEXING (c0 :: idx :: rest) n op i sym)).res =
          Except.error e → (generate_expression cf idx).res = Except.error e) ∧
    ((generate_expression cf idx).res = Except.ok () →
      ((∃ e, (generate_array_access cf
          (node_t.mk node_type_t.ARRAY_INDEXING (c0 :: idx :: rest) n op i sym)).res =
          Except.error e) ↔ symbol.type ≠ symtype_t.SYMBOL_GLOBAL_ARRAY)) ∧
    ∀ (vch : List node_t) (vn : Int) (vop : String) (vi : Nat) (vsym : symbol_t),
      ((∃ e, generate_variable_access cf
          (node_t.mk node_type_t.IDENTIFIER vch vn vop vi (some vsym)) =
          Except.error e) ↔
        vsym.type = symtype_t.SYMBOL_FUNCTION ∨
          vsym.type = symtype_t.SYMBOL_GLOBAL_ARRAY) ∧
      (vsym.type = symtype_t.SYMBOL_FUNCTION ∨
          vsym.type = symtype_t.SYMBOL_GLOBAL_ARRAY →
        (generate_expression cf
          (node_t.mk node_type_t.IDENTIFIER vch vn vop vi (some vsym))).out = [] ∧
        (∃ e, (generate_expression cf
          (node_t.mk node_type_t.IDENTIFIER vch vn vop vi (some vsym))).res =
          Except.error e) ∧
        ∀ (value : node_t) (more : List node_t),
          (generate_expression cf value).res = Except.ok () →
          (generate_assignment_statement_children cf
            (node_t.mk node_type_t.IDENTIFIER vch vn vop vi (some vsym) :: value ::
              more)).out = (generate_expression cf value).out ∧
          ∃ e, (generate_assignment_statement_children cf
            (node_t.mk node_type_t.IDENTIFIER vch vn vop vi (some vsym) :: value ::
              more)).res = Except.error e) := by
  refine ⟨fun ha => generate_array_access_not_array cf c0 _ n op i sym symbol hs ha,
    fun ha => generate_array_access_eq cf c0 idx rest n op i sym symbol hs ha,
    fun ha e he => ?_, fun hidx => ?_, fun vch vn vop vi vsym => ?_⟩
  · rw [generate_array_access_eq cf c0 idx rest n op i sym symbol hs ha] at he
    cases hr : (generate_expression cf idx).res with
    | error e1 =>
      simp [emitted.bind, seq, hr] at he
      rw [he]
    | ok u => simp [emitted.bind, seq, hr, emit, emitted.pure] at he
  · constructor
    · rintro ⟨e, he⟩ ha
      rw [generate_array_access_eq cf c0 idx rest n op i sym symbol hs ha] at he
      simp [emitted.bind, seq, hidx, emit, emitted.pure] at he
    · intro ha
      rw [generate_array_access_not_array cf c0 _ n op i sym symbol hs ha]
      exact ⟨_, rfl⟩
  · have hiff := generate_variable_access_error_iff cf vch vn vop vi vsym
    refine ⟨hiff, fun hv => ?_⟩
    obtain ⟨e, he⟩ := hiff.2 hv
    refine ⟨?_, ⟨e, ?_⟩, fun value more hval => ⟨?_, ⟨e, ?_⟩⟩⟩
    · rw [generate_expression]
      simp [emitted.bind, lift, he]
    · rw [generate_expression]
      simp [emitted.bind, lift, he]
    · rw [generate_assignment_statement_children]
      simp [emitted.bind, lift, he, hval, node_t.type]
    · rw [generate_assignment_statement_children]
      simp [emitted.bind, lift, he, hval, node_t.type]

/-- C15 at `v[1]` for the global variable `v`, at `a[1]` for the global array `a`, and at the
identifiers `h`, a function, and `v`. -/
theorem generate_access_symbol_kind_errors_witness :
    generate_array_access sample_function
        (node_t.index sample_global (node_t.number 1)) =
      ⟨[], Except.error (gen_error.not_an_array "v")⟩ ∧
    generate_array_access sample_function (node_t.index sample_array (node_t.number 1)) =
      ⟨[movq (imm 1) (reg RAX), leaq (global "a") (reg RCX),
        leaq (indexed RCX RAX 8) (reg RCX)], Except.ok (mem RCX)⟩ ∧
    ((∃ e, generate_variable_access sample_function (node_t.identifier sample_callee) =
        Except.error e) ↔
      sample_callee.type = symtype_t.SYMBOL_FUNCTION ∨
        sample_callee.type = symtype_t.SYMBOL_GLOBAL_ARRAY) ∧
    ((∃ e, generate_variable_access sample_function (node_t.identifier sample_global) =
        Except.error e) ↔
      sample_global.type = symtype_t.SYMBOL_FUNCTION ∨
        sample_global.type = symtype_t.SYMBOL_GLOBAL_ARRAY) :=
  ⟨(generate_access_symbol_kind_errors sample_function (node_t.identifier sample_global)
      (node_t.number 1) [] 0 "" 0 none sample_global rfl).1 (by decide),
    ((generate_access_symbol_kind_errors sample_function (node_t.identifier sample_array)
      (node_t.number 1) [] 0 "" 0 none sample_array rfl).2.1 rfl).trans rfl,
    ((generate_access_symbol_kind_errors sample_function (node_t.identifier sample_array)
      (node_t.number 1) [] 0 "" 0 none sample_array rfl).2.2.2.2 [] 0 "" 0 sample_callee).1,
    ((generate_access_symbol_kind_errors sample_function (node_t.identifier sample_global)
      (node_t.number 1) [] 0 "" 0 none sample_global rfl).2.2.2.2 [] 0 "" 0 sample_global).1⟩

/-! ## C16: global storage -/

theorem generate_global_symbol_cases (symbol : symbol_t) :
    (symbol.type = symtype_t.SYMBOL_GLOBAL_ARRAY ∧
      symbol.length_type ≠ node_type_t.NUMBER_LITERAL ∧
      generate_global_symbol symbol =
        ⟨[], Except.error (gen_error.array_length_unknown symbol.name)⟩) ∨
    (¬ (symbol.type = symtype_t.SYMBOL_GLOBAL_ARRAY ∧
        symbol.length_type ≠ node_type_t.NUMBER_LITERAL) ∧
      generate_global_symbol symbol =
        ⟨if symbol.type = symtype_t.SYMBOL_GLOBAL_VAR then
            [directive (Directive.zero symbol.name 8)]
          else if symbol.type = symtype_t.SYMBOL_GLOBAL_ARRAY then
            [directive (Directive.zero symbol.name (wrap64 (symbol.length_literal * 8)))]
          else [], Except.ok ()⟩) := by
  unfold generate_global_symbol
  by_cases hv : symbol.type = symtype_t.SYMBOL_GLOBAL_VAR
  · right
    simp [hv, emit]
  · by_cases ha : symbol.type = symtype_t.SYMBOL_GLOBAL_ARRAY
    · by_cases hl : symbol.length_type = node_type_t.NUMBER_LITERAL
      · right
        simp [ha, hl, emit]
      · left
        simp [ha, hl, fail]
    · right
      simp [hv, ha, emit]

theorem generate_global_storage_error_iff (global_symbols : List function_t) :
    (∃ e, (generate_global_storage global_symbols).res = Except.error e) ↔
      ∃ g ∈ global_symbols, g.symbol.type = symtype_t.SYMBOL_GLOBAL_ARRAY ∧
        g.symbol.length_type ≠ node_type_t.NUMBER_LITERAL := by
  induction global_symbols with
  | nil => simp [generate_global_storage, emit]
  | cons g rest ih =>
    rw [generate_global_storage]
    rcases generate_global_symbol_cases g.symbol with ⟨ha, hl, he⟩ | ⟨hn, he⟩
    · simp only [seq, he]
      exact ⟨fun _ => ⟨g, List.mem_cons_self _ _, ha, hl⟩, fun _ => ⟨_, rfl⟩⟩
    · simp only [seq, he]
      constructor
      · rintro ⟨e, h⟩
        cases hr : (generate_global_storage rest).res with
        | ok u => simp [hr] at h
        | error e1 =>
          obtain ⟨g1, hg1, h1⟩ := ih.1 ⟨e1, hr⟩
          exact ⟨g1, List.mem_cons_of_mem _ hg1, h1⟩
      · rintro ⟨g1, hg1, h1⟩
        rcases List.mem_cons.1 hg1 with rfl | hg1
        · exact absurd h1 hn
        · obtain ⟨e1, hr⟩ := ih.2 ⟨g1, hg1, h1⟩
          refine ⟨e1, ?_⟩
          simp [hr]

theorem generate_global_storage_out (global_symbols : List function_t)
    (hok : (generate_global_storage global_symbols).res = Except.ok ()) :
    (generate_global_storage global_symbols).out =
      (global_symbols.filter fun g =>
          g.symbol.type = symtype_t.SYMBOL_GLOBAL_VAR ∨
            g.symbol.type = symtype_t.SYMBOL_GLOBAL_ARRAY).map fun g =>
        directive (Directive.zero g.symbol.name
          (if g.symbol.type = symtype_t.SYMBOL_GLOBAL_VAR then 8
            else wrap64 (g.symbol.length_literal * 8))) := by
  induction global_symbols with
  | nil => simp [generate_global_storage, emit]
  | cons g rest ih =>
    rw [generate_global_storage] at hok ⊢
    rcases generate_global_symbol_cases g.symbol with ⟨ha, hl, he⟩ | ⟨hn, he⟩
    · simp [seq, he] at hok
    · simp only [seq, he] at hok ⊢
      cases hr : (generate_global_storage rest).res with
      | error e1 => simp [hr] at hok
      | ok u =>
        have ih1 := ih hr
        simp only [hr, ih1, List.append_nil]
        by_cases hv : g.symbol.type = symtype_t.SYMBOL_GLOBAL_VAR
        · simp [hv, List.filter_cons]
        · by_cases ha : g.symbol.type = symtype_t.SYMBOL_GLOBAL_ARRAY
          · simp [hv, ha, List.filter_cons]
          · simp [hv, ha, List.filter_cons]

theorem wrap64_times_eight (x : Int) (h1 : -1152921504606846976 ≤ x)
    (h2 : x < 1152921504606846976) : wrap64 (x * 8) = x * 8 := by
  unfold wrap64
  omega

theorem storage_sizes_exact (l : List function_t)
    (h : ∀ g ∈ l, g.symbol.type ≠ symtype_t.SYMBOL_GLOBAL_VAR →
      -1152921504606846976 ≤ g.symbol.length_literal ∧
        g.symbol.length_literal < 1152921504606846976) :
    (l.map fun g => directive (Directive.zero g.symbol.name
      (if g.symbol.type = symtype_t.SYMBOL_GLOBAL_VAR then 8
        else wrap64 (g.symbol.length_literal * 8)))) =
    l.map fun g => directive (Directive.zero g.symbol.name
      (if g.symbol.type = symtype_t.SYMBOL_GLOBAL_VAR then 8
        else g.symbol.length_literal * 8)) := by
  refine List.map_congr_left fun g hg => ?_
  by_cases hv : g.symbol.type = symtype_t.SYMBOL_GLOBAL_VAR
  · simp [hv]
  · simp only [hv, if_false]
    rw [wrap64_times_eight _ (h g hg hv).1 (h g hg hv).2]

theorem zero_offsets_aligned (l : List function_t) (f : function_t → Int)
    (hf : ∀ g ∈ l, 0 ≤ f g ∧ f g % 8 = 0) (start : Int) (h0 : 0 ≤ start)
    (h8 : start % 8 = 0) :
    ∀ o ∈ zero_offsets (l.map fun g => directive (Directive.zero g.symbol.name (f g))) start,
      0 ≤ o ∧ o % 8 = 0 := by
  induction l generalizing start with
  | nil => simp [zero_offsets]
  | cons g rest ih =>
    intro o ho
    simp only [List.map_cons, zero_offsets, List.mem_cons] at ho
    rcases ho with rfl | ho
    · exact ⟨h0, h8⟩
    · have hg := hf g (List.mem_cons_self _ _)
      exact ih (fun g1 hg1 => hf g1 (List.mem_cons_of_mem _ hg1)) _ (by omega) (by omega) o ho

theorem zero_offsets_length (l : List function_t) (f : function_t → Int) (start : Int) :
    (zero_offsets (l.map fun g => directive (Directive.zero g.symbol.name (f g))) start).length =
      l.length := by
  induction l generalizing start with
  | nil => simp [zero_offsets]
  | cons g rest ih => simp [zero_offsets, ih]

theorem mem_storage_symbols (global_symbols : List function_t) (g : function_t)
    (hg : g ∈ global_symbols.filter fun g =>
      g.symbol.type = symtype_t.SYMBOL_GLOBAL_VAR ∨
        g.symbol.type = symtype_t.SYMBOL_GLOBAL_ARRAY)
    (hv : g.symbol.type ≠ symtype_t.SYMBOL_GLOBAL_VAR) :
    g ∈ global_symbols ∧ g.symbol.type = symtype_t.SYMBOL_GLOBAL_ARRAY := by
  rw [List.mem_filter] at hg
  have h2 := hg.2
  simp only [decide_eq_true_eq, Bool.decide_or, Bool.or_eq_true] at h2
  rcases h2 with h2 | h2
  · exact absurd h2 hv
  · exact ⟨hg.1, h2⟩

theorem generate_global_variables_eq (global_symbols : List function_t) :
    generate_global_variables global_symbols =
      ⟨[directive (Directive.section_ ASM_BSS_SECTION), directive (Directive.align 8)] ++
        (generate_global_storage global_symbols).out,
        (generate_global_storage global_symbols).res⟩ := by
  unfold generate_global_variables
  cases hr : (generate_global_storage global_symbols).res <;> simp [seq, emit, hr]

/-- C16, amended: `generate_global_variables` fails if and only if some global array of the
table has a length node that is not a number literal.  When it returns, it has written the
section and alignment directives followed by one `.name: .zero n` per global variable
(`n = 8`) and per global array of the table, in table order, and nothing for the other
symbols; for an array `n` is the signed 64-bit value of `length * 8`, which is `length * 8`
itself when `-2^60 <= length < 2^60`.  Every block is placed by the assembler, and when every
array has a length `0 <= length < 2^60`, every block starts at an offset from the aligned
start of the section that is a multiple of 8. -/
theorem generate_global_variables_spec (global_symbols : List function_t) :
    ((∃ e, (generate_global_variables global_symbols).res = Except.error e) ↔
      ∃ g ∈ global_symbols, g.symbol.type = symtype_t.SYMBOL_GLOBAL_ARRAY ∧
        g.symbol.length_type ≠ node_type_t.NUMBER_LITERAL) ∧
    ((generate_global_variables global_symbols).res = Except.ok () →
      (generate_global_variables global_symbols).out =
        [directive (Directive.section_ ASM_BSS_SECTION), directive (Directive.align 8)] ++
          ((global_symbols.filter fun g =>
            g.symbol.type = symtype_t.SYMBOL_GLOBAL_VAR ∨
              g.symbol.type = symtype_t.SYMBOL_GLOBAL_ARRAY).map fun g =>
            directive (Directive.zero g.symbol.name
              (if g.symbol.type = symtype_t.SYMBOL_GLOBAL_VAR then 8
                else wrap64 (g.symbol.length_literal * 8)))) ∧
      (zero_offsets (generate_global_variables global_symbols).out 0).length =
        (global_symbols.filter fun g =>
          g.symbol.type = symtype_t.SYMBOL_GLOBAL_VAR ∨
            g.symbol.type = symtype_t.SYMBOL_GLOBAL_ARRAY).length ∧
      ((∀ g ∈ global_symbols, g.symbol.type = symtype_t.SYMBOL_GLOBAL_ARRAY →
          -1152921504606846976 ≤ g.symbol.length_literal ∧
            g.symbol.length_literal < 1152921504606846976) →
        (generate_global_variables global_symbols).out =
          [directive (Directive.section_ ASM_BSS_SECTION), directive (Directive.align 8)] ++
            ((global_symbols.filter fun g =>
              g.symbol.type = symtype_t.SYMBOL_GLOBAL_VAR ∨
                g.symbol.type = symtype_t.SYMBOL_GLOBAL_ARRAY).map fun g =>
              directive (Directive.zero g.symbol.name
                (if g.symbol.type = symtype_t.SYMBOL_GLOBAL_VAR then 8
                  else g.symbol.length_literal * 8)))) ∧
      ((∀ g ∈ global_symbols, g.symbol.type = symtype_t.SYMBOL_GLOBAL_ARRAY →
          0 ≤ g.symbol.length_literal ∧ g.symbol.length_literal < 1152921504606846976) →
        ∀ o ∈ zero_offsets (generate_global_variables global_symbols).out 0,
          0 ≤ o ∧ o % 8 = 0)) := by
  have e : generate_global_variables global_symbols =
      ⟨[directive (Directive.section_ ASM_BSS_SECTION), directive (Directive.align 8)] ++
        (generate_global_storage global_symbols).out,
        (generate_global_storage global_symbols).res⟩ := by
    unfold generate_global_variables
    cases hr : (generate_global_storage global_symbols).res <;> simp [seq, emit, hr]
  rw [e]
  refine ⟨generate_global_storage_error_iff global_symbols, fun hok => ?_⟩
  simp only at hok ⊢
  rw [generate_global_storage_out global_symbols hok]
  refine ⟨rfl, ?_, fun hlen => ?_, fun hlen => ?_⟩
  · simp only [List.cons_append, List.nil_append, zero_offsets]
    exact zero_offsets_length _ _ 0
  · rw [storage_sizes_exact _ fun g hg hv =>
      hlen g (mem_storage_symbols _ g hg hv).1 (mem_storage_symbols _ g hg hv).2]
  · simp only [List.cons_append, List.nil_append, zero_offsets]
    refine zero_offsets_aligned _ _ (fun g hg => ?_) 0 (le_refl 0) rfl
    by_cases hv : g.symbol.type = symtype_t.SYMBOL_GLOBAL_VAR
    · simp [hv]
    · simp only [hv, if_false]
      have hb := hlen g (mem_storage_symbols _ g hg hv).1 (mem_storage_symbols _ g hg hv).2
      rw [wrap64_times_eight _ (by omega) hb.2]
      omega

/-- C16 as stated fails: for the global array `b` of length `2^60` the product `length * 8`
is `2^63`, which is no `int64_t`; the directive written is `.b: .zero -9223372036854775808`
and not one for `length * 8` zero bytes. -/
theorem generate_global_variables_size_wraps :
    generate_global_variables
        [⟨⟨"b", symtype_t.SYMBOL_GLOBAL_ARRAY, 0, 0, node_type_t.NUMBER_LITERAL,
          1152921504606846976⟩, [], node_t.block []⟩] =
      ⟨[directive (Directive.section_ ".bss"), directive (Directive.align 8),
        directive (Directive.zero "b" (-9223372036854775808))], Except.ok ()⟩ ∧
    ((1152921504606846976 : Int) * 8 = 9223372036854775808) ∧
    (generate_global_variables
        [⟨⟨"b", symtype_t.SYMBOL_GLOBAL_ARRAY, 0, 0, node_type_t.NUMBER_LITERAL,
          1152921504606846976⟩, [], node_t.block []⟩]).out ≠
      [directive (Directive.section_ ".bss"), directive (Directive.align 8),
        directive (Directive.zero "b" ((1152921504606846976 : Int) * 8))] := by
  refine ⟨rfl, by decide, ?_⟩
  decide

/-- C16, amended, at the table `v, a[10], f, w`: the blocks of `v`, `a` and `w` start at 0,
8 and 88; and at a table whose array has the length of a variable. -/
theorem generate_global_variables_spec_witness :
    (generate_global_variables sample_globals).out =
      [directive (Directive.section_ ".bss"), directive (Directive.align 8),
        directive (Directive.zero "v" 8), directive (Directive.zero "a" 80),
        directive (Directive.zero "w" 8)] ∧
    zero_offsets (generate_global_variables sample_globals).out 0 = [0, 8, 88] ∧
    (∀ o ∈ zero_offsets (generate_global_variables sample_globals).out 0, 0 ≤ o ∧ o % 8 = 0) ∧
    ∃ e, (generate_global_variables
      [⟨⟨"b", symtype_t.SYMBOL_GLOBAL_ARRAY, 0, 0, node_type_t.IDENTIFIER, 0⟩, [],
        node_t.block []⟩]).res = Except.error e :=
  ⟨(((generate_global_variables_spec sample_globals).2 (by decide)).2.2.1
      (by decide)).trans (by decide),
    by decide,
    ((generate_global_variables_spec sample_globals).2 (by decide)).2.2.2 (by decide),
    (generate_global_variables_spec _).1.2 ⟨_, List.mem_singleton.2 rfl, rfl, by decide⟩⟩

/-! ## C17: the program -/

theorem generate_functions_out (global_symbols : List function_t) (s : gen_state) :
    (generate_functions global_symbols s).out =
      (function_outputs (function_symbols global_symbols) s).flatten := by
  induction global_symbols generalizing s with
  | nil => simp [generate_functions, function_symbols, function_outputs, emitted.pure]
  | cons g rest ih =>
    rw [generate_functions]
    by_cases hf : g.symbol.type = symtype_t.SYMBOL_FUNCTION
    · have e : function_symbols (g :: rest) = g :: function_symbols rest := by
        simp [function_symbols, hf]
      rw [e, function_outputs]
      simp only [ne_eq, hf, not_true_eq_false, if_false]
      cases hr : (generate_function g s).res with
      | error e1 => simp [emitted.bind, hr]
      | ok s1 =>
        simp only [emitted.bind, hr, List.flatten_cons]
        rw [ih s1]
    · have e : function_symbols (g :: rest) = function_symbols rest := by
        simp [function_symbols, hf]
      rw [e]
      simp only [ne_eq, hf, not_false_eq_true, if_true]
      exact ih s

theorem function_outputs_heads (fs : List function_t) (s s1 : gen_state)
    (h : ∀ f ∈ fs, f.symbol.type = symtype_t.SYMBOL_FUNCTION)
    (hok : (generate_functions fs s).res = Except.ok s1) :
    (function_outputs fs s).map List.head? =
      fs.map fun f => some (label (Label.function f.symbol.name)) := by
  induction fs generalizing s with
  | nil => simp [function_outputs]
  | cons f rest ih =>
    have hf := h f (List.mem_cons_self _ _)
    rw [generate_functions] at hok
    simp only [ne_eq, hf, not_true_eq_false, if_false] at hok
    obtain ⟨s2, h1, h2, -⟩ := bind_res_ok _ _ _ hok
    rw [function_outputs]
    simp only [h1, List.map_cons]
    rw [ih s2 (fun g hg => h g (List.mem_cons_of_mem _ hg)) h2]
    obtain ⟨tail, ht⟩ := generate_function_prologue f s
    rw [ht]
    simp [function_prologue]

theorem generate_functions_function_symbols (global_symbols : List function_t)
    (s : gen_state) :
    generate_functions (function_symbols global_symbols) s =
      generate_functions global_symbols s := by
  induction global_symbols generalizing s with
  | nil => rfl
  | cons g rest ih =>
    by_cases hf : g.symbol.type = symtype_t.SYMBOL_FUNCTION
    · have e : function_symbols (g :: rest) = g :: function_symbols rest := by
        simp [function_symbols, hf]
      rw [e, generate_functions, generate_functions]
      simp only [ne_eq, hf, not_true_eq_false, if_false]
      congr 1
      funext s1
      exact ih s1
    · have e : function_symbols (g :: rest) = function_symbols rest := by
        simp [function_symbols, hf]
      rw [e, generate_functions]
      simp only [ne_eq, hf, not_false_eq_true, if_true]
      exact ih s

theorem first_function_eq_head (global_symbols : List function_t) :
    first_function global_symbols = (function_symbols global_symbols).head? := by
  induction global_symbols with
  | nil => rfl
  | cons g rest ih =>
    unfold first_function function_symbols at ih ⊢
    by_cases hf : g.symbol.type = symtype_t.SYMBOL_FUNCTION
    · rw [List.find?_cons_of_pos _ (by simpa using hf),
        List.filter_cons_of_pos (by simpa using hf)]
      rfl
    · rw [List.find?_cons_of_neg _ (by simpa using hf),
        List.filter_cons_of_neg (by simpa using hf)]
      exact ih

theorem first_function_eq_none (global_symbols : List function_t) :
    first_function global_symbols = none ↔
      ∀ g ∈ global_symbols, g.symbol.type ≠ symtype_t.SYMBOL_FUNCTION := by
  unfold first_function
  simp

theorem generate_main_call (first : symbol_t) (name : String) :
    call (Label.function name) ∈ generate_main first ↔ name = first.name := by
  have hpops : ∀ k, call (Label.function name) ∉
      (REGISTER_PARAMS.take k).map fun r => popq (reg r) := by
    intro k h
    obtain ⟨r, -, hr⟩ := List.mem_map.1 h
    cases hr
  unfold generate_main generate_safe_printf generate_safe_putchar
  split
  · simp
  · simp only [List.mem_append, hpops]
    simp

theorem generate_stringtable_entry (string_list : List String) (i : Nat) (text : String)
    (h : string_list[i]? = some text) :
    (generate_stringtable string_list)[4 + i]? =
      some (directive (Directive.string_entry i text)) := by
  unfold generate_stringtable
  rw [List.getElem?_append_right (by simp)]
  simp [List.enum, List.getElem?_enumFrom, h]

/-- C17: the string table that `generate_program` writes first is the section directive, the
three fixed strings `intout`, `strout` and `errout`, and one entry `string<i>` per string of
the list, in order.  When `generate_program` returns, its output is that string table, the
global storage (section and alignment directives and one `.zero` per global variable and
array, in table order), the `.text` directive, the outputs of `generate_function` for the
function symbols of the table, one call per function symbol in table order (the k-th of them
starts with the entry label of the k-th function symbol), and the entry routine of the first
function symbol of the table, whose comparison of the argument count is against the parameter
count of that symbol and whose only call of a function is the call of that symbol.  When the
global storage and the functions generate, `generate_program` fails, with the error `program
contained no functions`, if and only if no symbol of the table is a function. -/
theorem generate_program_spec (string_list : List String) (global_symbols : List function_t)
    (s : gen_state) :
    ((generate_stringtable string_list).length = 4 + string_list.length ∧
      (generate_stringtable string_list).take 4 =
        [directive (Directive.section_ ASM_STRING_SECTION),
          directive (Directive.asciz "intout" "%ld"),
          directive (Directive.asciz "strout" "%s"),
          directive (Directive.asciz "errout" "Wrong number of arguments")] ∧
      ∀ i text, string_list[i]? = some text →
        (generate_stringtable string_list)[4 + i]? =
          some (directive (Directive.string_entry i text))) ∧
    (∀ s1, (generate_program string_list global_symbols s).res = Except.ok s1 →
      ∃ first, first_function global_symbols = some first ∧
        (function_symbols global_symbols).head? = some first ∧
        (generate_program string_list global_symbols s).out =
          generate_stringtable string_list ++
            ([directive (Directive.section_ ASM_BSS_SECTION), directive (Directive.align 8)] ++
              (global_symbols.filter fun g =>
                g.symbol.type = symtype_t.SYMBOL_GLOBAL_VAR ∨
                  g.symbol.type = symtype_t.SYMBOL_GLOBAL_ARRAY).map fun g =>
                directive (Directive.zero g.symbol.name
                  (if g.symbol.type = symtype_t.SYMBOL_GLOBAL_VAR then 8
                    else wrap64 (g.symbol.length_literal * 8)))) ++
            [directive Directive.text] ++
            (function_outputs (function_symbols global_symbols) s).flatten ++
            generate_main first.symbol ∧
        (function_outputs (function_symbols global_symbols) s).map List.head? =
          (function_symbols global_symbols).map
            (fun f => some (label (Label.function f.symbol.name))) ∧
        (generate_main first.symbol)[4]? =
          some (cmpq (imm (FUNC_PARAM_COUNT first.symbol : Nat)) (reg RDI)) ∧
        ∀ name, call (Label.function name) ∈ generate_main first.symbol ↔
          name = first.symbol.name) ∧
    ((generate_global_variables global_symbols).res = Except.ok () →
      ∀ s1, (generate_functions global_symbols s).res = Except.ok s1 →
        ((∃ e, (generate_program string_list global_symbols s).res = Except.error e) ↔
          ∀ g ∈ global_symbols, g.symbol.type ≠ symtype_t.SYMBOL_FUNCTION) ∧
        ((generate_program string_list global_symbols s).res =
            Except.error gen_error.no_functions ↔
          ∀ g ∈ global_symbols, g.symbol.type ≠ symtype_t.SYMBOL_FUNCTION)) := by
  refine ⟨⟨?_, rfl, generate_stringtable_entry string_list⟩, ?_, ?_⟩
  · simp [generate_stringtable]
    omega
  · intro s1 hok
    unfold generate_program at hok ⊢
    obtain ⟨_, -, h1, o1⟩ := bind_res_ok _ _ _ hok
    obtain ⟨_, hg, h2, o2⟩ := bind_res_ok _ _ _ h1
    obtain ⟨_, -, h3, o3⟩ := bind_res_ok _ _ _ h2
    obtain ⟨s2, hf, h4, o4⟩ := bind_res_ok _ _ _ h3
    rw [o1, o2, o3, o4, generate_functions_out]
    clear o1 o2 o3 o4 hok h1 h2 h3
    have hstorage : (generate_global_variables global_symbols).out =
        [directive (Directive.section_ ASM_BSS_SECTION), directive (Directive.align 8)] ++
          (global_symbols.filter fun g =>
            g.symbol.type = symtype_t.SYMBOL_GLOBAL_VAR ∨
              g.symbol.type = symtype_t.SYMBOL_GLOBAL_ARRAY).map fun g =>
            directive (Directive.zero g.symbol.name
              (if g.symbol.type = symtype_t.SYMBOL_GLOBAL_VAR then 8
                else wrap64 (g.symbol.length_literal * 8))) := by
      rw [generate_global_variables_eq] at hg ⊢
      simp only at hg ⊢
      rw [generate_global_storage_out global_symbols hg]
    rw [hstorage]
    cases hfirst : first_function global_symbols with
    | none => simp [hfirst, fail] at h4
    | some first =>
      refine ⟨first, rfl, ?_, ?_, ?_, ?_, generate_main_call first.symbol⟩
      · rw [← first_function_eq_head, hfirst]
      · simp [emitted.bind, emit, emitted.pure]
      · refine function_outputs_heads _ s s2 (fun f hf1 => ?_) ?_
        · simpa [function_symbols] using (List.mem_filter.1 hf1).2
        · rw [generate_functions_function_symbols, hf]
      · simp [generate_main]
  · intro hg s1 hf
    have e : (generate_program string_list global_symbols s).res =
        match first_function global_symbols with
        | none => Except.error gen_error.no_functions
        | some _ => Except.ok s1 := by
      unfold generate_program
      cases hfirst : first_function global_symbols <;>
        simp [emitted.bind, emit, hg, hf, hfirst, fail, emitted.pure]
    rw [e, ← first_function_eq_none]
    cases first_function global_symbols <;> simp

/-- C17 at the strings `"hi"`, `"bye"` and the table `v, g, a[10], f, w` with the function
`g` of two parameters before the function `f`: the whole output, line by line; and at the
table `v` without functions. -/
theorem generate_program_spec_witness :
    (generate_program ["\"hi\"", "\"bye\""] sample_program gen_state.initial).out =
      [directive (Directive.section_ ".rodata"),
        directive (Directive.asciz "intout" "%ld"),
        directive (Directive.asciz "strout" "%s"),
        directive (Directive.asciz "errout" "Wrong number of arguments"),
        directive (Directive.string_entry 0 "\"hi\""),
        directive (Directive.string_entry 1 "\"bye\""),
        directive (Directive.section_ ".bss"), directive (Directive.align 8),
        directive (Directive.zero "v" 8), directive (Directive.zero "a" 80),
        directive (Directive.zero "w" 8), directive Directive.text,
        label (Label.function "g"), pushq (reg RBP), movq (reg RSP) (reg RBP),
        pushq (reg RDI), pushq (reg RSI),
        movq (imm 0) (reg RAX), jmp (Label.epilogue "g"), label (Label.epilogue "g"),
        movq (reg RBP) (reg RSP), popq (reg RBP), ret,
        label (Label.function "f"), pushq (reg RBP), movq (reg RSP) (reg RBP),
        movq (imm 0) (reg RAX), jmp (Label.epilogue "f"), label (Label.epilogue "f"),
        movq (reg RBP) (reg RSP), popq (reg RBP), ret,
        label (Label.named "main"), pushq (reg RBP), movq (reg RSP) (reg RBP),
        subq (imm 1) (reg RDI), cmpq (imm 2) (reg RDI), jne (Label.named "ABORT"),
        addq (imm 16) (reg RSI), movq (reg RDI) (reg RCX), label (Label.named "PARSE_ARGV"),
        pushq (reg RSI), pushq (reg RCX), movq (mem RSI) (reg RDI), movq (imm 0) (reg RSI),
        movq (imm 10) (reg RDX), call (Label.named "strtol"), popq (reg RCX),
        popq (reg RSI), pushq (reg RAX), subq (imm 8) (reg RSI),
        loop (Label.named "PARSE_ARGV"), popq (reg RDI), popq (reg RSI),
        call (Label.function "g"), movq (reg RAX) (reg RDI), call (Label.named "exit"),
        label (Label.named "ABORT"), leaq (runtime "errout") (reg RDI),
        call (Label.named "puts"), movq (imm 1) (reg RDI), call (Label.named "exit"),
        label (Label.named "safe_printf"), pushq (reg RBP), movq (reg RSP) (reg RBP),
        andq (imm (-16)) (reg RSP), call (Label.named "printf"), movq (reg RBP) (reg RSP),
        popq (reg RBP), ret,
        label (Label.named "safe_putchar"), pushq (reg RBP), movq (reg RSP) (reg RBP),
        andq (imm (-16)) (reg RSP), call (Label.named "putchar"), movq (reg RBP) (reg RSP),
        popq (reg RBP), ret, directive Directive.declare_symbols] ∧
    (generate_stringtable ["\"hi\"", "\"bye\""])[5]? =
      some (directive (Directive.string_entry 1 "\"bye\"")) ∧
    (generate_program [] [⟨sample_global, [], node_t.block []⟩] gen_state.initial).res =
      Except.error gen_error.no_functions := by
  refine ⟨?_,
    (generate_program_spec ["\"hi\"", "\"bye\""] sample_program gen_state.initial).1.2.2
      1 "\"bye\"" rfl,
    ((generate_program_spec [] [⟨sample_global, [], node_t.block []⟩]
      gen_state.initial).2.2 (by decide) gen_state.initial rfl).2.2 (by decide)⟩
  obtain ⟨first, h1, -, h2, -⟩ :=
    (generate_program_spec ["\"hi\"", "\"bye\""] sample_program
      gen_state.initial).2.1 gen_state.initial rfl
  have hfirst : first = sample_second_function := (Option.some.inj h1).symm
  rw [h2, hfirst]
  rfl

/-! ## C18: print statements -/

theorem generate_print_items_out (cf : symbol_t) (items : List node_t)
    (hok : (generate_print_items cf items).res = Except.ok ()) :
    (generate_print_items cf items).out =
      (items.map fun item =>
        (if item.type = node_type_t.STRING_LIST_REFERENCE then
          [leaq (runtime "strout") (reg RDI),
            leaq (string_entry item.string_list_index) (reg RSI)]
        else
          (generate_expression cf item).out ++
            [movq (reg RAX) (reg RSI), leaq (runtime "intout") (reg RDI)]) ++
        [call (Label.named "safe_printf")]).flatten := by
  induction items with
  | nil => simp [generate_print_items, emit]
  | cons item rest ih =>
    rw [generate_print_items] at hok ⊢
    obtain ⟨h1, h2⟩ := (seq_res_ok_cons _ _).1 hok
    obtain ⟨-, h3⟩ := (seq_res_ok_cons _ _).1 h2
    obtain ⟨h4, -⟩ := (seq_res_ok_cons _ _).1 h3
    rw [seq_out_cons _ _ h1, seq_out_cons _ _ rfl, seq_out_cons _ _ h4, ih h4]
    by_cases hs : item.type = node_type_t.STRING_LIST_REFERENCE
    · simp [hs, emit, seq]
    · simp only [hs, if_false] at h1 ⊢
      obtain ⟨h5, -⟩ := (seq_res_ok_cons _ _).1 h1
      simp [seq, h5, emit, hs]

theorem count_flatten_map_one {α : Type} (items : List α) (f : α → List Instr) (i : Instr)
    (h : ∀ a ∈ items, (f a).count i = 1) : (items.map f).flatten.count i = items.length := by
  induction items with
  | nil => simp
  | cons a rest ih =>
    simp only [List.map_cons, List.flatten_cons, List.count_append, List.length_cons]
    rw [h a (List.mem_cons_self _ _), ih fun b hb => h b (List.mem_cons_of_mem _ hb)]
    omega

theorem count_flatten_map_zero {α : Type} (items : List α) (f : α → List Instr) (i : Instr)
    (h : ∀ a ∈ items, (f a).count i = 0) : (items.map f).flatten.count i = 0 := by
  induction items with
  | nil => simp
  | cons a rest ih =>
    simp only [List.map_cons, List.flatten_cons, List.count_append]
    rw [h a (List.mem_cons_self _ _), ih fun b hb => h b (List.mem_cons_of_mem _ hb)]

theorem count_generate_expression (cf : symbol_t) (e : node_t) (i : Instr)
    (hi : is_expression_instr i = false) : (generate_expression cf e).out.count i = 0 := by
  rw [List.count_eq_zero]
  intro hmem
  have h := emits_only_generate_expression (fun j => is_expression_instr j = true)
    (fun _ hj => hj) cf e i hmem
  simp only [hi] at h
  cases h

/-- C18: when a print statement with the items `items` generates, its output is, for each
item in item order, the lines that load the arguments (for a string item the template
`strout` and the address of the string with the table index of the item, for any other item
the code of the expression, its value from `%rax` and the template `intout`) followed by
`call safe_printf`, and after the last item the load of the newline character and
`call safe_putchar`: the output holds exactly one `call safe_printf` per item and exactly one
`call safe_putchar`, which is its last line. -/
theorem generate_print_statement_spec (cf : symbol_t) (lty : node_type_t)
    (items : List node_t) (ln : Int) (lop : String) (li : Nat) (lsym : Option symbol_t)
    (rest : List node_t) (n : Int) (op : String) (i : Nat) (sym : Option symbol_t)
    (hok : (generate_print_statement cf
      (node_t.mk node_type_t.PRINT_STATEMENT (node_t.mk lty items ln lop li lsym :: rest)
        n op i sym)).res = Except.ok ()) :
    (generate_print_statement cf
      (node_t.mk node_type_t.PRINT_STATEMENT (node_t.mk lty items ln lop li lsym :: rest)
        n op i sym)).out =
      (items.map fun item =>
        (if item.type = node_type_t.STRING_LIST_REFERENCE then
          [leaq (runtime "strout") (reg RDI),
            leaq (string_entry item.string_list_index) (reg RSI)]
        else
          (generate_expression cf item).out ++
            [movq (reg RAX) (reg RSI), leaq (runtime "intout") (reg RDI)]) ++
        [call (Label.named "safe_printf")]).flatten ++
        [movq newline (reg RDI), call (Label.named "safe_putchar")] ∧
    (generate_print_statement cf
      (node_t.mk node_type_t.PRINT_STATEMENT (node_t.mk lty items ln lop li lsym :: rest)
        n op i sym)).out.count (call (Label.named "safe_printf")) = items.length ∧
    (generate_print_statement cf
      (node_t.mk node_type_t.PRINT_STATEMENT (node_t.mk lty items ln lop li lsym :: rest)
        n op i sym)).out.count (call (Label.named "safe_putchar")) = 1 ∧
    (items = [] →
      (generate_print_statement cf
        (node_t.mk node_type_t.PRINT_STATEMENT (node_t.mk lty items ln lop li lsym :: rest)
          n op i sym)).out = [movq newline (reg RDI), call (Label.named "safe_putchar")]) := by
  have hitems : (generate_print_items cf items).res = Except.ok () := by
    unfold generate_print_statement at hok
    exact ((seq_res_ok_cons _ _).1 hok).1
  have e : (generate_print_statement cf
      (node_t.mk node_type_t.PRINT_STATEMENT (node_t.mk lty items ln lop li lsym :: rest)
        n op i sym)).out =
      (generate_print_items cf items).out ++
        [movq newline (reg RDI), call (Label.named "safe_putchar")] := by
    unfold generate_print_statement
    simp [node_t.children, seq, hitems, emit]
  rw [e, generate_print_items_out cf items hitems]
  refine ⟨rfl, ?_, ?_, fun h => by rw [h]; rfl⟩
  · rw [List.count_append, count_flatten_map_one]
    · simp
    · intro item _
      split
      · simp
      · rw [List.count_append, List.count_append,
          count_generate_expression cf item (call (Label.named "safe_printf")) rfl]
        simp
  · rw [List.count_append, count_flatten_map_zero]
    · simp
    · intro item _
      split
      · simp
      · rw [List.count_append, List.count_append,
          count_generate_expression cf item (call (Label.named "safe_putchar")) rfl]
        simp

/-- C18 at `print "s3", 1 + 2, "s0"`. -/
theorem generate_print_statement_spec_witness :
    (generate_print_statement sample_function sample_print).res = Except.ok () ∧
    (generate_print_statement sample_function sample_print).out =
      [leaq (runtime "strout") (reg RDI), leaq (string_entry 3) (reg RSI),
        call (Label.named "safe_printf"),
        movq (imm 1) (reg RAX), pushq (reg RAX), movq (imm 2) (reg RAX), popq (reg RCX),
        addq (reg RCX) (reg RAX), movq (reg RAX) (reg RSI), leaq (runtime "intout") (reg RDI),
        call (Label.named "safe_printf"),
        leaq (runtime "strout") (reg RDI), leaq (string_entry 0) (reg RSI),
        call (Label.named "safe_printf"),
        movq newline (reg RDI), call (Label.named "safe_putchar")] ∧
    (generate_print_statement sample_function sample_print).out.count
      (call (Label.named "safe_printf")) = 3 :=
  ⟨by decide,
    (generate_print_statement_spec sample_function node_type_t.LIST _ 0 "" 0 none [] 0 "" 0
      none (by decide : (generate_print_statement sample_function sample_print).res =
        Except.ok ())).1.trans (by decide),
    (generate_print_statement_spec sample_function node_type_t.LIST _ 0 "" 0 none [] 0 "" 0
      none (by decide : (generate_print_statement sample_function sample_print).res =
        Except.ok ())).2.1⟩

/-! ## Counters, labels and ids in runs that return -/

theorem visited_block_eq (ch : List node_t) (d : Nat) :
    visited_block ch d =
      match block_statements ch with
      | none => []
      | some statements => visited_list statements d := by
  induction ch with
  | nil => rw [visited_block, block_statements]
  | cons c rest ih =>
    cases rest with
    | nil =>
      cases c
      rw [visited_block, block_statements]
      rfl
    | cons c1 rest1 =>
      rw [visited_block, block_statements]
      exact ih

theorem visited_list_singleton (st : node_t) (d : Nat) :
    visited_list [st] d = visited st d := by
  rw [visited_list, visited_list, List.append_nil]

theorem visited_list_cons (st : node_t) (rest : List node_t) (d : Nat) :
    visited_list (st :: rest) d = visited_list [st] d ++ visited_list rest d := by
  rw [visited_list_singleton, visited_list]

theorem visited_block_statement (ch statements : List node_t) (n : Int) (op : String) (i : Nat)
    (sym : Option symbol_t) (d : Nat) (hb : block_statements ch = some statements) :
    visited_list [node_t.mk node_type_t.BLOCK ch n op i sym] d =
      (node_t.mk node_type_t.BLOCK ch n op i sym, d) :: visited_list statements d := by
  rw [visited_list_singleton, visited, visited_block_eq, hb]

theorem visited_if_then (c0 c1 : node_t) (rest : List node_t) (n : Int) (op : String) (i : Nat)
    (sym : Option symbol_t) (d : Nat) (hn : rest.length ≠ 1) :
    visited_list [node_t.mk node_type_t.IF_STATEMENT (c0 :: c1 :: rest) n op i sym] d =
      (node_t.mk node_type_t.IF_STATEMENT (c0 :: c1 :: rest) n op i sym, d) ::
        visited_list [c1] d := by
  rw [visited_list_singleton, visited_list_singleton, visited, visited_if]
  intro c2 hc
  simp only [List.cons.injEq, true_and] at hc
  rw [hc] at hn
  simp at hn

theorem visited_if_then_else (c0 c1 c2 : node_t) (n : Int) (op : String) (i : Nat)
    (sym : Option symbol_t) (d : Nat) :
    visited_list [node_t.mk node_type_t.IF_STATEMENT [c0, c1, c2] n op i sym] d =
      (node_t.mk node_type_t.IF_STATEMENT [c0, c1, c2] n op i sym, d) ::
        (visited_list [c1] d ++ visited_list [c2] d) := by
  rw [visited_list_singleton, visited_list_singleton, visited_list_singleton, visited,
    visited_if]

theorem visited_while_statement (c0 c1 : node_t) (rest : List node_t) (n : Int) (op : String)
    (i : Nat) (sym : Option symbol_t) (d : Nat) :
    visited_list [node_t.mk node_type_t.WHILE_STATEMENT (c0 :: c1 :: rest) n op i sym] d =
      (node_t.mk node_type_t.WHILE_STATEMENT (c0 :: c1 :: rest) n op i sym, d) ::
        visited_list [c1] (d + 1) := by
  rw [visited_list_singleton, visited_list_singleton, visited, visited_while]

theorem visited_simple (ty : node_type_t) (ch : List node_t) (n : Int) (op : String) (i : Nat)
    (sym : Option symbol_t) (d : Nat) (h1 : ty ≠ node_type_t.BLOCK)
    (h2 : ty ≠ node_type_t.IF_STATEMENT) (h3 : ty ≠ node_type_t.WHILE_STATEMENT) :
    visited_list [node_t.mk ty ch n op i sym] d = [(node_t.mk ty ch n op i sym, d)] := by
  rw [visited_list_singleton, visited]
  · intro ch1 n1 op1 i1 sym1 h
    cases h
    exact h1 rfl
  · intro ch1 n1 op1 i1 sym1 h
    cases h
    exact h2 rfl
  · intro ch1 n1 op1 i1 sym1 h
    cases h
    exact h3 rfl

theorem count_type_cons (t : node_type_t) (st : node_t) (d : Nat)
    (v : List (node_t × Nat)) :
    count_type t ((st, d) :: v) = (if st.type = t then 1 else 0) + count_type t v := by
  unfold count_type
  rw [List.countP_cons]
  simp only [decide_eq_true_eq]
  omega

theorem count_type_append (t : node_type_t) (v w : List (node_t × Nat)) :
    count_type t (v ++ w) = count_type t v + count_type t w := by
  unfold count_type
  rw [List.countP_append]

theorem count_type_nil (t : node_type_t) : count_type t [] = 0 := rfl

theorem generated_state (cf : symbol_t) (l : List node_t) (s s1 : gen_state)
    (out : List Instr) (h : generated cf l s out s1) :
    same_loops s s1 ∧
    (∀ j, MAX_LOOP_NESTING ≤ j → s1.loop_end_labels j = s.loop_end_labels j) ∧
    s1.if_counter =
      s.if_counter + count_type node_type_t.IF_STATEMENT (visited_list l s.loop_depth) ∧
    s1.while_counter =
      s.while_counter + count_type node_type_t.WHILE_STATEMENT (visited_list l s.loop_depth) ∧
    (s.loop_depth ≤ MAX_LOOP_NESTING →
      ∀ p ∈ visited_list l s.loop_depth, p.2 ≤ MAX_LOOP_NESTING) := by
  induction h with
  | nil s =>
    refine ⟨same_loops_refl s, fun _ _ => rfl, ?_, ?_, ?_⟩ <;> simp [visited_list, count_type]
  | cons st st2 rest s s1 s2 o1 o2 h1 h2 ih1 ih2 =>
    obtain ⟨a1, a2, a3, a4, a5⟩ := ih1
    obtain ⟨b1, b2, b3, b4, b5⟩ := ih2
    rw [a1.1] at b3 b4 b5
    rw [visited_list_cons, count_type_append, count_type_append]
    refine ⟨same_loops_trans _ _ _ a1 b1, fun j hj => (b2 j hj).trans (a2 j hj), by omega, by omega,
      fun hd p hp => ?_⟩
    rcases List.mem_append.1 hp with hp | hp
    · exact a5 hd p hp
    · exact b5 hd p hp
  | block ch statements n op i sym s s1 out hb h ih =>
    obtain ⟨a1, a2, a3, a4, a5⟩ := ih
    rw [visited_block_statement ch statements n op i sym _ hb, count_type_cons, count_type_cons]
    simp only [node_t.type, reduceCtorEq, if_false, Nat.zero_add]
    refine ⟨a1, a2, a3, a4, fun hd p hp => ?_⟩
    rcases List.mem_cons.1 hp with rfl | hp
    · exact hd
    · exact a5 hd p hp
  | assignment ch n op i sym s h =>
    rw [visited_simple _ ch n op i sym _ (by decide) (by decide) (by decide)]
    refine ⟨same_loops_refl s, fun _ _ => rfl, ?_, ?_, fun hd p hp => ?_⟩
    · simp [count_type, node_t.type]
    · simp [count_type, node_t.type]
    · rw [List.mem_singleton.1 hp]
      exact hd
  | print ch n op i sym s h =>
    rw [visited_simple _ ch n op i sym _ (by decide) (by decide) (by decide)]
    refine ⟨same_loops_refl s, fun _ _ => rfl, ?_, ?_, fun hd p hp => ?_⟩
    · simp [count_type, node_t.type]
    · simp [count_type, node_t.type]
    · rw [List.mem_singleton.1 hp]
      exact hd
  | return_ ch n op i sym s h =>
    rw [visited_simple _ ch n op i sym _ (by decide) (by decide) (by decide)]
    refine ⟨same_loops_refl s, fun _ _ => rfl, ?_, ?_, fun hd p hp => ?_⟩
    · simp [count_type, node_t.type]
    · simp [count_type, node_t.type]
    · rw [List.mem_singleton.1 hp]
      exact hd
  | call ch n op i sym s h =>
    rw [visited_simple _ ch n op i sym _ (by decide) (by decide) (by decide)]
    refine ⟨same_loops_refl s, fun _ _ => rfl, ?_, ?_, fun hd p hp => ?_⟩
    · simp [count_type, node_t.type]
    · simp [count_type, node_t.type]
    · rw [List.mem_singleton.1 hp]
      exact hd
  | break_ ch n op i sym s hd =>
    rw [visited_simple _ ch n op i sym _ (by decide) (by decide) (by decide)]
    refine ⟨same_loops_refl s, fun _ _ => rfl, ?_, ?_, fun hd p hp => ?_⟩
    · simp [count_type, node_t.type]
    · simp [count_type, node_t.type]
    · rw [List.mem_singleton.1 hp]
      exact hd
  | if_then c0 c1 rest n op i sym s s1 body hn hc h ih =>
    obtain ⟨a1, a2, a3, a4, a5⟩ := ih
    simp only at a1 a2 a3 a4 a5
    rw [visited_if_then c0 c1 rest n op i sym _ hn, count_type_cons, count_type_cons]
    simp only [node_t.type, reduceCtorEq, if_false, if_true, Nat.zero_add]
    refine ⟨a1, a2, by omega, a4, fun hd p hp => ?_⟩
    rcases List.mem_cons.1 hp with rfl | hp
    · exact hd
    · exact a5 hd p hp
  | if_then_else c0 c1 c2 n op i sym s s1 s2 body1 body2 hc h1 h2 ih1 ih2 =>
    obtain ⟨a1, a2, a3, a4, a5⟩ := ih1
    obtain ⟨b1, b2, b3, b4, b5⟩ := ih2
    simp only at a1 a2 a3 a4 a5
    have hd1 : s1.loop_depth = s.loop_depth := a1.1
    rw [hd1] at b3 b4 b5
    rw [visited_if_then_else c0 c1 c2 n op i sym, count_type_cons, count_type_cons,
      count_type_append, count_type_append]
    simp only [node_t.type, reduceCtorEq, if_false, if_true, Nat.zero_add]
    refine ⟨same_loops_trans _ _ _ a1 b1, fun j hj => (b2 j hj).trans (a2 j hj), by omega, by omega,
      fun hd p hp => ?_⟩
    rcases List.mem_cons.1 hp with rfl | hp
    · exact hd
    · rcases List.mem_append.1 hp with hp | hp
      · exact a5 hd p hp
      · exact b5 hd p hp
  | while_ c0 c1 rest n op i sym s s1 body hd hc h ih =>
    obtain ⟨a1, a2, a3, a4, a5⟩ := ih
    simp only [gen_state.enter_loop] at a1 a2 a3 a4 a5
    obtain ⟨a11, a12⟩ := a1
    simp only at a11 a12
    rw [visited_while_statement c0 c1 rest n op i sym, count_type_cons, count_type_cons]
    simp only [node_t.type, reduceCtorEq, if_false, if_true, Nat.zero_add]
    refine ⟨⟨?_, fun j hj => ?_⟩, fun j hj => ?_, a3, by omega, fun hd1 p hp => ?_⟩
    · simp only
      omega
    · rw [a12 j (by omega), Function.update_noteq (by omega)]
    · rw [a2 j hj, Function.update_noteq (by omega)]
    · rcases List.mem_cons.1 hp with rfl | hp
      · exact hd1
      · exact a5 (by omega) p hp

theorem emits_only_simple_statements (p : Instr → Prop)
    (hp : ∀ i, is_expression_instr i = true → p i)
    (hprintf : p (call (Label.named "safe_printf")))
    (hputchar : p (call (Label.named "safe_putchar"))) (cf : symbol_t)
    (hj : p (jmp (Label.epilogue cf.name))) :
    (∀ ch, emits_only p (generate_assignment_statement_children cf ch)) ∧
    (∀ st, emits_only p (generate_print_statement cf st)) ∧
    (∀ st, emits_only p (generate_return_statement cf st)) ∧
    (∀ ch, emits_only p (generate_function_call_children cf ch)) :=
  ⟨emits_only_assignment_children p hp cf,
    emits_only_print_statement p hp hprintf hputchar cf,
    emits_only_return_statement p hp cf hj,
    fun ch => emits_only_function_call_children p hp cf ch
      fun _ _ a _ => emits_only_generate_expression p hp cf a⟩

theorem filterMap_simple_statements {α : Type} (f : Instr → Option α)
    (hf : ∀ i, is_expression_instr i = true → f i = none)
    (hprintf : f (call (Label.named "safe_printf")) = none)
    (hputchar : f (call (Label.named "safe_putchar")) = none) (cf : symbol_t)
    (hj : f (jmp (Label.epilogue cf.name)) = none) :
    (∀ e, (generate_expression cf e).out.filterMap f = []) ∧
    (∀ ch, (generate_assignment_statement_children cf ch).out.filterMap f = []) ∧
    (∀ st, (generate_print_statement cf st).out.filterMap f = []) ∧
    (∀ st, (generate_return_statement cf st).out.filterMap f = []) ∧
    (∀ ch, (generate_function_call_children cf ch).out.filterMap f = []) := by
  obtain ⟨h1, h2, h3, h4⟩ :=
    emits_only_simple_statements (fun i => f i = none) hf hprintf hputchar cf hj
  exact ⟨fun e => List.filterMap_eq_nil_iff.2
      (emits_only_generate_expression (fun i => f i = none) hf cf e),
    fun ch => List.filterMap_eq_nil_iff.2 (h1 ch),
    fun st => List.filterMap_eq_nil_iff.2 (h2 st),
    fun st => List.filterMap_eq_nil_iff.2 (h3 st),
    fun ch => List.filterMap_eq_nil_iff.2 (h4 ch)⟩

theorem label_definitions_simple (cf : symbol_t) :
    (∀ e, label_definitions (generate_expression cf e).out = []) ∧
    (∀ ch, label_definitions (generate_assignment_statement_children cf ch).out = []) ∧
    (∀ st, label_definitions (generate_print_statement cf st).out = []) ∧
    (∀ st, label_definitions (generate_return_statement cf st).out = []) ∧
    (∀ ch, label_definitions (generate_function_call_children cf ch).out = []) := by
  refine filterMap_simple_statements _ (fun i hi => ?_) rfl rfl cf rfl
  cases i <;> first | rfl | simp [is_expression_instr] at hi

theorem if_ids_simple (cf : symbol_t) :
    (∀ e, if_ids (generate_expression cf e).out = []) ∧
    (∀ ch, if_ids (generate_assignment_statement_children cf ch).out = []) ∧
    (∀ st, if_ids (generate_print_statement cf st).out = []) ∧
    (∀ st, if_ids (generate_return_statement cf st).out = []) ∧
    (∀ ch, if_ids (generate_function_call_children cf ch).out = []) := by
  refine filterMap_simple_statements _ (fun i hi => ?_) rfl rfl cf rfl
  cases i <;> first | rfl | simp [is_expression_instr] at hi

theorem while_ids_simple (cf : symbol_t) :
    (∀ e, while_ids (generate_expression cf e).out = []) ∧
    (∀ ch, while_ids (generate_assignment_statement_children cf ch).out = []) ∧
    (∀ st, while_ids (generate_print_statement cf st).out = []) ∧
    (∀ st, while_ids (generate_return_statement cf st).out = []) ∧
    (∀ ch, while_ids (generate_function_call_children cf ch).out = []) := by
  refine filterMap_simple_statements _ (fun i hi => ?_) rfl rfl cf rfl
  cases i <;> first | rfl | simp [is_expression_instr] at hi

theorem label_definitions_append (a b : List Instr) :
    label_definitions (a ++ b) = label_definitions a ++ label_definitions b :=
  List.filterMap_append _ _ _

theorem if_ids_append (a b : List Instr) : if_ids (a ++ b) = if_ids a ++ if_ids b :=
  List.filterMap_append _ _ _

theorem while_ids_append (a b : List Instr) :
    while_ids (a ++ b) = while_ids a ++ while_ids b :=
  List.filterMap_append _ _ _

theorem label_in_range_mono (a a1 b b1 : gen_state) (lab : Label)
    (h1 : b.if_counter ≤ a.if_counter) (h2 : a1.if_counter ≤ b1.if_counter)
    (h3 : b.while_counter ≤ a.while_counter) (h4 : a1.while_counter ≤ b1.while_counter)
    (h : label_in_range a a1 lab) : label_in_range b b1 lab := by
  cases lab <;> simp only [label_in_range] at h ⊢ <;> omega

theorem label_in_range_disjoint (a b c : gen_state) (lab : Label)
    (h1 : label_in_range a b lab) (h2 : label_in_range b c lab) : False := by
  cases lab <;> simp only [label_in_range] at h1 h2 <;> omega

theorem generated_labels (cf : symbol_t) (l : List node_t) (s s1 : gen_state)
    (out : List Instr) (h : generated cf l s out s1) :
    (label_definitions out).Nodup ∧ (∀ lab ∈ label_definitions out, label_in_range s s1 lab) ∧
    s.if_counter + (if_ids out).length = s1.if_counter ∧
    s.while_counter + (while_ids out).length = s1.while_counter := by
  obtain ⟨le, la, lp, lr, lc⟩ := label_definitions_simple cf
  obtain ⟨ie, ia, ip, ir, ic⟩ := if_ids_simple cf
  obtain ⟨we, wa, wp, wr, wc⟩ := while_ids_simple cf
  induction h with
  | nil s => simp [label_definitions, if_ids, while_ids]
  | cons st st2 rest s s1 s2 o1 o2 h1 h2 ih1 ih2 =>
    obtain ⟨a1, a2, a3, a4⟩ := ih1
    obtain ⟨b1, b2, b3, b4⟩ := ih2
    rw [label_definitions_append, if_ids_append, while_ids_append, List.length_append,
      List.length_append]
    refine ⟨List.Nodup.append a1 b1 fun lab x y =>
      label_in_range_disjoint s s1 s2 lab (a2 lab x) (b2 lab y), fun lab hl => ?_, by omega,
      by omega⟩
    rcases List.mem_append.1 hl with hl | hl
    · exact label_in_range_mono s s1 s s2 lab (by omega) (by omega) (by omega) (by omega)
        (a2 lab hl)
    · exact label_in_range_mono s1 s2 s s2 lab (by omega) (by omega) (by omega) (by omega)
        (b2 lab hl)
  | block ch statements n op i sym s s1 out hb h ih => exact ih
  | assignment ch n op i sym s h => simp [la, ia, wa, label_in_range]
  | print ch n op i sym s h => simp [lp, ip, wp]
  | return_ ch n op i sym s h => simp [lr, ir, wr]
  | call ch n op i sym s h => simp [lc, ic, wc]
  | break_ ch n op i sym s hd => simp [label_definitions, if_ids, while_ids]
  | if_then c0 c1 rest n op i sym s s1 body hn hc h ih =>
    obtain ⟨a1, a2, a3, a4⟩ := ih
    simp only at a2 a3 a4
    have e1 : label_definitions ((generate_expression cf c0).out ++
        [cmpq (imm 0) (reg RAX), je (Label.ENDIF s.if_counter)] ++ body ++
        [label (Label.ENDIF s.if_counter)]) =
        label_definitions body ++ [Label.ENDIF s.if_counter] := by
      simp only [label_definitions_append, le]
      simp [label_definitions]
    have e2 : if_ids ((generate_expression cf c0).out ++
        [cmpq (imm 0) (reg RAX), je (Label.ENDIF s.if_counter)] ++ body ++
        [label (Label.ENDIF s.if_counter)]) = if_ids body ++ [s.if_counter] := by
      simp only [if_ids_append, ie]
      simp [if_ids]
    have e3 : while_ids ((generate_expression cf c0).out ++
        [cmpq (imm 0) (reg RAX), je (Label.ENDIF s.if_counter)] ++ body ++
        [label (Label.ENDIF s.if_counter)]) = while_ids body := by
      simp only [while_ids_append, we]
      simp [while_ids]
    rw [e1, e2, e3, List.length_append]
    refine ⟨List.Nodup.append a1 (List.nodup_singleton _) fun lab x y => ?_, fun lab hl => ?_,
      by simp only [List.length_singleton]; omega, a4⟩
    · rw [List.mem_singleton.1 y] at x
      have := a2 _ x
      simp only [label_in_range] at this
      omega
    · rcases List.mem_append.1 hl with hl | hl
      · exact label_in_range_mono _ s1 s s1 lab (by simp) (by omega) (by simp) (by omega)
          (a2 lab hl)
      · rw [List.mem_singleton.1 hl]
        simp only [label_in_range]
        omega
  | if_then_else c0 c1 c2 n op i sym s s1 s2 body1 body2 hc h1 h2 ih1 ih2 =>
    obtain ⟨a1, a2, a3, a4⟩ := ih1
    obtain ⟨b1, b2, b3, b4⟩ := ih2
    simp only at a2 a3 a4
    have e1 : label_definitions ((generate_expression cf c0).out ++
        [cmpq (imm 0) (reg RAX), je (Label.ELSE s.if_counter)] ++ body1 ++
        [jmp (Label.ENDIF s.if_counter), label (Label.ELSE s.if_counter)] ++ body2 ++
        [label (Label.ENDIF s.if_counter)]) =
        label_definitions body1 ++ ([Label.ELSE s.if_counter] ++ (label_definitions body2 ++
          [Label.ENDIF s.if_counter])) := by
      simp only [label_definitions_append, le]
      simp [label_definitions]
    have e2 : if_ids ((generate_expression cf c0).out ++
        [cmpq (imm 0) (reg RAX), je (Label.ELSE s.if_counter)] ++ body1 ++
        [jmp (Label.ENDIF s.if_counter), label (Label.ELSE s.if_counter)] ++ body2 ++
        [label (Label.ENDIF s.if_counter)]) =
        if_ids body1 ++ (if_ids body2 ++ [s.if_counter]) := by
      simp only [if_ids_append, ie]
      simp [if_ids]
    have e3 : while_ids ((generate_expression cf c0).out ++
        [cmpq (imm 0) (reg RAX), je (Label.ELSE s.if_counter)] ++ body1 ++
        [jmp (Label.ENDIF s.if_counter), label (Label.ELSE s.if_counter)] ++ body2 ++
        [label (Label.ENDIF s.if_counter)]) = while_ids body1 ++ while_ids body2 := by
      simp only [while_ids_append, we]
      simp [while_ids]
    rw [e1, e2, e3, List.length_append, List.length_append, List.length_append]
    have r1 : ∀ lab ∈ label_definitions body1, label_in_range s s2 lab ∧
        lab ≠ Label.ELSE s.if_counter ∧ lab ≠ Label.ENDIF s.if_counter := by
      intro lab hl
      have := a2 lab hl
      refine ⟨label_in_range_mono _ s1 s s2 lab (by simp) (by omega) (by simp) (by omega)
        this, ?_, ?_⟩ <;>
      · rintro rfl
        simp only [label_in_range] at this
        omega
    have r2 : ∀ lab ∈ label_definitions body2, label_in_range s s2 lab ∧
        lab ≠ Label.ELSE s.if_counter ∧ lab ≠ Label.ENDIF s.if_counter ∧
        lab ∉ label_definitions body1 := by
      intro lab hl
      have := b2 lab hl
      refine ⟨label_in_range_mono s1 s2 s s2 lab (by omega) (by omega) (by omega) (by omega)
        this, ?_, ?_, fun hl1 => label_in_range_disjoint _ s1 s2 lab (a2 lab hl1) this⟩ <;>
      · rintro rfl
        simp only [label_in_range] at this
        omega
    refine ⟨?_, fun lab hl => ?_, by simp only [List.length_singleton]; omega, by omega⟩
    · refine List.Nodup.append a1 (List.Nodup.append (List.nodup_singleton _)
        (List.Nodup.append b1 (List.nodup_singleton _) ?_) ?_) ?_
      · intro lab x y
        exact (r2 lab x).2.2.1 (List.mem_singleton.1 y)
      · intro lab x y
        rw [List.mem_singleton.1 x] at y
        rcases List.mem_append.1 y with y | y
        · exact (r2 _ y).2.1 rfl
        · simp at y
      · intro lab x y
        rcases List.mem_append.1 y with y | y
        · exact (r1 lab x).2.1 (List.mem_singleton.1 y)
        · rcases List.mem_append.1 y with y | y
          · exact (r2 lab y).2.2.2 x
          · exact (r1 lab x).2.2 (List.mem_singleton.1 y)
    · rcases List.mem_append.1 hl with hl | hl
      · exact (r1 lab hl).1
      · rcases List.mem_append.1 hl with hl | hl
        · rw [List.mem_singleton.1 hl]
          simp only [label_in_range]
          omega
        · rcases List.mem_append.1 hl with hl | hl
          · exact (r2 lab hl).1
          · rw [List.mem_singleton.1 hl]
            simp only [label_in_range]
            omega
  | while_ c0 c1 rest n op i sym s s1 body hd hc h ih =>
    obtain ⟨a1, a2, a3, a4⟩ := ih
    simp only [gen_state.enter_loop] at a2 a3 a4
    have e1 : label_definitions ([label (Label.WHILE s.while_counter)] ++
        (generate_expression cf c0).out ++
        [cmpq (imm 0) (reg RAX), je (Label.ENDWHILE s.while_counter)] ++ body ++
        [jmp (Label.WHILE s.while_counter), label (Label.ENDWHILE s.while_counter)]) =
        [Label.WHILE s.while_counter] ++ (label_definitions body ++
          [Label.ENDWHILE s.while_counter]) := by
      simp only [label_definitions_append, le]
      simp [label_definitions]
    have e2 : if_ids ([label (Label.WHILE s.while_counter)] ++
        (generate_expression cf c0).out ++
        [cmpq (imm 0) (reg RAX), je (Label.ENDWHILE s.while_counter)] ++ body ++
        [jmp (Label.WHILE s.while_counter), label (Label.ENDWHILE s.while_counter)]) =
        if_ids body := by
      simp only [if_ids_append, ie]
      simp [if_ids]
    have e3 : while_ids ([label (Label.WHILE s.while_counter)] ++
        (generate_expression cf c0).out ++
        [cmpq (imm 0) (reg RAX), je (Label.ENDWHILE s.while_counter)] ++ body ++
        [jmp (Label.WHILE s.while_counter), label (Label.ENDWHILE s.while_counter)]) =
        while_ids body ++ [s.while_counter] := by
      simp only [while_ids_append, we]
      simp [while_ids]
    rw [e1, e2, e3, List.length_append]
    have r1 : ∀ lab ∈ label_definitions body,
        label_in_range s { s1 with loop_depth := s1.loop_depth - 1 } lab ∧
        lab ≠ Label.WHILE s.while_counter ∧ lab ≠ Label.ENDWHILE s.while_counter := by
      intro lab hl
      have := a2 lab hl
      refine ⟨label_in_range_mono _ s1 s _ lab (by simp) (by simp) (by simp) (by simp)
        this, ?_, ?_⟩ <;>
      · rintro rfl
        simp only [label_in_range] at this
        omega
    refine ⟨?_, fun lab hl => ?_, a3, by simp only [List.length_singleton]; omega⟩
    · refine List.Nodup.append (List.nodup_singleton _)
        (List.Nodup.append a1 (List.nodup_singleton _) ?_) ?_
      · intro lab x y
        exact (r1 lab x).2.2 (List.mem_singleton.1 y)
      · intro lab x y
        rw [List.mem_singleton.1 x] at y
        rcases List.mem_append.1 y with y | y
        · exact (r1 _ y).2.1 rfl
        · simp at y
    · rcases List.mem_append.1 hl with hl | hl
      · rw [List.mem_singleton.1 hl]
        simp only [label_in_range]
        omega
      · rcases List.mem_append.1 hl with hl | hl
        · exact (r1 lab hl).1
        · rw [List.mem_singleton.1 hl]
          simp only [label_in_range]
          omega

theorem generate_function_success (f : function_t) (s s1 : gen_state)
    (hok : (generate_function f s).res = Except.ok s1) :
    (generate_statement f.symbol f.body s).res = Except.ok s1 ∧
    (generate_function f s).out =
      function_prologue f ++ (generate_statement f.symbol f.body s).out ++
        [label (Label.epilogue f.symbol.name), movq (reg RBP) (reg RSP), popq (reg RBP),
          ret] := by
  unfold generate_function at hok ⊢
  obtain ⟨_, -, h1, o1⟩ := bind_res_ok _ _ _ hok
  obtain ⟨s2, h2, h3, o2⟩ := bind_res_ok _ _ _ h1
  obtain ⟨_, -, h4, o3⟩ := bind_res_ok _ _ _ h3
  simp only [emitted.pure, Except.ok.injEq] at h4
  subst h4
  refine ⟨h2, ?_⟩
  rw [o1, o2, o3]
  simp [emit, emitted.pure]

theorem generate_function_res (f : function_t) (s : gen_state) :
    (generate_function f s).res = (generate_statement f.symbol f.body s).res := by
  unfold generate_function
  cases h : (generate_statement f.symbol f.body s).res <;>
    simp [emitted.bind, emit, emitted.pure, h]

theorem function_prologue_no_label {α : Type} (f : function_t) (g : Instr → Option α)
    (hg : ∀ o, g (pushq o) = none) (hm : ∀ a b, g (movq a b) = none) :
    (function_prologue f).filterMap g =
      (g (label (Label.function f.symbol.name))).toList := by
  unfold function_prologue
  have h1 : ∀ l : List Reg, (l.map fun r => pushq (reg r)).filterMap g = [] := by
    intro l
    rw [List.filterMap_eq_nil_iff]
    intro i hi
    obtain ⟨r, -, rfl⟩ := List.mem_map.1 hi
    exact hg _
  have h2 : ∀ l : List symbol_t, (l.map fun _ => pushq (imm 0)).filterMap g = [] := by
    intro l
    rw [List.filterMap_eq_nil_iff]
    intro i hi
    obtain ⟨r, -, rfl⟩ := List.mem_map.1 hi
    exact hg _
  rw [List.filterMap_append, List.filterMap_append, h1, h2]
  simp only [List.filterMap_cons, hg, hm, List.filterMap_nil, List.append_nil]
  cases g (label (Label.function f.symbol.name)) <;> rfl

theorem label_in_range_control (s s1 : gen_state) (lab : Label)
    (h : label_in_range s s1 lab) : is_control_label lab = true := by
  cases lab <;> first | rfl | exact h.elim

theorem generate_function_labels (f : function_t) (s s1 : gen_state)
    (hok : (generate_function f s).res = Except.ok s1) :
    label_definitions (generate_function f s).out =
      Label.function f.symbol.name ::
        (label_definitions (generate_statement f.symbol f.body s).out ++
          [Label.epilogue f.symbol.name]) ∧
    control_label_definitions (generate_function f s).out =
      label_definitions (generate_statement f.symbol f.body s).out ∧
    if_ids (generate_function f s).out = if_ids (generate_statement f.symbol f.body s).out ∧
    while_ids (generate_function f s).out =
      while_ids (generate_statement f.symbol f.body s).out := by
  obtain ⟨hb, ho⟩ := generate_function_success f s s1 hok
  have hl := (generated_labels _ _ _ _ _ (generate_statement_generated _ _ _ _ hb)).2.1
  have e1 : label_definitions (generate_function f s).out =
      Label.function f.symbol.name ::
        (label_definitions (generate_statement f.symbol f.body s).out ++
          [Label.epilogue f.symbol.name]) := by
    rw [ho, label_definitions_append, label_definitions_append]
    unfold label_definitions
    rw [function_prologue_no_label f _ (fun _ => rfl) (fun _ _ => rfl)]
    rfl
  refine ⟨e1, ?_, ?_, ?_⟩
  · unfold control_label_definitions
    rw [e1, List.filter_cons, List.filter_append]
    simp only [is_control_label, Bool.false_eq_true, if_false, List.filter_cons,
      List.filter_nil, List.append_nil]
    rw [List.filter_eq_self]
    exact fun lab h => label_in_range_control s s1 lab (hl lab h)
  · rw [ho, if_ids_append, if_ids_append]
    unfold if_ids
    rw [function_prologue_no_label f _ (fun _ => rfl) (fun _ _ => rfl)]
    simp
  · rw [ho, while_ids_append, while_ids_append]
    unfold while_ids
    rw [function_prologue_no_label f _ (fun _ => rfl) (fun _ _ => rfl)]
    simp

theorem program_statements_cons_function (g : function_t) (rest : List function_t)
    (hf : g.symbol.type = symtype_t.SYMBOL_FUNCTION) :
    program_statements (g :: rest) = visited g.body 0 ++ program_statements rest := by
  simp [program_statements, function_symbols, hf]

theorem program_statements_cons_other (g : function_t) (rest : List function_t)
    (hf : g.symbol.type ≠ symtype_t.SYMBOL_FUNCTION) :
    program_statements (g :: rest) = program_statements rest := by
  simp [program_statements, function_symbols, hf]

theorem generate_functions_counts (global_symbols : List function_t) (s s1 : gen_state)
    (hok : (generate_functions global_symbols s).res = Except.ok s1)
    (hd : s.loop_depth = 0) :
    s1.loop_depth = 0 ∧
    s1.if_counter = s.if_counter +
      count_type node_type_t.IF_STATEMENT (program_statements global_symbols) ∧
    s1.while_counter = s.while_counter +
      count_type node_type_t.WHILE_STATEMENT (program_statements global_symbols) ∧
    ∀ p ∈ program_statements global_symbols, p.2 ≤ MAX_LOOP_NESTING := by
  induction global_symbols generalizing s with
  | nil =>
    simp only [generate_functions, emitted.pure, Except.ok.injEq] at hok
    subst hok
    simp [program_statements, function_symbols, count_type, hd]
  | cons g rest ih =>
    rw [generate_functions] at hok
    by_cases hf : g.symbol.type = symtype_t.SYMBOL_FUNCTION
    · simp only [ne_eq, hf, not_true_eq_false, if_false] at hok
      obtain ⟨s2, h1, h2, -⟩ := bind_res_ok _ _ _ hok
      obtain ⟨hb, -⟩ := generate_function_success g s s2 h1
      have hg := generate_statement_generated _ _ _ _ hb
      obtain ⟨a1, -, a3, a4, a5⟩ := generated_state _ _ _ _ _ hg
      rw [hd, visited_list_singleton] at a3 a4 a5
      have hd2 : s2.loop_depth = 0 := a1.1.trans hd
      obtain ⟨c1, c6, c7, c8⟩ := ih s2 h2 hd2
      rw [program_statements_cons_function g rest hf, count_type_append, count_type_append]
      refine ⟨c1, by omega, by omega, fun p hp => ?_⟩
      rcases List.mem_append.1 hp with hp | hp
      · exact a5 (Nat.zero_le _) p hp
      · exact c8 p hp
    · simp only [ne_eq, hf, not_false_eq_true, if_true] at hok
      rw [program_statements_cons_other g rest hf]
      exact ih s hok hd

theorem mem_label_definitions (code : List Instr) (lab : Label) :
    lab ∈ label_definitions code ↔ label lab ∈ code := by
  unfold label_definitions
  rw [List.mem_filterMap]
  constructor
  · rintro ⟨i, hi, h⟩
    cases i <;> simp at h
    subst h
    exact hi
  · intro h
    exact ⟨_, h, rfl⟩

theorem generate_program_success (string_list : List String)
    (global_symbols : List function_t) (s s1 : gen_state)
    (hok : (generate_program string_list global_symbols s).res = Except.ok s1) :
    ∃ first, first_function global_symbols = some first ∧
      (generate_global_variables global_symbols).res = Except.ok () ∧
      (generate_functions global_symbols s).res = Except.ok s1 ∧
      (generate_program string_list global_symbols s).out =
        generate_stringtable string_list ++ (generate_global_variables global_symbols).out ++
          [directive Directive.text] ++ (generate_functions global_symbols s).out ++
          generate_main first.symbol := by
  unfold generate_program at hok ⊢
  obtain ⟨_, -, h1, o1⟩ := bind_res_ok _ _ _ hok
  obtain ⟨_, hg, h2, o2⟩ := bind_res_ok _ _ _ h1
  obtain ⟨_, -, h3, o3⟩ := bind_res_ok _ _ _ h2
  obtain ⟨s2, hf, h4, o4⟩ := bind_res_ok _ _ _ h3
  rw [o1, o2, o3, o4]
  clear o1 o2 o3 o4 hok h1 h2 h3
  cases hfirst : first_function global_symbols with
  | none => simp [hfirst, fail] at h4
  | some first =>
    simp only [hfirst] at h4
    obtain ⟨_, -, h5, -⟩ := bind_res_ok _ _ _ h4
    simp only [emitted.pure, Except.ok.injEq] at h5
    subst h5
    refine ⟨first, rfl, hg, hf, ?_⟩
    simp [emitted.bind, emit, emitted.pure]

theorem epilogue_jump_free (cf : symbol_t) (x : String) :
    (∀ e, jmp (Label.epilogue x) ∉ (generate_expression cf e).out) ∧
    (∀ ch, jmp (Label.epilogue x) ∉ (generate_assignment_statement_children cf ch).out) ∧
    (∀ st, jmp (Label.epilogue x) ∉ (generate_print_statement cf st).out) ∧
    (∀ ch, jmp (Label.epilogue x) ∉ (generate_function_call_children cf ch).out) := by
  have hp : ∀ i, is_expression_instr i = true → i ≠ jmp (Label.epilogue x) := by
    intro i hi h
    rw [h] at hi
    simp [is_expression_instr] at hi
  exact ⟨fun e h => emits_only_generate_expression _ hp cf e _ h rfl,
    fun ch h => emits_only_assignment_children _ hp cf ch _ h rfl,
    fun st h => emits_only_print_statement _ hp (by simp) (by simp) cf st _ h rfl,
    fun ch h => emits_only_function_call_children _ hp cf ch
      (fun _ _ a _ => emits_only_generate_expression _ hp cf a) _ h rfl⟩

theorem generate_return_statement_out (cf : symbol_t) (e : node_t) (rest : List node_t)
    (n : Int) (op : String) (i : Nat) (sym : Option symbol_t)
    (h : (generate_return_statement cf
      (node_t.mk node_type_t.RETURN_STATEMENT (e :: rest) n op i sym)).res = Except.ok ()) :
    (generate_expression cf e).res = Except.ok () ∧
    (generate_return_statement cf
      (node_t.mk node_type_t.RETURN_STATEMENT (e :: rest) n op i sym)).out =
      (generate_expression cf e).out ++ [jmp (Label.epilogue cf.name)] := by
  unfold generate_return_statement at h ⊢
  simp only [node_t.children] at h ⊢
  obtain ⟨h1, -⟩ := (seq_res_ok_cons _ _).1 h
  refine ⟨h1, ?_⟩
  rw [seq_out_cons _ _ h1]
  simp [seq, emit]

theorem jumps_to_epilogue_of_append (name : String) (a b : List Instr)
    (ha : jumps_to_epilogue_of name a) (hb : jumps_to_epilogue_of name b) :
    jumps_to_epilogue_of name (a ++ b) := by
  intro x hx
  rcases List.mem_append.1 hx with hx | hx
  · exact ha x hx
  · exact hb x hx

theorem jumps_to_epilogue_of_free (name : String) (code : List Instr)
    (h : ∀ x, jmp (Label.epilogue x) ∉ code) : jumps_to_epilogue_of name code :=
  fun x hx => (h x hx).elim

theorem generated_returns (cf : symbol_t) (l : List node_t) (s s1 : gen_state)
    (out : List Instr) (h : generated cf l s out s1) :
    jumps_to_epilogue_of cf.name out ∧
    ∀ d, out.count (jmp (Label.epilogue cf.name)) =
      count_type node_type_t.RETURN_STATEMENT (visited_list l d) := by
  have hfree := fun x => epilogue_jump_free cf x
  have hcount : ∀ code : List Instr, (∀ x, jmp (Label.epilogue x) ∉ code) →
      code.count (jmp (Label.epilogue cf.name)) = 0 :=
    fun code hc => List.count_eq_zero.2 (hc _)
  induction h with
  | nil s => exact ⟨fun x hx => by simp at hx, fun d => rfl⟩
  | cons st st2 rest s s1 s2 o1 o2 h1 h2 ih1 ih2 =>
    refine ⟨jumps_to_epilogue_of_append _ _ _ ih1.1 ih2.1, fun d => ?_⟩
    rw [List.count_append, visited_list_cons, count_type_append, ih1.2 d, ih2.2 d]
  | block ch statements n op i sym s s1 out hb h ih =>
    refine ⟨ih.1, fun d => ?_⟩
    rw [visited_block_statement ch statements n op i sym d hb, count_type_cons, ih.2 d]
    simp [node_t.type]
  | assignment ch n op i sym s h =>
    refine ⟨jumps_to_epilogue_of_free _ _ fun x => (hfree x).2.1 ch, fun d => ?_⟩
    rw [hcount _ fun x => (hfree x).2.1 ch,
      visited_simple _ ch n op i sym d (by decide) (by decide) (by decide)]
    simp [count_type, node_t.type]
  | print ch n op i sym s h =>
    refine ⟨jumps_to_epilogue_of_free _ _ fun x => (hfree x).2.2.1 _, fun d => ?_⟩
    rw [hcount _ fun x => (hfree x).2.2.1 _,
      visited_simple _ ch n op i sym d (by decide) (by decide) (by decide)]
    simp [count_type, node_t.type]
  | call ch n op i sym s h =>
    refine ⟨jumps_to_epilogue_of_free _ _ fun x => (hfree x).2.2.2 ch, fun d => ?_⟩
    rw [hcount _ fun x => (hfree x).2.2.2 ch,
      visited_simple _ ch n op i sym d (by decide) (by decide) (by decide)]
    simp [count_type, node_t.type]
  | break_ ch n op i sym s hd =>
    refine ⟨fun x hx => by simp at hx, fun d => ?_⟩
    rw [visited_simple _ ch n op i sym d (by decide) (by decide) (by decide)]
    simp [count_type, node_t.type]
  | return_ ch n op i sym s h =>
    match ch with
    | [] => simp [generate_return_statement, node_t.children, fail] at h
    | e :: rest =>
      obtain ⟨-, ho⟩ := generate_return_statement_out cf e rest n op i sym h
      rw [ho]
      refine ⟨jumps_to_epilogue_of_append _ _ _
        (jumps_to_epilogue_of_free _ _ fun x => (hfree x).1 e) (fun x hx => by simpa using hx),
        fun d => ?_⟩
      rw [List.count_append, hcount _ fun x => (hfree x).1 e,
        visited_simple _ _ n op i sym d (by decide) (by decide) (by decide)]
      simp [count_type, node_t.type]
  | if_then c0 c1 rest n op i sym s s1 body hn hc h ih =>
    refine ⟨jumps_to_epilogue_of_append _ _ _ (jumps_to_epilogue_of_append _ _ _
      (jumps_to_epilogue_of_append _ _ _
        (jumps_to_epilogue_of_free _ _ fun x => (hfree x).1 c0) (fun x hx => by simp at hx))
      ih.1) (fun x hx => by simp at hx), fun d => ?_⟩
    rw [visited_if_then c0 c1 rest n op i sym d hn, count_type_cons, ← ih.2 d]
    simp [List.count_append, hcount _ fun x => (hfree x).1 c0, node_t.type]
  | if_then_else c0 c1 c2 n op i sym s s1 s2 body1 body2 hc h1 h2 ih1 ih2 =>
    refine ⟨jumps_to_epilogue_of_append _ _ _ (jumps_to_epilogue_of_append _ _ _
      (jumps_to_epilogue_of_append _ _ _ (jumps_to_epilogue_of_append _ _ _
        (jumps_to_epilogue_of_append _ _ _
          (jumps_to_epilogue_of_free _ _ fun x => (hfree x).1 c0)
          (fun x hx => by simp at hx)) ih1.1) (fun x hx => by simp at hx)) ih2.1)
      (fun x hx => by simp at hx), fun d => ?_⟩
    rw [visited_if_then_else c0 c1 c2 n op i sym d, count_type_cons, count_type_append,
      ← ih1.2 d, ← ih2.2 d]
    simp [List.count_append, hcount _ fun x => (hfree x).1 c0, node_t.type]
  | while_ c0 c1 rest n op i sym s s1 body hd hc h ih =>
    refine ⟨jumps_to_epilogue_of_append _ _ _ (jumps_to_epilogue_of_append _ _ _
      (jumps_to_epilogue_of_append _ _ _ (jumps_to_epilogue_of_append _ _ _
        (fun x hx => by simp at hx)
        (jumps_to_epilogue_of_free _ _ fun x => (hfree x).1 c0))
        (fun x hx => by simp at hx)) ih.1) (fun x hx => by simp at hx), fun d => ?_⟩
    rw [visited_while_statement c0 c1 rest n op i sym d, count_type_cons, ← ih.2 (d + 1)]
    simp [List.count_append, hcount _ fun x => (hfree x).1 c0, node_t.type]

/-! ## Chains of while statements -/

theorem generate_statement_while_chain_succ (cf : symbol_t) (n : Nat) (s : gen_state)
    (h : ¬ s.loop_depth ≥ MAX_LOOP_NESTING) :
    (generate_statement cf (while_chain (n + 1)) s).res =
      match (generate_statement cf (while_chain n) s.enter_loop).res with
      | Except.ok s1 => Except.ok { s1 with loop_depth := s1.loop_depth - 1 }
      | Except.error e => Except.error e := by
  rw [while_chain, node_t.while_, generate_statement,
    generate_while_statement_children_eq cf _ _ [] s h]
  have hc : (seq [emit [label (Label.WHILE s.while_counter)],
      generate_expression cf (node_t.number 1),
      emit [cmpq (imm 0) (reg RAX), je (Label.ENDWHILE s.while_counter)]]).res =
      Except.ok () := rfl
  rw [bind_of_ok _ _ () hc]
  simp only
  cases hb : (generate_statement cf (while_chain n) s.enter_loop).res with
  | error e => exact congrArg emitted.res (bind_of_error _ _ e hb)
  | ok s1 => exact congrArg emitted.res (bind_of_ok _ _ s1 hb)

theorem while_chain_succeeds (cf : symbol_t) (n : Nat) (s : gen_state)
    (h : s.loop_depth + n ≤ MAX_LOOP_NESTING) :
    ∃ s1, (generate_statement cf (while_chain n) s).res = Except.ok s1 := by
  induction n generalizing s with
  | zero => exact ⟨s, rfl⟩
  | succ n ih =>
    obtain ⟨s1, h1⟩ := ih s.enter_loop (by simp only [gen_state.enter_loop]; omega)
    rw [generate_statement_while_chain_succ cf n s (by omega), h1]
    exact ⟨_, rfl⟩

theorem while_chain_fails (cf : symbol_t) (n : Nat) (s : gen_state) (hn : 0 < n)
    (h : MAX_LOOP_NESTING < s.loop_depth + n) :
    (generate_statement cf (while_chain n) s).res =
      Except.error gen_error.too_many_nested_loops := by
  induction n generalizing s with
  | zero => omega
  | succ n ih =>
    by_cases hd : s.loop_depth ≥ MAX_LOOP_NESTING
    · rw [while_chain, node_t.while_, generate_statement, generate_while_statement_children]
      simp [hd, fail]
    · have h1 := ih s.enter_loop (by omega) (by simp only [gen_state.enter_loop]; omega)
      rw [generate_statement_while_chain_succ cf n s hd, h1]

/-! ## C11, C12: labels and ids -/

theorem generate_while_statement_children_too_many (cf : symbol_t) (ch : List node_t)
    (s : gen_state) (hd : s.loop_depth ≥ MAX_LOOP_NESTING) :
    generate_while_statement_children cf ch s =
      ⟨[], Except.error gen_error.too_many_nested_loops⟩ := by
  match ch with
  | [] =>
    rw [generate_while_statement_children]
    · simp [hd, fail]
    · simp
  | [_] =>
    rw [generate_while_statement_children]
    · simp [hd, fail]
    · simp
  | c0 :: c1 :: rest =>
    rw [generate_while_statement_children]
    simp [hd, fail]

theorem generate_while_statement_own_error (cf : symbol_t) (st : node_t) (s : gen_state) :
    generate_while_statement cf st s = ⟨[], Except.error gen_error.too_many_nested_loops⟩ ↔
      s.loop_depth ≥ MAX_LOOP_NESTING := by
  unfold generate_while_statement
  constructor
  · intro heq
    by_contra hd
    match hch : st.children with
    | [] =>
      rw [hch, generate_while_statement_children] at heq
      · simp [hd, fail] at heq
      · simp
    | [_] =>
      rw [hch, generate_while_statement_children] at heq
      · simp [hd, fail] at heq
      · simp
    | c0 :: c1 :: rest =>
      rw [hch, generate_while_statement_children_eq cf c0 c1 rest s hd] at heq
      have ho := congrArg emitted.out heq
      cases hc : (generate_expression cf c0).res with
      | error e => simp [emitted.bind, seq, emit, hc] at ho
      | ok u =>
        have hseq : (seq [emit [label (Label.WHILE s.while_counter)],
            generate_expression cf c0,
            emit [cmpq (imm 0) (reg RAX), je (Label.ENDWHILE s.while_counter)]]).res =
            Except.ok () := by simp [seq, emit, hc]
        rw [bind_of_ok _ _ () hseq] at ho
        simp [seq, emit, hc] at ho
  · exact generate_while_statement_children_too_many cf _ s

theorem generate_while_statement_other_errors (cf : symbol_t) (c0 c1 : node_t)
    (rest : List node_t) (n : Int) (op : String) (i : Nat) (sym : Option symbol_t)
    (s : gen_state) (e : gen_error) (hd : s.loop_depth < MAX_LOOP_NESTING)
    (he : (generate_while_statement cf
      (node_t.mk node_type_t.WHILE_STATEMENT (c0 :: c1 :: rest) n op i sym) s).res =
      Except.error e) :
    (generate_expression cf c0).res = Except.error e ∨
      (generate_statement cf c1 s.enter_loop).res = Except.error e := by
  unfold generate_while_statement at he
  simp only [node_t.children] at he
  rw [generate_while_statement_children_eq cf c0 c1 rest s (by omega)] at he
  cases hc : (generate_expression cf c0).res with
  | error e1 =>
    left
    simp [emitted.bind, seq, emit, hc] at he
    rw [he]
  | ok u =>
    right
    have hseq : (seq [emit [label (Label.WHILE s.while_counter)],
        generate_expression cf c0,
        emit [cmpq (imm 0) (reg RAX), je (Label.ENDWHILE s.while_counter)]]).res =
        Except.ok () := by simp [seq, emit, hc]
    rw [bind_of_ok _ _ () hseq] at he
    simp only at he
    cases hb : (generate_statement cf c1 s.enter_loop).res with
    | error e1 =>
      have := congrArg emitted.res (bind_of_error _
        (fun s1 : gen_state =>
          (emit [jmp (Label.WHILE s.while_counter),
            label (Label.ENDWHILE s.while_counter)]).bind fun _ =>
            emitted.pure { s1 with loop_depth := s1.loop_depth - 1 }) e1 hb)
      simp only [gen_state.enter_loop] at this
      rw [this] at he
      rw [← he]
    | ok s1 =>
      have := congrArg emitted.res (bind_of_ok _
        (fun s1 : gen_state =>
          (emit [jmp (Label.WHILE s.while_counter),
            label (Label.ENDWHILE s.while_counter)]).bind fun _ =>
            emitted.pure { s1 with loop_depth := s1.loop_depth - 1 }) s1 hb)
      simp only [gen_state.enter_loop] at this
      rw [this] at he
      simp [emitted.bind, emit, emitted.pure] at he

/-- C13: `generate_while_statement` stops with the error `too many nested loops`, before it
writes anything, if and only if `loop_depth >= MAX_LOOP_NESTING` (100) when it starts;
started with fewer active loops it raises no error of its own, an error is that of its
condition or of its body.  A chain of `n` nested while statements generated from a state
with `d` active loops returns if and only if `d + n <= 100`, and otherwise stops with `too
many nested loops`: from the initial state a chain of 100 generates and a chain of 101
fails.  In a run of `generate_statement` that returns, started with at most 100 active
loops, every statement is generated with at most 100 active loops, and no cell of
`loop_end_labels` from index 100 on is written. -/
theorem generate_while_statement_nesting_bound (cf : symbol_t) :
    (∀ st s, generate_while_statement cf st s =
        ⟨[], Except.error gen_error.too_many_nested_loops⟩ ↔
      s.loop_depth ≥ MAX_LOOP_NESTING) ∧
    (∀ c0 c1 rest n op i sym s e, s.loop_depth < MAX_LOOP_NESTING →
      (generate_while_statement cf
        (node_t.mk node_type_t.WHILE_STATEMENT (c0 :: c1 :: rest) n op i sym) s).res =
        Except.error e →
      (generate_expression cf c0).res = Except.error e ∨
        (generate_statement cf c1 s.enter_loop).res = Except.error e) ∧
    (∀ n s, 0 < n →
      ((∃ s1, (generate_statement cf (while_chain n) s).res = Except.ok s1) ↔
        s.loop_depth + n ≤ MAX_LOOP_NESTING) ∧
      (MAX_LOOP_NESTING < s.loop_depth + n →
        (generate_statement cf (while_chain n) s).res =
          Except.error gen_error.too_many_nested_loops)) ∧
    (∃ s1, (generate_statement cf (while_chain 100) gen_state.initial).res = Except.ok s1) ∧
    (generate_statement cf (while_chain 101) gen_state.initial).res =
      Except.error gen_error.too_many_nested_loops ∧
    ∀ st s s1, (generate_statement cf st s).res = Except.ok s1 →
      s.loop_depth ≤ MAX_LOOP_NESTING →
      (∀ p ∈ visited st s.loop_depth, p.2 ≤ MAX_LOOP_NESTING) ∧
      s1.loop_depth ≤ MAX_LOOP_NESTING ∧
      ∀ j, MAX_LOOP_NESTING ≤ j → s1.loop_end_labels j = s.loop_end_labels j := by
  refine ⟨generate_while_statement_own_error cf,
    fun c0 c1 rest n op i sym s e hd he =>
      generate_while_statement_other_errors cf c0 c1 rest n op i sym s e hd he,
    fun n s hn => ⟨⟨fun h => ?_, while_chain_succeeds cf n s⟩, while_chain_fails cf n s hn⟩,
    while_chain_succeeds cf 100 _ (by decide), while_chain_fails cf 101 _ (by decide)
      (by decide), fun st s s1 hok hd => ?_⟩
  · by_contra hc
    obtain ⟨s1, h1⟩ := h
    rw [while_chain_fails cf n s hn (by omega)] at h1
    cases h1
  · obtain ⟨a1, a2, -, -, a5⟩ :=
      generated_state _ _ _ _ _ (generate_statement_generated cf st s s1 hok)
    rw [visited_list_singleton] at a5
    exact ⟨a5 hd, by rw [a1.1]; exact hd, a2⟩

/-- C13 at chains of 100 and of 101 while statements generated from the initial state, and
at a while statement generated with 100 active loops. -/
theorem generate_while_statement_nesting_bound_witness :
    (∃ s1, (generate_statement sample_function (while_chain 100) gen_state.initial).res =
      Except.ok s1) ∧
    (generate_statement sample_function (while_chain 101) gen_state.initial).res =
      Except.error gen_error.too_many_nested_loops ∧
    generate_while_statement sample_function (while_chain 1)
        { gen_state.initial with loop_depth := 100 } =
      ⟨[], Except.error gen_error.too_many_nested_loops⟩ :=
  ⟨(generate_while_statement_nesting_bound sample_function).2.2.2.1,
    (generate_while_statement_nesting_bound sample_function).2.2.2.2.1,
    ((generate_while_statement_nesting_bound sample_function).1 _ _).2 (by decide)⟩

/-! ## C14: the epilogue -/

theorem function_prologue_lines (f : function_t) :
    ∀ i ∈ function_prologue f, i = label (Label.function f.symbol.name) ∨
      (∃ o, i = pushq o) ∨ ∃ a b, i = movq a b := by
  intro i hi
  unfold function_prologue at hi
  rcases List.mem_append.1 hi with hi | hi
  · rcases List.mem_append.1 hi with hi | hi
    · simp only [List.mem_cons, List.mem_singleton, List.not_mem_nil, or_false] at hi
      rcases hi with rfl | rfl | rfl
      · exact Or.inl rfl
      · exact Or.inr (Or.inl ⟨_, rfl⟩)
      · exact Or.inr (Or.inr ⟨_, _, rfl⟩)
    · obtain ⟨r, -, rfl⟩ := List.mem_map.1 hi
      exact Or.inr (Or.inl ⟨_, rfl⟩)
  · obtain ⟨r, -, rfl⟩ := List.mem_map.1 hi
    exact Or.inr (Or.inl ⟨_, rfl⟩)

/-- C14: when `generate_function` returns for a function `f`, from any state, its output is
the prologue, the code of the body and then the definition of `.f.epilogue` with the three
lines that leave the function; this is the only definition of `.f.epilogue` in the output;
every jump to an epilogue in the output is a jump to `.f.epilogue`, and there is one such
jump for each return statement generated for the body; the code of a return statement is
the code of its expression followed by the jump to the epilogue of the current function. -/
theorem generate_function_epilogue (f : function_t) (s s1 : gen_state)
    (hok : (generate_function f s).res = Except.ok s1) :
    (generate_function f s).out =
      function_prologue f ++ (generate_statement f.symbol f.body s).out ++
        [label (Label.epilogue f.symbol.name), movq (reg RBP) (reg RSP), popq (reg RBP),
          ret] ∧
    (label_definitions (generate_function f s).out).count (Label.epilogue f.symbol.name) = 1 ∧
    label (Label.epilogue f.symbol.name) ∉
      function_prologue f ++ (generate_statement f.symbol f.body s).out ∧
    jumps_to_epilogue_of f.symbol.name (generate_function f s).out ∧
    (generate_function f s).out.count (jmp (Label.epilogue f.symbol.name)) =
      count_type node_type_t.RETURN_STATEMENT (visited f.body s.loop_depth) ∧
    ∀ (e : node_t) (rest : List node_t) (n : Int) (op : String) (i : Nat)
      (sym : Option symbol_t),
      (generate_return_statement f.symbol
        (node_t.mk node_type_t.RETURN_STATEMENT (e :: rest) n op i sym)).res = Except.ok () →
      (generate_return_statement f.symbol
        (node_t.mk node_type_t.RETURN_STATEMENT (e :: rest) n op i sym)).out =
        (generate_expression f.symbol e).out ++ [jmp (Label.epilogue f.symbol.name)] := by
  obtain ⟨hb, ho⟩ := generate_function_success f s s1 hok
  have hg := generate_statement_generated _ _ _ _ hb
  obtain ⟨e1, -, -, -⟩ := generate_function_labels f s s1 hok
  have hl := (generated_labels _ _ _ _ _ hg).2.1
  obtain ⟨r1, r2⟩ := generated_returns _ _ _ _ _ hg
  have hbody : Label.epilogue f.symbol.name ∉
      label_definitions (generate_statement f.symbol f.body s).out :=
    fun h => hl _ h
  have hlines := function_prologue_lines f
  have hpro : ∀ x, jmp x ∉ function_prologue f := by
    intro x hx
    rcases hlines _ hx with h | ⟨o, h⟩ | ⟨a, b, h⟩ <;> cases h
  refine ⟨ho, ?_, ?_, ?_, ?_, fun e rest n op i sym h =>
    (generate_return_statement_out f.symbol e rest n op i sym h).2⟩
  · rw [e1, List.count_cons, List.count_append, List.count_eq_zero.2 hbody]
    simp
  · intro h
    rcases List.mem_append.1 h with h | h
    · rcases hlines _ h with h | ⟨o, h⟩ | ⟨a, b, h⟩ <;> cases h
    · exact hbody ((mem_label_definitions _ _).2 h)
  · rw [ho]
    exact jumps_to_epilogue_of_append _ _ _ (jumps_to_epilogue_of_append _ _ _
      (fun x hx => (hpro _ hx).elim) r1) (fun x hx => by simp at hx)
  · rw [ho, List.count_append, List.count_append, List.count_eq_zero.2 (hpro _),
      r2 s.loop_depth, visited_list_singleton]
    simp

/-- C14 at the function `f` with two return statements, generated second after `g`. -/
theorem generate_function_epilogue_witness :
    (label_definitions (generate_function sample_control_function
      { gen_state.initial with if_counter := 1, while_counter := 1 }).out).count
        (Label.epilogue "f") = 1 ∧
    (generate_function sample_control_function
      { gen_state.initial with if_counter := 1, while_counter := 1 }).out.count
        (jmp (Label.epilogue "f")) = 2 ∧
    (generate_function sample_control_function
      { gen_state.initial with if_counter := 1, while_counter := 1 }).out.getLast? =
      some ret :=
  ⟨(generate_function_epilogue sample_control_function
      { gen_state.initial with if_counter := 1, while_counter := 1 } _ rfl).2.1,
    (generate_function_epilogue sample_control_function
      { gen_state.initial with if_counter := 1, while_counter := 1 } _ rfl).2.2.2.2.1.trans
      (by decide),
    by decide⟩

/-! ## C20: the loop-nesting stack between statements and functions -/

theorem function_states_depth (fs : List function_t) (s : gen_state) (hd : s.loop_depth = 0) :
    ∀ p ∈ function_states fs s,
      p.1.loop_depth = 0 ∧ ∀ q, p.2 = some q → q.loop_depth = 0 := by
  induction fs generalizing s with
  | nil => simp [function_states]
  | cons f rest ih =>
    intro p hp
    rw [function_states] at hp
    cases hr : (generate_function f s).res with
    | error e =>
      simp only [hr, List.mem_singleton] at hp
      subst hp
      exact ⟨hd, fun q hq => by cases hq⟩
    | ok s2 =>
      rw [generate_function_res] at hr
      have h2 : s2.loop_depth = 0 := ((refines_break_targets_all _ _ s s2 hr).1.1).trans hd
      rw [← generate_function_res] at hr
      simp only [hr, List.mem_cons] at hp
      rcases hp with rfl | hp
      · exact ⟨hd, fun q hq => by
          simp only [Option.some.injEq] at hq
          rw [← hq]
          exact h2⟩
      · exact ih s2 h2 p hp

theorem function_states_length (fs : List function_t) (s s1 : gen_state)
    (h : ∀ f ∈ fs, f.symbol.type = symtype_t.SYMBOL_FUNCTION)
    (hok : (generate_functions fs s).res = Except.ok s1) :
    (function_states fs s).length = fs.length ∧
      ((function_states fs s).getLast?.bind fun p => p.2) = (fs.getLast?.map fun _ => s1) := by
  induction fs generalizing s with
  | nil => exact ⟨rfl, rfl⟩
  | cons f rest ih =>
    have hf := h f (List.mem_cons_self _ _)
    rw [generate_functions] at hok
    simp only [ne_eq, hf, not_true_eq_false, if_false] at hok
    obtain ⟨s2, h1, h2, -⟩ := bind_res_ok _ _ _ hok
    obtain ⟨l1, l2⟩ := ih s2 (fun g hg => h g (List.mem_cons_of_mem _ hg)) h2
    rw [function_states]
    simp only [h1, List.length_cons, l1, true_and]
    cases rest with
    | nil =>
      simp only [generate_functions, emitted.pure, Except.ok.injEq] at h2
      subst h2
      rfl
    | cons g rest1 =>
      rw [function_states] at l2 ⊢
      cases hr : (generate_function g s2).res with
      | error e => simp [generate_functions, h g (by simp), emitted.bind, hr] at h2
      | ok s3 =>
        simp only [hr] at l2 ⊢
        simpa [List.getLast?_cons_cons] using l2

/-- C20: a run of `generate_statement` that returns leaves `loop_depth` and the entries of
`loop_end_labels` below it as they were.  Hence, when the loop of `generate_program` starts
with no active loop, no loop is active on entry to any call of `generate_function` it makes
and on return from it; when `generate_program` returns, it has made one such call for every
function of the table and no loop is active at the end. -/
theorem generate_statement_loop_stack :
    (∀ cf st s s1, (generate_statement cf st s).res = Except.ok s1 →
      s1.loop_depth = s.loop_depth ∧
        ∀ j < s.loop_depth, s1.loop_end_labels j = s.loop_end_labels j) ∧
    (∀ fs s, s.loop_depth = 0 →
      ∀ p ∈ function_states fs s,
        p.1.loop_depth = 0 ∧ ∀ q, p.2 = some q → q.loop_depth = 0) ∧
    ∀ string_list global_symbols s s1, s.loop_depth = 0 →
      (generate_program string_list global_symbols s).res = Except.ok s1 →
      s1.loop_depth = 0 ∧
      (function_states (function_symbols global_symbols) s).length =
        (function_symbols global_symbols).length := by
  refine ⟨fun cf st s s1 hok => (refines_break_targets_all cf st s s1 hok).1,
    function_states_depth, fun string_list global_symbols s s1 hd hok => ?_⟩
  obtain ⟨first, -, -, hf, -⟩ := generate_program_success _ _ _ _ hok
  refine ⟨(generate_functions_counts _ _ _ hf hd).1, ?_⟩
  rw [← generate_functions_function_symbols] at hf
  refine (function_states_length _ s s1 (fun f hf1 => ?_) hf).1
  simpa [function_symbols] using (List.mem_filter.1 hf1).2

/-- C20 at the nested while statements of `sample_nested_while` generated with two active
loops, and at the table `f, v, g` generated from the initial state. -/
theorem generate_statement_loop_stack_witness :
    (∀ s1, (generate_statement sample_function sample_nested_while
        { gen_state.initial with loop_depth := 2 }).res = Except.ok s1 →
      s1.loop_depth = 2) ∧
    (function_states (function_symbols sample_control_program) gen_state.initial).map
        (fun p => (p.1.loop_depth, p.2.map fun q => q.loop_depth)) =
      [(0, some 0), (0, some 0)] ∧
    ∀ p ∈ function_states (function_symbols sample_control_program) gen_state.initial,
      p.1.loop_depth = 0 ∧ ∀ q, p.2 = some q → q.loop_depth = 0 :=
  ⟨fun s1 h => (generate_statement_loop_stack.1 sample_function sample_nested_while _ s1 h).1,
    by decide,
    generate_statement_loop_stack.2.1 (function_symbols sample_control_program)
      gen_state.initial rfl⟩

/-! ## C19: stack balance -/

end Generator
